import Mathlib

/-!
# Verification of the IPC frame codec / workload registry, the worker dispatch loop and the
multipart transfer engine

Shallow embedding of `src/client/src/net/multipart_transfer.cpp`, `src/client/src/ipc.cpp`
and `src/client/src/worker.cpp`.  Unsigned 64-bit quantities (`std::uint64_t`, `std::size_t`)
are natural numbers with explicit reduction modulo `2 ^ 64`.
-/

/-- Modulus of the 64-bit unsigned types `std::uint64_t` and `std::size_t`. -/
def u64_mod : Nat := 2 ^ 64

/-- Wrapping 64-bit addition. -/
def add64 (a b : Nat) : Nat := (a + b) % u64_mod

/-- Wrapping 64-bit subtraction. -/
def sub64 (a b : Nat) : Nat := (a + (u64_mod - b % u64_mod)) % u64_mod

namespace multipart_transfer

/-- The struct `multipart_transfer::part_range`: an inclusive byte range. -/
structure part_range where
  start : Nat
  end_inclusive : Nat
deriving DecidableEq, Repr

/-- The struct `multipart_transfer::options`. -/
structure options where
  max_threads : Nat
  chunk_size_bytes : Nat
  per_request_timeout_seconds : Int
  output_file_path : String
deriving DecidableEq, Repr

/-- The `for` loop of `plan_parts` (lines 85-91): the first argument counts the iterations
that are left (`parts_desired - i`), then come `i` and `offset`. -/
def plan_parts_loop (base rem : Nat) : Nat → Nat → Nat → List part_range
  | 0, _, _ => []
  | n + 1, i, offset =>
    let size := add64 base (if i < rem then 1 else 0)
    let start := offset
    let end_inclusive := sub64 (add64 start size) 1
    part_range.mk start end_inclusive :: plan_parts_loop base rem n (i + 1) (add64 offset size)

/-- The function `multipart_transfer::plan_parts` (lines 71-93). -/
def plan_parts (total_bytes : Nat) (opts : options) : List part_range :=
  if total_bytes = 0 then []
  else
    let parts_desired := if opts.max_threads > 0 then opts.max_threads else 1
    let parts_desired := if parts_desired > total_bytes then total_bytes else parts_desired
    let base := total_bytes / parts_desired
    let rem := total_bytes % parts_desired
    plan_parts_loop base rem parts_desired 0 0

/-- Number of bytes of an inclusive range, `end_inclusive - start + 1`. -/
def part_range.size (p : part_range) : Nat := p.end_inclusive - p.start + 1

/-- The struct `http_client::response`: status code, body bytes and the header map (the
client stores header names in lower case). -/
structure response where
  status_code : Int
  body : List Nat
  headers : List (String × String)
deriving DecidableEq, Repr

/-- The struct `multipart_transfer::progress_info`; the two throughput fields are clock
readings divided by byte counts and are not represented. -/
structure progress_info where
  part_index : Nat
  part_bytes_downloaded : Nat
  part_total_bytes : Nat
  global_bytes_downloaded : Nat
  global_total_bytes : Nat
deriving DecidableEq, Repr

/-- A call of one of the two callbacks handed to `download`. -/
inductive event where
  | progress (p : progress_info)
  | complete (success : Bool) (error_message : String)
deriving DecidableEq, Repr

/-- The lookup `headers.find(name)` on the header map. -/
def find_header (resp : response) (name : String) : Option String :=
  resp.headers.lookup name

/-- The helper `to_lower_copy` (lines 11-15), on the characters of the string. -/
def to_lower_copy (s : List Char) : List Char := s.map Char.toLower

/-- The search `v.find(needle) != std::string::npos`. -/
def contains_substr (needle : List Char) : List Char → Bool
  | [] => needle.isEmpty
  | c :: cs => needle.isPrefixOf (c :: cs) || contains_substr needle cs

/-- The search `v.rfind(c)` scanning from index `i`, `acc` being the last hit so far. -/
def rfind_from (c : Char) : List Char → Nat → Option Nat → Option Nat
  | [], _, acc => acc
  | x :: xs, i, acc => rfind_from c xs (i + 1) (if x = c then some i else acc)

/-- The function `multipart_transfer::server_supports_ranges` (lines 26-39). -/
def server_supports_ranges (resp : response) : Bool :=
  if resp.status_code = 206 then true
  else
    match find_header resp "content-range" with
    | some _ => true
    | none =>
      match find_header resp "accept-ranges" with
      | none => false
      | some v => contains_substr "bytes".toList (to_lower_copy v.toList)

/-- The fallback of `parse_content_length` to the Content-Length header (lines 59-68);
`stoull` stands for `std::stoull`, `none` being a thrown exception. -/
def content_length_fallback (stoull : String → Option Nat) (resp : response) : Nat :=
  match find_header resp "content-length" with
  | none => 0
  | some v =>
    match stoull v with
    | some n => n % u64_mod
    | none => 0

/-- The function `multipart_transfer::parse_content_length` (lines 41-69). -/
def parse_content_length (stoull : String → Option Nat) (resp : response) : Nat :=
  match find_header resp "content-range" with
  | some v =>
    match rfind_from '/' v.toList 0 none with
    | some slash_pos =>
      if slash_pos + 1 < v.toList.length then
        match stoull (String.mk (v.toList.drop (slash_pos + 1))) with
        | some total =>
          if total % u64_mod > 0 then total % u64_mod
          else content_length_fallback stoull resp
        | none => content_length_fallback stoull resp
      else content_length_fallback stoull resp
    | none => content_length_fallback stoull resp
  | none => content_length_fallback stoull resp

/-- The call `std::memcpy(&target[dst], src.data() + src_off, n)`; `none` when `target[dst]`
does not exist or the copy leaves the target or the source. -/
def memcpy (target : List Nat) (dst : Nat) (src : List Nat) (src_off n : Nat) :
    Option (List Nat) :=
  if dst < target.length ∧ dst + n ≤ target.length ∧ src_off + n ≤ src.length then
    some (target.take dst ++ ((src.drop src_off).take n ++ target.drop (dst + n)))
  else none

/-- How far a call of `download_part` has got. -/
inductive part_status where
  | returned (ok : Bool)
  | running
  | out_of_bounds
deriving DecidableEq, Repr

/-- The memory a call of `download_part` works on: the shared target buffer, the shared counter
`global_written`, the out-parameter `out_error` and the `on_progress` calls made so far. -/
structure part_state where
  target : List Nat
  global_written : Nat
  out_error : String
  progress : List progress_info
deriving DecidableEq, Repr

/-- What a call of `download_part` observes from outside: `cancel k` is the `k`-th read of
`cancel_requested_` (read 0 is the one of line 102), and `get k chunk_start chunk_end` is the
answer to the `k`-th request of the call, sent with `Range: bytes=chunk_start-chunk_end`. -/
structure part_env where
  cancel : Nat → Bool
  get : Nat → Nat → Nat → response

/-- The copy of one sub-chunk out of the response body (lines 135-151): an error message
when the body is rejected, otherwise the result of the `memcpy`. -/
def copy_chunk (resp : response) (target : List Nat) (chunk_start chunk_end chunk : Nat) :
    Except String (Option (List Nat)) :=
  if resp.status_code = 200 then
    if resp.body.length < add64 chunk_end 1 then Except.error "unexpected short 200 body"
    else Except.ok (memcpy target chunk_start resp.body chunk_start chunk)
  else
    if resp.body.length ≠ chunk then Except.error "partial body length mismatch"
    else Except.ok (memcpy target chunk_start resp.body 0 chunk)

/-- Result of one pass through the body of the sub-chunk loop: the call stops, or the loop
goes on with a new `part_done`. -/
inductive step_result where
  | stop (status : part_status) (st : part_state)
  | next (part_done : Nat) (st : part_state)
deriving DecidableEq, Repr

/-- The body of the `while` loop of `download_part` (lines 115-168); `k` counts the iterations
already done. -/
def download_part_step (env : part_env) (range : part_range) (part_index : Nat)
    (opts : options) (has_on_progress : Bool) (part_total k part_done : Nat)
    (st : part_state) : step_result :=
  if env.cancel (k + 1) then
    step_result.stop (part_status.returned false) { st with out_error := "cancelled" }
  else
    let chunk := min opts.chunk_size_bytes (sub64 part_total part_done)
    let chunk_start := add64 range.start part_done
    let chunk_end := sub64 (add64 chunk_start chunk) 1
    let resp := env.get k chunk_start chunk_end
    if resp.status_code ≠ 206 ∧ resp.status_code ≠ 200 then
      step_result.stop (part_status.returned false)
        { st with out_error := "http status " ++ toString resp.status_code }
    else
      match copy_chunk resp st.target chunk_start chunk_end chunk with
      | Except.error e =>
        step_result.stop (part_status.returned false) { st with out_error := e }
      | Except.ok none => step_result.stop part_status.out_of_bounds st
      | Except.ok (some target) =>
        let part_done := add64 part_done chunk
        let written := add64 st.global_written chunk
        let p := progress_info.mk part_index part_done part_total written target.length
        step_result.next part_done
          { st with
            target := target
            global_written := written
            progress := if has_on_progress then st.progress ++ [p] else st.progress }

/-- The `while` loop of `download_part` (lines 114-169). The first argument bounds the number
of iterations; `k` counts the iterations already done. -/
def download_part_loop (env : part_env) (range : part_range) (part_index : Nat)
    (opts : options) (has_on_progress : Bool) (part_total : Nat) :
    Nat → Nat → Nat → part_state → part_status × part_state
  | 0, _, part_done, st =>
    if part_done < part_total then (part_status.running, st)
    else (part_status.returned true, st)
  | fuel + 1, k, part_done, st =>
    if part_done < part_total then
      match download_part_step env range part_index opts has_on_progress part_total k
          part_done st with
      | step_result.stop status st1 => (status, st1)
      | step_result.next part_done1 st1 =>
        download_part_loop env range part_index opts has_on_progress part_total fuel (k + 1)
          part_done1 st1
    else (part_status.returned true, st)

/-- The function `multipart_transfer::download_part` (lines 95-172), run for at most `fuel`
iterations of its loop. -/
def download_part (env : part_env) (fuel : Nat) (range : part_range) (part_index : Nat)
    (opts : options) (has_on_progress : Bool) (st : part_state) : part_status × part_state :=
  if env.cancel 0 then (part_status.returned false, { st with out_error := "cancelled" })
  else
    let part_total := add64 (sub64 range.end_inclusive range.start) 1
    download_part_loop env range part_index opts has_on_progress part_total fuel 0 0 st

/-- What a call of `download` observes from outside. The parts run as asynchronous tasks;
each task has its own view `part i` of the cancellation flag and of the server, so that the
outcome of a task does not depend on how the tasks are interleaved. -/
structure download_env where
  /-- Answer to the probe request with `Range: bytes=0-0` (line 193). -/
  probe : response
  /-- Answer to the unranged request `probe.get(url)` (lines 224 and 251). -/
  plain : response
  /-- Value of `cancel_requested_` read at line 217 or 246. -/
  cancel_single : Bool
  /-- What the task downloading part `i` observes. -/
  part : Nat → part_env
  /-- Value of `cancel_requested_` read at line 316 after the task of part `i` was awaited. -/
  cancel_after_get : Nat → Bool
  /-- Value of `cancel_requested_` read at line 324. -/
  cancel_final : Bool
  /-- Whether `file.is_open()` holds at line 344. -/
  file_opens : Bool

/-- The locals of the ranged path of `download` (lines 273-284): the futures `in_flight`
(most recently launched first, each with the captured part index and range), `next_index`,
`failed`, `first_error`, and the memory shared with the tasks. -/
structure pool_state where
  in_flight : List (Nat × part_range)
  next_index : Nat
  failed : Bool
  first_error : String
  shared : part_state
deriving DecidableEq, Repr

/-- The lambda `launch_next` (lines 286-308): launches up to `count` further parts. -/
def launch_next (parts : List part_range) :
    Nat → List (Nat × part_range) → Nat → List (Nat × part_range) × Nat
  | 0, in_flight, next_index => (in_flight, next_index)
  | count + 1, in_flight, next_index =>
    match parts[next_index]? with
    | some range => launch_next parts count ((next_index, range) :: in_flight) (next_index + 1)
    | none => (in_flight, next_index)

/-- The loop that awaits the futures (lines 312-322). The task of a part is run when its
future is awaited: `download_part` on a fresh `err`, then the bookkeeping of lines 300-304.
The first numeric argument bounds the loop iterations of every task, the second the number of
futures awaited; `none` when a task does not return. -/
def drain (env : download_env) (fuel : Nat) (parts : List part_range) (opts : options)
    (has_on_progress : Bool) : Nat → pool_state → Option pool_state
  | 0, ps => if ps.in_flight.isEmpty then some ps else none
  | n + 1, ps =>
    match ps.in_flight with
    | [] => some ps
    | (idx, range) :: rest =>
      match download_part (env.part idx) fuel range idx opts has_on_progress
          { ps.shared with out_error := "" } with
      | (part_status.returned ok, st) =>
        let first_error := if !ok && !ps.failed then st.out_error else ps.first_error
        let failed := ps.failed || !ok
        if !ok || env.cancel_after_get idx then
          drain env fuel parts opts has_on_progress n
            (pool_state.mk rest ps.next_index true first_error st)
        else
          let launched := launch_next parts 1 rest ps.next_index
          drain env fuel parts opts has_on_progress n
            (pool_state.mk launched.1 launched.2 failed first_error st)
      | _ => none

/-- What a call of `download` leaves behind: the member `buffer_` (returned by `data()`), the
callback calls in order, and the bytes written to the output file, if any. -/
structure download_result where
  buffer : List Nat
  events : List event
  file : Option (List Nat)
deriving DecidableEq, Repr

/-- The guarded call `if (on_complete) on_complete(success, message)`. -/
def notify (has_on_complete : Bool) (success : Bool) (message : String) : List event :=
  if has_on_complete then [event.complete success message] else []

/-- The call `v.resize(n)` on a byte vector. -/
def vector_resize (v : List Nat) (n : Nat) : List Nat :=
  v.take n ++ List.replicate (n - v.length) 0

/-- The buffer after a successful unranged request: `buffer_.assign(body)` when the size is
unknown (line 230), otherwise the `resize` and the `memcpy` of `buffer_.size()` bytes to the
start of the buffer (lines 257-259). -/
def store_body (total_bytes : Nat) (buffer body : List Nat) : List Nat :=
  if total_bytes = 0 then body
  else
    let buffer := if body.length ≠ total_bytes then vector_resize buffer body.length else buffer
    body.take buffer.length ++ buffer.drop buffer.length

/-- The two single-request paths of `download` (lines 215-239 when `total_bytes = 0`, lines
242-268 otherwise); `buffer` is the member `buffer_` when the path is entered. -/
def single_get (env : download_env) (has_on_progress has_on_complete : Bool)
    (total_bytes : Nat) (buffer : List Nat) : download_result :=
  if env.cancel_single then
    download_result.mk buffer (notify has_on_complete false "cancelled") none
  else
    let resp := env.plain
    if resp.status_code < 200 ∨ resp.status_code ≥ 300 then
      download_result.mk buffer
        (notify has_on_complete false ("http status " ++ toString resp.status_code)) none
    else
      let buffer := store_body total_bytes buffer resp.body
      let n := buffer.length
      let p := progress_info.mk 0 n n n n
      download_result.mk buffer
        ((if has_on_progress then [event.progress p] else []) ++ notify has_on_complete true "")
        none

/-- The end of `download` once all futures were awaited (lines 324-358). -/
def finish (env : download_env) (opts : options) (has_on_complete : Bool) (ps : pool_state) :
    download_result :=
  let events := ps.shared.progress.map event.progress
  if env.cancel_final then
    download_result.mk ps.shared.target (events ++ notify has_on_complete false "cancelled") none
  else if ps.failed then
    download_result.mk ps.shared.target
      (events ++ notify has_on_complete false
        (if ps.first_error.isEmpty then "download failed" else ps.first_error)) none
  else if !opts.output_file_path.isEmpty then
    if !env.file_opens then
      download_result.mk ps.shared.target
        (events ++ notify has_on_complete false "Failed to open output file") none
    else
      download_result.mk ps.shared.target (events ++ notify has_on_complete true "")
        (some ps.shared.target)
  else
    download_result.mk ps.shared.target (events ++ notify has_on_complete true "") none

/-- The function `multipart_transfer::download` (lines 174-359). `stoull` stands for
`std::stoull`, `fuel` bounds the loop iterations of every part, `buffer` is the member
`buffer_` at entry; `none` when some part does not return. The url is not represented: the
environment gives the answers of the server for it. -/
def download (stoull : String → Option Nat) (env : download_env) (fuel : Nat) (opts : options)
    (has_on_progress has_on_complete : Bool) (buffer : List Nat) : Option download_result :=
  let head_like := env.probe
  let total_bytes := parse_content_length stoull head_like
  let ranges := server_supports_ranges head_like
  if total_bytes = 0 then
    some (single_get env has_on_progress has_on_complete total_bytes buffer)
  else
    let buffer := List.replicate total_bytes 0
    if !ranges then
      some (single_get env has_on_progress has_on_complete total_bytes buffer)
    else
      let parts := plan_parts total_bytes opts
      let launched := launch_next parts (min opts.max_threads parts.length) [] 0
      match drain env fuel parts opts has_on_progress parts.length
          (pool_state.mk launched.1 launched.2 false "" (part_state.mk buffer 0 "" [])) with
      | none => none
      | some ps => some (finish env opts has_on_complete ps)

/-- Value of a run of decimal digits, most significant first, continuing from `acc`. -/
def decimal_value : List Char → Nat → Nat
  | [], acc => acc
  | c :: cs, acc => decimal_value cs (10 * acc + (c.toNat - '0'.toNat))

/-- A stand-in for `std::stoull` in concrete scenarios: the value of the leading decimal
digits, `none` (an exception) when there is none or the value does not fit 64 bits. -/
def decimal_stoull (s : String) : Option Nat :=
  let digits := s.toList.takeWhile Char.isDigit
  if digits.isEmpty then none
  else if decimal_value digits 0 < u64_mod then some (decimal_value digits 0) else none

/-- A server with full range support for `resource`, as seen by one part: no cancellation,
and every request for `[a, b]` is answered with status 206 and exactly the bytes `a..b`. -/
def range_server (resource : List Nat) : part_env :=
  part_env.mk (fun _ => false)
    (fun _ a b => response.mk 206 ((resource.drop a).take (b + 1 - a)) [])

/-- The environment of a transfer of `resource` from a server with full range support and
without cancellation: the probe is answered 206 with `Content-Range: bytes 0-0/T`. -/
def range_server_env (resource : List Nat) : download_env :=
  download_env.mk
    (response.mk 206 (resource.take 1)
      [("content-range", "bytes 0-0/" ++ toString resource.length)])
    (response.mk 200 resource [])
    false
    (fun _ => range_server resource)
    (fun _ => false)
    false
    true

/-- The sub-chunk that one iteration of the loop of `download_part` asks for: its length
`chunk` and the two bounds written into the Range header. -/
structure chunk_window where
  chunk : Nat
  chunk_start : Nat
  chunk_end : Nat
deriving DecidableEq, Repr

/-- The computation of `chunk`, `chunk_start` and `chunk_end` (lines 120-123). -/
def next_chunk (range : part_range) (opts : options) (part_total part_done : Nat) :
    chunk_window :=
  let chunk := min opts.chunk_size_bytes (sub64 part_total part_done)
  let chunk_start := add64 range.start part_done
  let chunk_end := sub64 (add64 chunk_start chunk) 1
  chunk_window.mk chunk chunk_start chunk_end

/-- A server that answers every request with status `s` and an empty body, as seen by one
part; no cancellation. -/
def status_server (s : Int) : part_env :=
  part_env.mk (fun _ => false) (fun _ _ _ => response.mk s [] [])

/-- The environment of a transfer of `resource` without cancellation in which the requests of
part `bad` are answered with status `s` and all other parts are served in full. -/
def one_bad_part_env (resource : List Nat) (bad : Nat) (s : Int) : download_env :=
  download_env.mk
    (response.mk 206 (resource.take 1)
      [("content-range", "bytes 0-0/" ++ toString resource.length)])
    (response.mk 200 resource [])
    false
    (fun i => if i = bad then status_server s else range_server resource)
    (fun _ => false)
    false
    true

/-- The values that a part reads from `cancel_requested_` when `cancel()` is called while the
part waits for the answer to its request number `j` (counted from 0): the read of line 102
and the reads of line 115 up to the one that precedes request `j` find the flag clear, every
read after that finds it set. -/
def cancel_during_request (j : Nat) : Nat → Bool := fun k => decide (j + 2 ≤ k)

/-- A server that answers every request with status 206 and the body `body`, as seen by a part
during whose request number `j` the call `cancel()` happens. -/
def cancelled_while_waiting (j : Nat) (s : Int) (body : List Nat) : part_env :=
  part_env.mk (cancel_during_request j) (fun _ _ _ => response.mk s body [])

/-- The environment of a transfer of `resource` in which `cancel()` is called before the task
of any part other than `bad` makes its first check and stays in force, while the requests of
part `bad` are answered with status `s`. -/
def cancelled_env (resource : List Nat) (bad : Nat) (s : Int) : download_env :=
  download_env.mk
    (response.mk 206 (resource.take 1)
      [("content-range", "bytes 0-0/" ++ toString resource.length)])
    (response.mk 200 resource [])
    true
    (fun i => if i = bad then status_server s
      else part_env.mk (fun _ => true) (range_server resource).get)
    (fun _ => true)
    true
    true

/-- A server that ignores the Range header, as seen by one part: no cancellation, and every
request is answered with status 200 and the whole `resource`. -/
def plain_server (resource : List Nat) : part_env :=
  part_env.mk (fun _ => false) (fun _ _ _ => response.mk 200 resource [])


/-- One pass through the body of the loop that awaits the futures (lines 313-321), for a
non-empty `in_flight`: the future at the back is taken and awaited (its task runs, with the
bookkeeping of lines 300-304), then either `failed` is set or `launch_next(1)` is called;
`none` when there is no future or the task does not return. -/
def await_next (env : download_env) (fuel : Nat) (parts : List part_range) (opts : options)
    (has_on_progress : Bool) (ps : pool_state) : Option pool_state :=
  match ps.in_flight with
  | [] => none
  | (idx, range) :: rest =>
    match download_part (env.part idx) fuel range idx opts has_on_progress
        { ps.shared with out_error := "" } with
    | (part_status.returned ok, st) =>
      let first_error := if !ok && !ps.failed then st.out_error else ps.first_error
      let failed := ps.failed || !ok
      if !ok || env.cancel_after_get idx then
        some (pool_state.mk rest ps.next_index true first_error st)
      else
        let launched := launch_next parts 1 rest ps.next_index
        some (pool_state.mk launched.1 launched.2 failed first_error st)
    | _ => none

/-- The locals of the ranged path of `download` after the first call of `launch_next` (line
310), `buffer` being the member `buffer_`. -/
def launched_pool (parts : List part_range) (opts : options) (buffer : List Nat) : pool_state :=
  let launched := launch_next parts (min opts.max_threads parts.length) [] 0
  pool_state.mk launched.1 launched.2 false "" (part_state.mk buffer 0 "" [])


/-- The data members of a `multipart_transfer` object (multipart_transfer.hpp, lines 72-73). -/
structure transfer_object where
  cancel_requested_ : Bool
  buffer_ : List Nat
deriving DecidableEq, Repr

/-- The function `multipart_transfer::cancel` (lines 22-24). -/
def cancel (self : transfer_object) : transfer_object :=
  { self with cancel_requested_ := true }

/-- What surrounds one run of `download`, apart from the object itself: the answers of the
server (`get i k a b` for request `k` of part `i`), whether the output file opens, and for
each place where the run reads `cancel_requested_` whether `cancel()` has been called since
the run started. -/
structure transfer_run where
  probe : response
  plain : response
  get : Nat → Nat → Nat → Nat → response
  file_opens : Bool
  cancel_called_single : Bool
  cancel_called_part : Nat → Nat → Bool
  cancel_called_after_get : Nat → Bool
  cancel_called_final : Bool

/-- The values that the reads of a run find in `cancel_requested_`, when `flag` is the value
the member holds once the run has started: a read finds the flag set when it was set then or
`cancel()` has been called since (nothing but `download` itself clears it). -/
def observed (flag : Bool) (run : transfer_run) : download_env :=
  download_env.mk run.probe run.plain (flag || run.cancel_called_single)
    (fun i => part_env.mk (fun k => flag || run.cancel_called_part i k) (run.get i))
    (fun i => flag || run.cancel_called_after_get i)
    (flag || run.cancel_called_final)
    run.file_opens

/-- The function `multipart_transfer::download` as a member function: the store of line 177
into `cancel_requested_`, then the rest of the function on the members of the object. -/
def download_on (stoull : String → Option Nat) (run : transfer_run) (fuel : Nat)
    (opts : options) (has_on_progress has_on_complete : Bool) (self : transfer_object) :
    Option download_result :=
  let self := { self with cancel_requested_ := false }
  download stoull (observed self.cancel_requested_ run) fuel opts has_on_progress
    has_on_complete self.buffer_

/-- A run against a server with full range support for `resource` during which `cancel()` is
never called. -/
def quiet_run (resource : List Nat) : transfer_run :=
  transfer_run.mk
    (response.mk 206 (resource.take 1)
      [("content-range", "bytes 0-0/" ++ toString resource.length)])
    (response.mk 200 resource [])
    (fun _ => (range_server resource).get)
    true false (fun _ _ => false) (fun _ => false) false


/-- The text behind the last occurrence of `c`, `none` when `c` does not occur. -/
def after_last (c : Char) : List Char → Option (List Char)
  | [] => none
  | x :: xs =>
    match after_last c xs with
    | some t => some t
    | none => if x = c then some xs else none

/-- The total of the Content-Range header as the specification words it: the number that
`stoull` reads from the text after the last `/` of the header, provided the header is
present, there is such a text, it parses, and the number is positive. -/
def spec_content_range_total (stoull : String → Option Nat) (resp : response) : Option Nat :=
  match find_header resp "content-range" with
  | none => none
  | some v =>
    match after_last '/' v.toList with
    | none => none
    | some t =>
      if t = [] then none
      else
        match stoull (String.mk t) with
        | some total => if total > 0 then some total else none
        | none => none

/-- The Content-Length value as the specification words it: the number that `stoull` reads
from the header, provided the header is present and parses. -/
def spec_content_length (stoull : String → Option Nat) (resp : response) : Option Nat :=
  match find_header resp "content-length" with
  | none => none
  | some v => stoull v

/-- The size of the resource as the specification words it: the Content-Range total,
otherwise the Content-Length value, otherwise 0 (size unknown). -/
def spec_parse_content_length (stoull : String → Option Nat) (resp : response) : Nat :=
  match spec_content_range_total stoull resp with
  | some total => total
  | none =>
    match spec_content_length stoull resp with
    | some n => n
    | none => 0

end multipart_transfer

namespace ipc

/-- The bytes of a `std::string` literal. -/
def str (s : String) : List Nat := s.toList.map Char.toNat

/-- Object representation of an unsigned integer of `n` bytes, least significant byte first
(the processes at both ends of the socket run on the same machine). -/
def le_bytes : Nat → Nat → List Nat
  | 0, _ => []
  | n + 1, v => v % 256 :: le_bytes n (v / 256)

/-- The unsigned integer held by an object representation, least significant byte first. -/
def le_value : List Nat → Nat
  | [] => 0
  | b :: bs => b % 256 + 256 * le_value bs

/-- What the transport holds for the next `recv` call: bytes that are available together, or a
failure. A stream without further deliveries is at end-of-stream. -/
inductive delivery where
  | data (bytes : List Nat)
  | failure
deriving DecidableEq, Repr

/-- The call `recv(m_socket_fd, buf, n, 0)`: `none` is the return value -1, otherwise the bytes
received, at most `n` and at most what is available together; no bytes at end-of-stream. -/
def recv (ch : List delivery) (n : Nat) : Option (List Nat) × List delivery :=
  if n = 0 then (some [], ch)
  else
    match ch with
    | [] => (some [], [])
    | delivery.failure :: rest => (none, rest)
    | delivery.data d :: rest =>
      if d.length ≤ n then (some d, rest)
      else (some (d.take n), delivery.data (d.drop n) :: rest)

/-- The memory of a receive buffer after `recv` stored `got` at its start: the bytes behind
keep what the buffer held before. -/
def overlay (got old : List Nat) : List Nat := got ++ old.drop got.length

/-- The values that the uninitialised locals of a decoder (`workload_id`, the kind or status
byte, and the length) hold before `recv` writes into them. -/
structure uninit_locals where
  workload_id : Nat
  byte : Nat
  length : Nat
deriving DecidableEq, Repr

/-- The enum `workload_type` (ipc.hpp, lines 11-19). -/
inductive workload_type where
  | check_installed_apps
  | scan_wim_versions
  | install_vm
  | get_vm_status
  | start_vm
  | stop_vm
  | remove_vm
deriving DecidableEq, Repr

/-- The underlying value of a `workload_type` enumerator. -/
def workload_type.underlying : workload_type → Nat
  | check_installed_apps => 0
  | scan_wim_versions => 1
  | install_vm => 2
  | get_vm_status => 3
  | start_vm => 4
  | stop_vm => 5
  | remove_vm => 6

/-- The enum `workload_status` (ipc.hpp, lines 21-25). -/
inductive workload_status where
  | in_progress
  | error
  | completed
deriving DecidableEq, Repr

/-- The underlying value of a `workload_status` enumerator. -/
def workload_status.underlying : workload_status → Nat
  | in_progress => 0
  | error => 1
  | completed => 2

/-- The part of `nlohmann::json` the codec uses, for a type `J` of JSON values: `dump`,
`parse` (an error carries the text of the `parse_error`), and `json::object()`. -/
structure json_lib (J : Type) where
  dump : J → List Nat
  parse : List Nat → Except (List Nat) J
  object : J

/-- The struct `ipc::workload_callbacks`: each callback is null (`none`) or a function object,
named by a number. -/
structure workload_callbacks where
  on_complete : Option Nat
  on_error : Option Nat
  on_progress : Option Nat
deriving DecidableEq, Repr

/-- A call of a registered callback, with the function object called and its argument. -/
inductive callback_call (J : Type) where
  | progress (fn : Nat) (message : List Nat)
  | complete (fn : Nat) (result : J)
  | error (fn : Nat) (message : List Nat)
deriving DecidableEq, Repr

/-- The data members of the class `ipc` used by the codec and the registry. -/
structure ipc_state where
  m_socket_fd : Int
  m_workload_id_counter : Nat
  m_workload_callbacks : List (Nat × workload_callbacks)
deriving DecidableEq, Repr

/-- A newly constructed `ipc` object (ipc.hpp, lines 80-88). -/
def fresh : ipc_state := ipc_state.mk (-1) 0 []

/-- The call `m_workload_callbacks.erase(it)` for the entry with key `workload_id`. -/
def erase (registry : List (Nat × workload_callbacks)) (workload_id : Nat) :
    List (Nat × workload_callbacks) :=
  registry.filter (fun e => e.1 != workload_id)

/-- The function `ipc::generate_workload_id` (lines 200-202): the new state and the id. -/
def generate_workload_id (s : ipc_state) : ipc_state × Nat :=
  ({ s with m_workload_id_counter := add64 s.m_workload_id_counter 1 },
    add64 s.m_workload_id_counter 1)

/-- What a sending function observes from the socket: the value `getsockopt` stores in `error`
(`none` when `getsockopt` itself returns -1), and whether the `k`-th `send` call succeeds. -/
structure send_env where
  sock_error : Option Int
  send_ok : Nat → Bool

/-- Result of `send_workload_request`: the new state, the returned id, and the bytes the
successful `send` calls put on the socket. -/
structure send_result where
  state : ipc_state
  id : Nat
  written : List Nat
deriving DecidableEq, Repr

/-- The function `ipc::send_workload_request` (lines 204-261). -/
def send_workload_request {J : Type} (lib : json_lib J) (s : ipc_state)
    (workload : workload_type) (params : J) (env : send_env) : send_result :=
  if s.m_socket_fd = -1 then send_result.mk s 0 []
  else if env.sock_error.isSome ∧ env.sock_error ≠ some 0 then send_result.mk s 0 []
  else
    let g := generate_workload_id s
    let workload_id := g.2
    if !env.send_ok 0 then send_result.mk g.1 0 []
    else
      let w1 := le_bytes 8 workload_id
      let workload_byte := workload.underlying % 256
      if !env.send_ok 1 then send_result.mk g.1 0 w1
      else
        let w2 := w1 ++ [workload_byte]
        let params_str := lib.dump params
        let params_length := params_str.length
        if !env.send_ok 2 then send_result.mk g.1 0 w2
        else
          let w3 := w2 ++ le_bytes 8 params_length
          if !env.send_ok 3 then send_result.mk g.1 0 w3
          else send_result.mk g.1 workload_id (w3 ++ params_str)

/-- The function `ipc::send_workload_response` (lines 316-357): the success flag and the bytes
the successful `send` calls put on the socket. -/
def send_workload_response (s : ipc_state) (workload_id : Nat) (status : workload_status)
    (message : List Nat) (env : send_env) : Bool × List Nat :=
  if s.m_socket_fd = -1 then (false, [])
  else if !env.send_ok 0 then (false, [])
  else
    let w1 := le_bytes 8 workload_id
    let status_byte := status.underlying % 256
    if !env.send_ok 1 then (false, w1)
    else
      let w2 := w1 ++ [status_byte]
      let length := message.length
      if !env.send_ok 2 then (false, w2)
      else
        let w3 := w2 ++ le_bytes 8 length
        if !env.send_ok 3 then (false, w3)
        else (true, w3 ++ message)

/-- The function `ipc::send_message` (lines 149-172). -/
def send_message (s : ipc_state) (message : List Nat) (env : send_env) : Bool × List Nat :=
  if s.m_socket_fd = -1 then (false, [])
  else
    let length := message.length
    if !env.send_ok 0 then (false, [])
    else
      let w1 := le_bytes 8 length
      if !env.send_ok 1 then (false, w1)
      else (true, w1 ++ message)

/-- The function `ipc::receive_message` (lines 174-198): the returned string, and the stream
that is left. -/
def receive_message (s : ipc_state) (u : uninit_locals) (ch : List delivery) :
    List Nat × List delivery :=
  if s.m_socket_fd = -1 then ([], ch)
  else
    match recv ch 8 with
    | (none, ch1) => ([], ch1)
    | (some got, ch1) =>
      let length := le_value (overlay got (le_bytes 8 u.length))
      let message := List.replicate length 0
      match recv ch1 length with
      | (none, ch2) => ([], ch2)
      | (some got, ch2) => (overlay got message, ch2)

/-- The function `ipc::receive_workload_request` (lines 263-314): the returned tuple (the kind
as its underlying value, -1 on failure), and the stream that is left. -/
def receive_workload_request {J : Type} (lib : json_lib J) (s : ipc_state) (u : uninit_locals)
    (ch : List delivery) : (Nat × Int × J) × List delivery :=
  if s.m_socket_fd = -1 then ((0, -1, lib.object), ch)
  else
    match recv ch 8 with
    | (none, ch1) => ((0, -1, lib.object), ch1)
    | (some got, ch1) =>
      let workload_id := le_value (overlay got (le_bytes 8 u.workload_id))
      match recv ch1 1 with
      | (none, ch2) => ((0, -1, lib.object), ch2)
      | (some got, ch2) =>
        let workload_byte := le_value (overlay got (le_bytes 1 u.byte))
        match recv ch2 8 with
        | (none, ch3) => ((0, -1, lib.object), ch3)
        | (some got, ch3) =>
          let params_length := le_value (overlay got (le_bytes 8 u.length))
          let params_str := List.replicate params_length 0
          match recv ch3 params_length with
          | (none, ch4) => ((0, -1, lib.object), ch4)
          | (some got, ch4) =>
            let params_str := overlay got params_str
            let params :=
              match lib.parse params_str with
              | Except.ok v => v
              | Except.error _ => lib.object
            ((workload_id, (workload_byte : Int), params), ch4)

/-- The function `ipc::receive_workload_response` (lines 359-402): the returned tuple (the
status as its underlying value, -1 on failure), and the stream that is left. -/
def receive_workload_response (s : ipc_state) (u : uninit_locals) (ch : List delivery) :
    (Nat × Int × List Nat) × List delivery :=
  if s.m_socket_fd = -1 then ((0, -1, []), ch)
  else
    match recv ch 8 with
    | (none, ch1) => ((0, -1, []), ch1)
    | (some got, ch1) =>
      let workload_id := le_value (overlay got (le_bytes 8 u.workload_id))
      match recv ch1 1 with
      | (none, ch2) => ((0, -1, []), ch2)
      | (some got, ch2) =>
        let status_byte := le_value (overlay got (le_bytes 1 u.byte))
        match recv ch2 8 with
        | (none, ch3) => ((0, -1, []), ch3)
        | (some got, ch3) =>
          let length := le_value (overlay got (le_bytes 8 u.length))
          let message := List.replicate length 0
          match recv ch3 length with
          | (none, ch4) => ((0, -1, []), ch4)
          | (some got, ch4) => ((workload_id, (status_byte : Int), overlay got message), ch4)

/-- The guarded call `if (cb) cb(message)` of an error or progress callback. -/
def call_opt {J : Type} (mk : Nat → List Nat → callback_call J) (cb : Option Nat)
    (message : List Nat) : List (callback_call J) :=
  match cb with
  | some fn => [mk fn message]
  | none => []

/-- How a call of a success callback ends: it returns, or it ends with a
`nlohmann::json::parse_error` whose `what()` text is given. -/
inductive callback_end where
  | returns
  | parse_error (what : List Nat)
deriving DecidableEq, Repr

/-- Success callbacks that always return. -/
def always_returns {J : Type} : Nat → J → callback_end := fun _ _ => callback_end.returns

/-- Success callbacks of which the one named `fn0` ends every call with a `parse_error` with
the text `what`, while all others return. -/
def parse_error_from {J : Type} (fn0 : Nat) (what : List Nat) : Nat → J → callback_end :=
  fun fn _ => if fn = fn0 then callback_end.parse_error what else callback_end.returns

/-- The function `ipc::handle_workload_response` (lines 423-469), the status given by its
underlying value: the new state and the callback calls made, in order. `ends fn result` says
how the call of the success callback `fn` with `result` ends: the call sits inside the `try`
block of lines 440-451, so a call that ends with a `parse_error` is followed by the `catch`
clause. A callback call that ends with any other exception (also a call of `on_error` or
`on_progress`) makes the function leave by that exception; the definition describes the calls
of the function that return. -/
def handle_workload_response {J : Type} (lib : json_lib J) (ends : Nat → J → callback_end)
    (s : ipc_state) (workload_id : Nat) (status : Int) (message : List Nat) :
    ipc_state × List (callback_call J) :=
  match s.m_workload_callbacks.lookup workload_id with
  | some cbs =>
    if status = 0 then
      (s, call_opt callback_call.progress cbs.on_progress message)
    else if status = 2 then
      let calls : List (callback_call J) :=
        match cbs.on_complete with
        | some fn =>
          match lib.parse message with
          | Except.ok result =>
            match ends fn result with
            | callback_end.returns => [callback_call.complete fn result]
            | callback_end.parse_error what =>
              callback_call.complete fn result ::
                call_opt callback_call.error cbs.on_error
                  (str "Failed to parse JSON result: " ++ what)
          | Except.error what =>
            call_opt callback_call.error cbs.on_error
              (str "Failed to parse JSON result: " ++ what)
        | none => []
      ({ s with m_workload_callbacks := erase s.m_workload_callbacks workload_id }, calls)
    else if status = 1 then
      ({ s with m_workload_callbacks := erase s.m_workload_callbacks workload_id },
        call_opt callback_call.error cbs.on_error message)
    else (s, [])
  | none => (s, [])

/-- The function `ipc::execute_workload` (lines 404-421): the new state, the bytes put on the
socket, and the callback calls made. -/
def execute_workload {J : Type} (lib : json_lib J) (s : ipc_state) (workload : workload_type)
    (params : J) (cbs : workload_callbacks) (env : send_env) :
    ipc_state × List Nat × List (callback_call J) :=
  let r := send_workload_request lib s workload params env
  if r.id = 0 then
    (r.state, r.written,
      call_opt callback_call.error cbs.on_error (str "Failed to send workload request"))
  else
    ({ r.state with
        m_workload_callbacks := (r.id, cbs) :: erase r.state.m_workload_callbacks r.id },
      r.written, [])

/-- A response frame handed to `handle_workload_response`: id, status value, message. -/
structure response_frame where
  workload_id : Nat
  status : Int
  message : List Nat
deriving DecidableEq, Repr

/-- The callback calls made by a sequence of `handle_workload_response` calls, one entry per
frame: the id of the frame and the calls made for it. -/
def handle_all {J : Type} (lib : json_lib J) (ends : Nat → J → callback_end) :
    ipc_state → List response_frame → List (Nat × List (callback_call J))
  | _, [] => []
  | s, f :: fs =>
    (f.workload_id, (handle_workload_response lib ends s f.workload_id f.status f.message).2) ::
      handle_all lib ends
        (handle_workload_response lib ends s f.workload_id f.status f.message).1 fs

/-- The state after a sequence of `handle_workload_response` calls. -/
def handle_all_state {J : Type} (lib : json_lib J) (ends : Nat → J → callback_end) :
    ipc_state → List response_frame → ipc_state
  | s, [] => s
  | s, f :: fs =>
    handle_all_state lib ends
      (handle_workload_response lib ends s f.workload_id f.status f.message).1 fs

/-- Whether a callback call is terminal (`on_complete` or `on_error`). -/
def callback_call.is_terminal {J : Type} : callback_call J → Bool
  | callback_call.progress _ _ => false
  | callback_call.complete _ _ => true
  | callback_call.error _ _ => true

/-- The function `ipc::set_socket` (lines 139-147). -/
def set_socket (s : ipc_state) (socket_fd : Int) : ipc_state :=
  { s with m_socket_fd := socket_fd }

/-- A call on an `ipc` object: adopting a socket, sending a request directly, submitting a
workload, or dispatching a response. -/
inductive call (J : Type) where
  | set_socket (socket_fd : Int)
  | send (workload : workload_type) (params : J) (env : send_env)
  | execute (workload : workload_type) (params : J) (cbs : workload_callbacks) (env : send_env)
  | handle (workload_id : Nat) (status : Int) (message : List Nat)

/-- The state after one call, and the id returned by `send_workload_request` in it (0 for a
failed send and for a dispatch). -/
def step {J : Type} (lib : json_lib J) (ends : Nat → J → callback_end) (s : ipc_state) :
    call J → ipc_state × Nat
  | call.set_socket socket_fd => (set_socket s socket_fd, 0)
  | call.send workload params env =>
    ((send_workload_request lib s workload params env).state,
      (send_workload_request lib s workload params env).id)
  | call.execute workload params cbs env =>
    ((execute_workload lib s workload params cbs env).1,
      (send_workload_request lib s workload params env).id)
  | call.handle workload_id status message =>
    ((handle_workload_response lib ends s workload_id status message).1, 0)

/-- The state after a sequence of calls. -/
def run {J : Type} (lib : json_lib J) (ends : Nat → J → callback_end) :
    ipc_state → List (call J) → ipc_state
  | s, [] => s
  | s, c :: cs => run lib ends (step lib ends s c).1 cs

/-- The ids returned by the successful sends of a sequence of calls, in order. -/
def sent_ids {J : Type} (lib : json_lib J) (ends : Nat → J → callback_end) :
    ipc_state → List (call J) → List Nat
  | _, [] => []
  | s, c :: cs =>
    if (step lib ends s c).2 = 0 then sent_ids lib ends (step lib ends s c).1 cs
    else (step lib ends s c).2 :: sent_ids lib ends (step lib ends s c).1 cs

/-- A JSON library for concrete scenarios: values are byte strings, `dump` writes the bytes
as they are, and `parse` rejects the empty text. -/
def bytes_json : json_lib (List Nat) :=
  json_lib.mk (fun v => v) (fun t => if t.isEmpty then Except.error (str "empty") else Except.ok t)
    (str "\x7b\x7d")

/-- A socket on which every `send` succeeds. -/
def good_socket : send_env := send_env.mk (some 0) (fun _ => true)

/-- Number of terminal callback calls (`on_complete` or `on_error`) made for the frames of
workload `id` in the record of a sequence of dispatches. -/
def terminal_calls {J : Type} (id : Nat) (log : List (Nat × List (callback_call J))) : Nat :=
  ((log.filter (fun e => e.1 == id)).map
    (fun e => (e.2.filter callback_call.is_terminal).length)).sum

/-- The bytes a stream delivers before it fails or ends. -/
def stream : List delivery → List Nat
  | [] => []
  | delivery.failure :: _ => []
  | delivery.data d :: rest => d ++ stream rest

/-- Whether successive `recv` calls asking for the given numbers of bytes each succeed and
get all the bytes asked for (no short read, no end-of-stream, no failure). -/
def delivers_in_full : List delivery → List Nat → Bool
  | _, [] => true
  | ch, n :: ns =>
    match (recv ch n).1 with
    | some got => got.length == n && delivers_in_full (recv ch n).2 ns
    | none => false

/-- Number of bytes that are available together for the next `recv` call. -/
def available : List delivery → Nat
  | delivery.data d :: _ => d.length
  | _ => 0

/-- The function object that a callback call invokes. -/
def callback_call.fn {J : Type} : callback_call J → Nat
  | callback_call.progress fn _ => fn
  | callback_call.complete fn _ => fn
  | callback_call.error fn _ => fn

/-- Whether `fn` is one of the three callbacks of a registry entry. -/
def workload_callbacks.owns (cbs : workload_callbacks) (fn : Nat) : Prop :=
  cbs.on_complete = some fn ∨ cbs.on_error = some fn ∨ cbs.on_progress = some fn

/-- The function `ipc::is_connected` (lines 131-133). -/
def is_connected (s : ipc_state) : Bool := s.m_socket_fd != -1

/-- The function `ipc::connect_to_server` (lines 95-118): `socket_fd` is what `socket` returns
and `connect_ok` says whether `connect` succeeds; the new state and the returned flag. -/
def connect_to_server (s : ipc_state) (socket_fd : Int) (connect_ok : Bool) :
    ipc_state × Bool :=
  if socket_fd = -1 then ({ s with m_socket_fd := socket_fd }, false)
  else if !connect_ok then ({ s with m_socket_fd := -1 }, false)
  else ({ s with m_socket_fd := socket_fd }, true)

end ipc

namespace worker

/-- A call `m_ipc.send_workload_response(workload_id, status, message)` made by the worker. -/
structure sent_response where
  workload_id : Nat
  status : ipc.workload_status
  message : String
deriving DecidableEq, Repr

/-- How a piece of worker code ends: the responses it sent, in order, and whether it ended
with an exception instead of returning. -/
structure handler_run where
  sent : List sent_response
  thrown : Bool
deriving DecidableEq, Repr

/-- The statement `return;` of a handler (or the end of its body). -/
def finished : handler_run := handler_run.mk [] false

/-- An exception that leaves the handler. -/
def raised : handler_run := handler_run.mk [] true

/-- The statement `m_ipc.send_workload_response(workload_id, status, message);` followed by
the code `rest`. -/
def respond (workload_id : Nat) (status : ipc.workload_status) (message : String)
    (rest : handler_run) : handler_run :=
  handler_run.mk (sent_response.mk workload_id status message :: rest.sent) rest.thrown

/-- A call of a collaborator followed by the code `rest`, which gets its result; `none` is a
call that throws. -/
def attempt {α : Type} (result : Option α) (rest : α → handler_run) : handler_run :=
  match result with
  | some a => rest a
  | none => raised

/-- A value stored under a key of a result object before `dump`. -/
inductive json_field where
  | text (s : String)
  | number (n : Int)
  | flag (b : Bool)
  | texts (l : List String)
deriving DecidableEq, Repr

/-- The struct `vm_config` (vm_manager.hpp, lines 9-22). -/
structure vm_config where
  name : String
  iso_path : String
  windows_edition : String
  admin_username : String
  admin_password : String
  memory_gb : Int
  cpu_cores : Int
  disk_gb : Int
  hardware_acceleration : Bool
  use_autounattend : Bool
  autounattend_iso_path : String
  virtio_iso_path : String
deriving DecidableEq, Repr

/-- The struct `autounattend_manager::configuration` (autounattend_manager.hpp, lines 7-14). -/
structure configuration where
  product_key : String
  windows_edition_index : Int
  computer_name : String
  username : String
  display_name : String
  password : String
deriving DecidableEq, Repr

/-- The struct `wim_image_info` (lines 20-25). -/
structure wim_image_info where
  name : String
  display_name : String
  description : String
  display_description : String
deriving DecidableEq, Repr

/-- What the handlers call outside the worker, for a type `J` of JSON values. A result `none`
is a call that throws. The JSON library: `dump`, `value` with a default (for strings, ints and
bools), `contains`, `j[key].get<std::string>()`, and `dump` of a newly built object. The
system: `getpid`, `system` (by command), `std::filesystem::exists`, whether a `std::ofstream`
opens. wimlib: the result of `wimlib_open_wim`, image names and descriptions by index (`none`
is a null pointer). The VM manager: its methods, `start_vm` and `get_vm_info` with the number
of the call within the handler. The value of an uninitialised `int` member. -/
structure collaborators (J : Type) where
  dump : J → Option String
  value_string : J → String → String → Option String
  value_int : J → String → Int → Option Int
  value_bool : J → String → Bool → Option Bool
  contains : J → String → Bool
  get_string : J → String → Option String
  dump_object : List (String × json_field) → Option String
  getpid : Nat
  system : String → Int
  file_exists : String → Option Bool
  ofstream_opens : String → Bool
  wimlib_open_wim : String → Int
  wimlib_get_image_name : Nat → Option String
  wimlib_get_image_description : Nat → Option String
  connect : Option Bool
  get_last_error : String
  ensure_network_available : String → Option Bool
  get_network_diagnostics : String → Option String
  vm_exists : String → Option Bool
  create_vm : vm_config → Option Bool
  start_vm : Nat → String → Option Bool
  stop_vm : String → Option Bool
  delete_vm : String → Option Bool
  get_vm_info : Nat → String → Option J
  generate_autounattend : configuration → Option String
  indeterminate_int : Int

/-- The function `worker::check_installed_apps` (lines 131-158). -/
def check_installed_apps {J : Type} (_c : collaborators J) (workload_id : Nat) (_params : J) :
    handler_run :=
  respond workload_id ipc.workload_status.in_progress "Scanning for installed applications..." <|
  let result := "\x7b\n        \"installed_apps\": [\n            \x7b\"name\": \"Firefox\", \"version\": \"120.0\", \"path\": \"/usr/bin/firefox\"\x7d,\n            \x7b\"name\": \"VSCode\", \"version\": \"1.85.0\", \"path\": \"/usr/bin/code\"\x7d,\n            \x7b\"name\": \"GIMP\", \"version\": \"2.10.34\", \"path\": \"/usr/bin/gimp\"\x7d\n        ],\n        \"total_count\": 3\n    \x7d"
  respond workload_id ipc.workload_status.completed result finished

/-- The first loop of `scan_wim_versions` (lines 213-221): `num_images` after trying the
indices from `i` on, at most `fuel` of them. -/
def count_images {J : Type} (c : collaborators J) : Nat → Nat → Nat → Nat
  | 0, _, num_images => num_images
  | fuel + 1, i, num_images =>
    match c.wimlib_get_image_name i with
    | some name => if name.length > 0 then count_images c fuel (i + 1) i else num_images
    | none => num_images

/-- The second loop of `scan_wim_versions` (lines 224-247): the images collected for the
indices from `i` on, `fuel` of them. -/
def collect_images {J : Type} (c : collaborators J) : Nat → Nat → List wim_image_info
  | 0, _ => []
  | fuel + 1, i =>
    let name := (c.wimlib_get_image_name i).getD ""
    let description := (c.wimlib_get_image_description i).getD ""
    let image_info := wim_image_info.mk name name description description
    if !image_info.name.isEmpty then image_info :: collect_images c fuel (i + 1)
    else collect_images c fuel (i + 1)

/-- The text built for one image in the conversion loop of `scan_wim_versions` (lines
263-271). -/
def version_info (image : wim_image_info) : String :=
  let version_info := if image.display_name.isEmpty then image.name else image.display_name
  if !image.display_description.isEmpty then version_info ++ " - " ++ image.display_description
  else if !image.description.isEmpty then version_info ++ " - " ++ image.description
  else version_info

/-- The function `worker::scan_wim_versions` (lines 160-283). The `umount` commands, whose
results are ignored, are not represented. -/
def scan_wim_versions {J : Type} (c : collaborators J) (workload_id : Nat) (params : J) :
    handler_run :=
  attempt (c.dump params) fun _ =>
  attempt (c.value_string params "iso_path" "") fun iso_path =>
  if iso_path.isEmpty then
    respond workload_id ipc.workload_status.error "No ISO path provided" finished
  else
    respond workload_id ipc.workload_status.in_progress "Scanning WIM images in ISO..." <|
    let mount_point := "/tmp/lsw_mount_" ++ toString c.getpid
    let wim_path := mount_point ++ "/sources/install.wim"
    let mount_cmd :=
      "mkdir -p " ++ mount_point ++ " && mount -o loop,ro " ++ iso_path ++ " " ++ mount_point
    if c.system mount_cmd ≠ 0 then
      respond workload_id ipc.workload_status.error "Failed to mount ISO file" finished
    else
      attempt (c.file_exists wim_path) fun wim_exists =>
      if !wim_exists then
        respond workload_id ipc.workload_status.error "No install.wim found in ISO" finished
      else if c.wimlib_open_wim wim_path ≠ 0 then
        respond workload_id ipc.workload_status.error "Failed to open WIM file" finished
      else
        let num_images := count_images c 10 1 0
        let images := collect_images c num_images 1
        if images.isEmpty then
          respond workload_id ipc.workload_status.error
            "Failed to scan WIM images or no images found" finished
        else
          let windows_versions := images.map version_info
          attempt (c.dump_object
            [("windows_versions", json_field.texts windows_versions),
              ("total_count", json_field.number windows_versions.length)]) fun result =>
          respond workload_id ipc.workload_status.completed result finished

/-- The constant `max_checks` of `install_vm` (line 449). -/
def max_checks : Nat := 120

/-- The `while` loop of `install_vm` that monitors the installation (lines 451-485), followed
by the code `after`, which gets `check_count`. The first argument bounds the number of
iterations, then come `installation_complete` and `check_count`. -/
def monitor_loop {J : Type} (c : collaborators J) (workload_id : Nat) (vm_name : String) :
    Nat → Bool → Nat → (Nat → handler_run) → handler_run
  | 0, _, check_count, after => after check_count
  | fuel + 1, installation_complete, check_count, after =>
    if !installation_complete && check_count < max_checks then
      let check_count := check_count + 1
      attempt (c.get_vm_info check_count vm_name) fun vm_info =>
      if c.contains vm_info "error" then
        attempt (c.get_string vm_info "error") fun e =>
        respond workload_id ipc.workload_status.error ("Failed to monitor VM: " ++ e) finished
      else
        attempt (c.value_string vm_info "state" "unknown") fun vm_state =>
        let state_check :=
          if vm_state = "running" then
            monitor_loop c workload_id vm_name fuel installation_complete check_count after
          else if vm_state = "shutoff" then
            monitor_loop c workload_id vm_name fuel true check_count after
          else
            respond workload_id ipc.workload_status.error
              ("VM installation failed - VM is in state: " ++ vm_state) finished
        if check_count % 10 = 0 then
          respond workload_id ipc.workload_status.in_progress
            ("Windows installation still in progress... (" ++ toString check_count
              ++ " minutes elapsed)") state_check
        else state_check
    else after check_count

/-- The monitoring of the installation in `install_vm` (lines 446-491): the loop, then the
check for the timeout, then the code `success_path`, which gets `check_count`. -/
def monitor_installation {J : Type} (c : collaborators J) (workload_id : Nat)
    (vm_name : String) (success_path : Nat → handler_run) : handler_run :=
  monitor_loop c workload_id vm_name max_checks false 0 fun check_count =>
    if check_count ≥ max_checks then
      respond workload_id ipc.workload_status.error
        "Windows installation timed out after 2 hours" finished
    else success_path check_count

/-- The function `worker::install_vm` (lines 285-533). The clean-up commands, whose results
are ignored, are not represented. -/
def install_vm {J : Type} (c : collaborators J) (workload_id : Nat) (params : J) :
    handler_run :=
  attempt (c.dump params) fun _ =>
  attempt (c.value_string params "vm_name" "LSWVM") fun vm_name =>
  attempt (c.value_string params "iso_path" "") fun iso_path =>
  attempt (c.value_string params "windows_edition" "Home") fun windows_edition =>
  attempt (c.value_string params "admin_username" "lsw") fun admin_username =>
  attempt (c.value_string params "admin_password" "") fun admin_password =>
  attempt (c.value_int params "memory_gb" 4) fun memory_gb =>
  attempt (c.value_int params "cpu_cores" 4) fun cpu_cores =>
  attempt (c.value_int params "disk_gb" 30) fun disk_gb =>
  attempt (c.value_bool params "hardware_acceleration" true) fun hardware_acceleration =>
  if iso_path.isEmpty then
    respond workload_id ipc.workload_status.error "ISO path is required" finished
  else if admin_password.isEmpty then
    respond workload_id ipc.workload_status.error "Admin password is required" finished
  else
    respond workload_id ipc.workload_status.in_progress "Connecting to libvirt daemon..." <|
    attempt c.connect fun connected =>
    if !connected then
      respond workload_id ipc.workload_status.error
        ("Failed to connect to libvirt: " ++ c.get_last_error) finished
    else
      respond workload_id ipc.workload_status.in_progress "Ensuring network connectivity..." <|
      attempt (c.ensure_network_available "default") fun available =>
      if !available then
        attempt (c.get_network_diagnostics "default") fun diagnostics =>
        respond workload_id ipc.workload_status.error
          ("Failed to ensure network availability: " ++ c.get_last_error ++ "\n\n"
            ++ diagnostics) finished
      else
        attempt (c.vm_exists vm_name) fun vm_present =>
        if vm_present then
          respond workload_id ipc.workload_status.error
            ("VM '" ++ vm_name ++ "' already exists") finished
        else
          let autounattend_iso_path :=
            "/tmp/" ++ vm_name ++ "_autounattend_" ++ toString c.getpid ++ ".iso"
          respond workload_id ipc.workload_status.in_progress "Creating autounattend ISO..." <|
          let autounattend_config :=
            configuration.mk "" c.indeterminate_int vm_name admin_username admin_username
              admin_password
          attempt (c.generate_autounattend autounattend_config) fun _autounattend_content =>
          let temp_dir := "/tmp/lsw_autounattend_" ++ toString c.getpid
          let autounattend_dir := temp_dir ++ "/autounattend"
          let mkdir_cmd := "mkdir -p " ++ autounattend_dir
          if c.system mkdir_cmd ≠ 0 then
            respond workload_id ipc.workload_status.error
              "Failed to create temporary directory" finished
          else
            let autounattend_path := autounattend_dir ++ "/autounattend.xml"
            if !c.ofstream_opens autounattend_path then
              respond workload_id ipc.workload_status.error
                "Failed to create autounattend.xml file" finished
            else
              let iso_cmd :=
                "genisoimage -o " ++ autounattend_iso_path ++ " -V AUTOUNATTEND -J -r "
                  ++ autounattend_dir
              if c.system iso_cmd ≠ 0 then
                respond workload_id ipc.workload_status.error
                  "Failed to create autounattend ISO" finished
              else
                let vm_config_obj :=
                  vm_config.mk vm_name iso_path windows_edition admin_username admin_password
                    memory_gb cpu_cores disk_gb hardware_acceleration true autounattend_iso_path
                    "/usr/share/virtio-win/virtio-win.iso"
                respond workload_id ipc.workload_status.in_progress
                  ("Creating VM '" ++ vm_name ++ "' with " ++ toString memory_gb
                    ++ "GB RAM and " ++ toString cpu_cores ++ " CPU cores...") <|
                attempt (c.create_vm vm_config_obj) fun created =>
                if !created then
                  respond workload_id ipc.workload_status.error
                    ("Failed to create VM: " ++ c.get_last_error) finished
                else
                  respond workload_id ipc.workload_status.in_progress
                    ("Starting VM '" ++ vm_name ++ "' for Windows installation...") <|
                  attempt (c.start_vm 0 vm_name) fun started =>
                  if !started then
                    respond workload_id ipc.workload_status.error
                      ("Failed to start VM: " ++ c.get_last_error) finished
                  else
                    respond workload_id ipc.workload_status.in_progress
                      "Windows installation in progress... This may take 30-60 minutes." <|
                    monitor_installation c workload_id vm_name fun check_count =>
                    respond workload_id ipc.workload_status.in_progress
                      "Windows installation completed! Starting VM..." <|
                    attempt (c.start_vm 1 vm_name) fun restarted =>
                    if !restarted then
                      respond workload_id ipc.workload_status.error
                        ("Failed to start VM after installation: " ++ c.get_last_error)
                        finished
                    else
                      respond workload_id ipc.workload_status.in_progress
                        "Cleaning up temporary files..." <|
                      attempt (c.dump_object
                        [("vm_name", json_field.text vm_name),
                          ("iso_path", json_field.text iso_path),
                          ("windows_edition", json_field.text windows_edition),
                          ("admin_username", json_field.text admin_username),
                          ("memory_gb", json_field.number memory_gb),
                          ("cpu_cores", json_field.number cpu_cores),
                          ("disk_gb", json_field.number disk_gb),
                          ("hardware_acceleration", json_field.flag hardware_acceleration),
                          ("status", json_field.text "installed_and_running"),
                          ("vm_id", json_field.text vm_name),
                          ("installation_time_minutes", json_field.number check_count)])
                        fun result =>
                      respond workload_id ipc.workload_status.completed result finished

/-- The function `worker::get_vm_status` (lines 535-570). -/
def get_vm_status {J : Type} (c : collaborators J) (workload_id : Nat) (params : J) :
    handler_run :=
  attempt (c.dump params) fun _ =>
  attempt (c.value_string params "vm_name" "") fun vm_name =>
  if vm_name.isEmpty then
    respond workload_id ipc.workload_status.error "VM name is required" finished
  else
    respond workload_id ipc.workload_status.in_progress
      ("Getting status for VM '" ++ vm_name ++ "'...") <|
    attempt c.connect fun connected =>
    if !connected then
      respond workload_id ipc.workload_status.error
        ("Failed to connect to libvirt: " ++ c.get_last_error) finished
    else
      attempt (c.get_vm_info 0 vm_name) fun vm_info =>
      if c.contains vm_info "error" then
        attempt (c.get_string vm_info "error") fun e =>
        respond workload_id ipc.workload_status.error e finished
      else
        attempt (c.dump vm_info) fun result =>
        respond workload_id ipc.workload_status.completed result finished

/-- The function `worker::start_vm` (lines 572-607). -/
def start_vm {J : Type} (c : collaborators J) (workload_id : Nat) (params : J) : handler_run :=
  attempt (c.dump params) fun _ =>
  attempt (c.value_string params "vm_name" "") fun vm_name =>
  if vm_name.isEmpty then
    respond workload_id ipc.workload_status.error "VM name is required" finished
  else
    respond workload_id ipc.workload_status.in_progress ("Starting VM '" ++ vm_name ++ "'...") <|
    attempt c.connect fun connected =>
    if !connected then
      respond workload_id ipc.workload_status.error
        ("Failed to connect to libvirt: " ++ c.get_last_error) finished
    else
      attempt (c.start_vm 0 vm_name) fun started =>
      if !started then
        respond workload_id ipc.workload_status.error
          ("Failed to start VM: " ++ c.get_last_error) finished
      else
        attempt (c.dump_object
          [("vm_name", json_field.text vm_name), ("status", json_field.text "running")])
          fun result =>
        respond workload_id ipc.workload_status.completed result finished

/-- The function `worker::stop_vm` (lines 609-644). -/
def stop_vm {J : Type} (c : collaborators J) (workload_id : Nat) (params : J) : handler_run :=
  attempt (c.dump params) fun _ =>
  attempt (c.value_string params "vm_name" "") fun vm_name =>
  if vm_name.isEmpty then
    respond workload_id ipc.workload_status.error "VM name is required" finished
  else
    respond workload_id ipc.workload_status.in_progress ("Stopping VM '" ++ vm_name ++ "'...") <|
    attempt c.connect fun connected =>
    if !connected then
      respond workload_id ipc.workload_status.error
        ("Failed to connect to libvirt: " ++ c.get_last_error) finished
    else
      attempt (c.stop_vm vm_name) fun stopped =>
      if !stopped then
        respond workload_id ipc.workload_status.error
          ("Failed to stop VM: " ++ c.get_last_error) finished
      else
        attempt (c.dump_object
          [("vm_name", json_field.text vm_name), ("status", json_field.text "stopped")])
          fun result =>
        respond workload_id ipc.workload_status.completed result finished

/-- The function `worker::remove_vm` (lines 646-681). -/
def remove_vm {J : Type} (c : collaborators J) (workload_id : Nat) (params : J) : handler_run :=
  attempt (c.dump params) fun _ =>
  attempt (c.value_string params "vm_name" "") fun vm_name =>
  if vm_name.isEmpty then
    respond workload_id ipc.workload_status.error "VM name is required" finished
  else
    respond workload_id ipc.workload_status.in_progress ("Removing VM '" ++ vm_name ++ "'...") <|
    attempt c.connect fun connected =>
    if !connected then
      respond workload_id ipc.workload_status.error
        ("Failed to connect to libvirt: " ++ c.get_last_error) finished
    else
      attempt (c.delete_vm vm_name) fun removed =>
      if !removed then
        respond workload_id ipc.workload_status.error
          ("Failed to remove VM: " ++ c.get_last_error) finished
      else
        attempt (c.dump_object
          [("vm_name", json_field.text vm_name), ("status", json_field.text "removed")])
          fun result =>
        respond workload_id ipc.workload_status.completed result finished

/-- The `switch` of the thread body (lines 55-94) on the kind of the request, given by its
underlying value: the handler of the kind, or only a log line for any other value. -/
def dispatch {J : Type} (c : collaborators J) (workload_id : Nat) (workload : Int) (params : J) :
    handler_run :=
  if workload = 0 then check_installed_apps c workload_id params
  else if workload = 1 then scan_wim_versions c workload_id params
  else if workload = 2 then install_vm c workload_id params
  else if workload = 3 then get_vm_status c workload_id params
  else if workload = 4 then start_vm c workload_id params
  else if workload = 5 then stop_vm c workload_id params
  else if workload = 6 then remove_vm c workload_id params
  else finished

/-- The body of the thread started for a request (lines 53-102): the `switch` inside a `try`
whose two `catch` clauses write a log line and nothing else, so that the thread ends without
an exception. -/
def workload_thread {J : Type} (c : collaborators J) (workload_id : Nat) (workload : Int)
    (params : J) : handler_run :=
  handler_run.mk (dispatch c workload_id workload params).sent false

/-- The values captured by the thread started for a request (line 53). -/
structure task (J : Type) where
  workload_id : Nat
  workload : Int
  params : J
deriving DecidableEq, Repr

/-- The value of `params_length` with which `ipc::receive_workload_request` constructs
`params_str` (ipc.cpp, line 294); `none` when the call returns before that line. -/
def declared_params_length (s : ipc.ipc_state) (u : ipc.uninit_locals)
    (ch : List ipc.delivery) : Option Nat :=
  if s.m_socket_fd = -1 then none
  else
    match ipc.recv ch 8 with
    | (none, _) => none
    | (some _, ch1) =>
      match ipc.recv ch1 1 with
      | (none, _) => none
      | (some _, ch2) =>
        match ipc.recv ch2 8 with
        | (none, _) => none
        | (some got, _) => some (ipc.le_value (ipc.overlay got (ipc.le_bytes 8 u.length)))

/-- What decides whether a pass through the main loop ends with an exception:
`string_fits n` is whether `std::string params_str(n, 0)` is constructed (it throws
`length_error` or `bad_alloc` otherwise), `thread_starts k` is whether the `std::thread` is
constructed when `k` threads have been started before (it throws `system_error`
otherwise). -/
structure loop_env where
  string_fits : Nat → Bool
  thread_starts : Nat → Bool

/-- An environment in which no pass through the main loop ends with an exception. -/
def no_exception : loop_env := loop_env.mk (fun _ => true) (fun _ => true)

/-- Whether `receive_workload_request`, called in the main loop, ends with an exception. -/
def read_throws (env : loop_env) (m_ipc : ipc.ipc_state) (u : ipc.uninit_locals)
    (ch : List ipc.delivery) : Bool :=
  match declared_params_length m_ipc u ch with
  | some n => !env.string_fits n
  | none => false

/-- The main loop of `worker::run` (lines 45-113): the threads started, in order, when the
loop ends; `none` when it is still running after the number of iterations given first. An
exception in `receive_workload_request` or in the construction of the thread is caught by
one of the two `catch` clauses (lines 106-112), which end the loop with `break`. -/
def run_loop {J : Type} (lib : ipc.json_lib J) (env : loop_env) (m_ipc : ipc.ipc_state)
    (u : ipc.uninit_locals) :
    Nat → List ipc.delivery → List (task J) → Option (List (task J))
  | 0, _, _ => none
  | fuel + 1, ch, started =>
    if ipc.is_connected m_ipc then
      if read_throws env m_ipc u ch then some started
      else
        let request := ipc.receive_workload_request lib m_ipc u ch
        if !env.thread_starts started.length then some started
        else
          run_loop lib env m_ipc u fuel request.2
            (started ++ [task.mk request.1.1 request.1.2.1 request.1.2.2])
    else some started

/-- The function `worker::run` (lines 31-116): the return value and the threads started;
`none` when the main loop is still running after `fuel` iterations. `uid` is what `getuid`
returns, `socket_fd` and `connect_ok` are the results of `socket` and `connect`. -/
def run {J : Type} (lib : ipc.json_lib J) (env : loop_env) (uid : Int) (socket_fd : Int)
    (connect_ok : Bool) (u : ipc.uninit_locals) (fuel : Nat) (ch : List ipc.delivery) :
    Option (Nat × List (task J)) :=
  if uid ≠ 0 then some (1, [])
  else
    let connected := ipc.connect_to_server ipc.fresh socket_fd connect_ok
    if !connected.2 then some (1, [])
    else (run_loop lib env connected.1 u fuel ch []).map (fun started => (0, started))

/-- Collaborators for concrete scenarios: a JSON value is a list of string fields, every call
succeeds, no VM exists beforehand, the ISO holds two images, and the `n`-th poll of the VM
finds it in the state `states n`. -/
def obliging (states : Nat → String) : collaborators (List (String × String)) where
  dump := fun _ => some "json"
  value_string := fun j key default_value => some ((j.lookup key).getD default_value)
  value_int := fun _ _ default_value => some default_value
  value_bool := fun _ _ default_value => some default_value
  contains := fun j key => (j.lookup key).isSome
  get_string := fun j key => j.lookup key
  dump_object := fun _ => some "result"
  getpid := 1
  system := fun _ => 0
  file_exists := fun _ => some true
  ofstream_opens := fun _ => true
  wimlib_open_wim := fun _ => 0
  wimlib_get_image_name := fun i => if i ≤ 2 then some "Windows" else none
  wimlib_get_image_description := fun _ => none
  connect := some true
  get_last_error := ""
  ensure_network_available := fun _ => some true
  get_network_diagnostics := fun _ => some ""
  vm_exists := fun _ => some false
  create_vm := fun _ => some true
  start_vm := fun _ _ => some true
  stop_vm := fun _ => some true
  delete_vm := fun _ => some true
  get_vm_info := fun n _ => some [("state", states n)]
  generate_autounattend := fun _ => some ""
  indeterminate_int := 0

/-- A VM that is found running at the polls before the `n`-th and shut off from then on. -/
def shutoff_from (n : Nat) : Nat → String := fun k => if k < n then "running" else "shutoff"

/-- Whether a list of responses is made of in-progress responses followed by exactly one
terminal response (completed or error), all for `workload_id`. -/
def progress_then_terminal (workload_id : Nat) : List sent_response → Bool
  | [] => false
  | [r] => r.workload_id == workload_id && r.status != ipc.workload_status.in_progress
  | r :: rest =>
    r.workload_id == workload_id && r.status == ipc.workload_status.in_progress
      && progress_then_terminal workload_id rest

/-- Whether every response of a list is an in-progress response for `workload_id`. -/
def all_in_progress (workload_id : Nat) (sent : List sent_response) : Bool :=
  sent.all fun r => r.workload_id == workload_id && r.status == ipc.workload_status.in_progress

/-- No collaborator call throws: each call that can end with an exception returns a value,
for every argument; `j[key].get<std::string>()` has to return only where `j.contains(key)`
holds, which is where the handlers call it. -/
structure calls_return {J : Type} (c : collaborators J) : Prop where
  dump : ∀ j, c.dump j ≠ none
  value_string : ∀ j key default_value, c.value_string j key default_value ≠ none
  value_int : ∀ j key default_value, c.value_int j key default_value ≠ none
  value_bool : ∀ j key default_value, c.value_bool j key default_value ≠ none
  get_string : ∀ j key, c.contains j key = true → c.get_string j key ≠ none
  dump_object : ∀ fields, c.dump_object fields ≠ none
  file_exists : ∀ path, c.file_exists path ≠ none
  connect : c.connect ≠ none
  ensure_network_available : ∀ name, c.ensure_network_available name ≠ none
  get_network_diagnostics : ∀ name, c.get_network_diagnostics name ≠ none
  vm_exists : ∀ name, c.vm_exists name ≠ none
  create_vm : ∀ config, c.create_vm config ≠ none
  start_vm : ∀ n name, c.start_vm n name ≠ none
  stop_vm : ∀ name, c.stop_vm name ≠ none
  delete_vm : ∀ name, c.delete_vm name ≠ none
  get_vm_info : ∀ n name, c.get_vm_info n name ≠ none
  generate_autounattend : ∀ config, c.generate_autounattend config ≠ none

end worker

namespace multipart_transfer

theorem add64_of_lt {a b : Nat} (h : a + b < u64_mod) : add64 a b = a + b := by
  unfold add64; exact Nat.mod_eq_of_lt h

theorem sub64_one_of_pos {a : Nat} (h1 : 1 ≤ a) (h : a < u64_mod) : sub64 a 1 = a - 1 := by
  unfold sub64 u64_mod at *
  omega

/-- One iteration of the planning loop when no 64-bit operation wraps. -/
theorem plan_parts_loop_succ (base rem n i offset : Nat) (hb : 1 ≤ base)
    (h : offset + (base + if i < rem then 1 else 0) < u64_mod) :
    plan_parts_loop base rem (n + 1) i offset =
      part_range.mk offset (offset + (base + if i < rem then 1 else 0) - 1) ::
        plan_parts_loop base rem n (i + 1) (offset + (base + if i < rem then 1 else 0)) := by
  generalize hs : (if i < rem then 1 else 0) = s at h
  have h1 : add64 base s = base + s := add64_of_lt (by omega)
  have h2 : add64 offset (base + s) = offset + (base + s) := add64_of_lt h
  have h3 : sub64 (offset + (base + s)) 1 = offset + (base + s) - 1 :=
    sub64_one_of_pos (by omega) h
  simp only [plan_parts_loop, hs, h1, h2, h3]

/-- Invariant of the planning loop: with `n` iterations left, the ranges still to be produced
tile `[offset, T)`. -/
theorem plan_parts_loop_spec (base rem T : Nat) (hb : 1 ≤ base) (hT : T < u64_mod) :
    ∀ n i offset, rem ≤ i + n → offset + n * base + (rem - i) = T →
      (plan_parts_loop base rem n i offset).length = n ∧
      (∀ p ∈ plan_parts_loop base rem n i offset,
          offset ≤ p.start ∧ p.start ≤ p.end_inclusive ∧ p.end_inclusive < T) ∧
      List.Chain' (fun a b : part_range => b.start = a.end_inclusive + 1)
          (plan_parts_loop base rem n i offset) ∧
      (∀ p, (plan_parts_loop base rem n i offset).head? = some p → p.start = offset) ∧
      (∀ p, (plan_parts_loop base rem n i offset).getLast? = some p →
          p.end_inclusive + 1 = T) ∧
      ((plan_parts_loop base rem n i offset).map part_range.size).sum + offset = T := by
  intro n
  induction n with
  | zero =>
    intro i offset hr hsum
    simp [plan_parts_loop]
    omega
  | succ n ih =>
    intro i offset hr hsum
    have hmul : (n + 1) * base = n * base + base := by ring
    have hsz : offset + (base + if i < rem then 1 else 0) + n * base + (rem - (i + 1)) = T := by
      split <;> omega
    have hstep := plan_parts_loop_succ base rem n i offset hb (by omega)
    obtain ⟨hlen, hmem, hchain, hhead, hlast, hsum2⟩ :=
      ih (i + 1) (offset + (base + if i < rem then 1 else 0)) (by omega) hsz
    rw [hstep]
    generalize hs : (if i < rem then 1 else 0) = s at *
    generalize hps : plan_parts_loop base rem n (i + 1) (offset + (base + s)) = ps at *
    refine ⟨by simp [hlen], ?_, ?_, ?_, ?_, ?_⟩
    · intro p hp
      rcases List.mem_cons.mp hp with rfl | hp
      · simp only; omega
      · have := hmem p hp; omega
    · rw [List.chain'_cons']
      refine ⟨?_, hchain⟩
      intro p hp
      have := hhead p hp
      simp only; omega
    · intro p hp
      simp at hp
      subst hp; rfl
    · intro p hp
      cases ps with
      | nil =>
        simp at hp
        subst hp
        simp at hlen
        subst hlen
        simp only; omega
      | cons q qs =>
        apply hlast p
        simpa [List.getLast?_cons_cons] using hp
    · simp only [List.map_cons, List.sum_cons, part_range.size]
      omega

/-- Sizes produced by the planning loop: iteration `i + k` yields `base + 1` bytes while
`i + k < rem` and `base` bytes afterwards. -/
theorem plan_parts_loop_size (base rem T : Nat) (hb : 1 ≤ base) (hT : T < u64_mod) :
    ∀ n i offset, rem ≤ i + n → offset + n * base + (rem - i) = T →
      ∀ k p, (plan_parts_loop base rem n i offset)[k]? = some p →
        p.size = base + if i + k < rem then 1 else 0 := by
  intro n
  induction n with
  | zero =>
    intro i offset _ _ k p hk
    simp [plan_parts_loop] at hk
  | succ n ih =>
    intro i offset hr hsum k p hk
    have hmul : (n + 1) * base = n * base + base := by ring
    have hsz : offset + (base + if i < rem then 1 else 0) + n * base + (rem - (i + 1)) = T := by
      split <;> omega
    rw [plan_parts_loop_succ base rem n i offset hb (by omega)] at hk
    cases k with
    | zero =>
      simp only [List.getElem?_cons_zero, Option.some.injEq] at hk
      subst hk
      simp only [part_range.size, Nat.add_zero]
      split <;> omega
    | succ k =>
      simp only [List.getElem?_cons_succ] at hk
      have := ih (i + 1) _ (by omega) hsz k p hk
      rw [this]
      have e : i + 1 + k = i + (k + 1) := by omega
      rw [e]

/-- The part count chosen by `plan_parts` (lines 77-79). -/
theorem plan_parts_eq (T : Nat) (opts : options) (hT : T ≠ 0) :
    plan_parts T opts =
      plan_parts_loop (T / min (max opts.max_threads 1) T) (T % min (max opts.max_threads 1) T)
        (min (max opts.max_threads 1) T) 0 0 := by
  have e : (if (if opts.max_threads > 0 then opts.max_threads else 1) > T then T
      else (if opts.max_threads > 0 then opts.max_threads else 1))
      = min (max opts.max_threads 1) T := by
    split <;> split <;> omega
  simp only [plan_parts, hT, if_false, e]

/-- The loop invariant instantiated at the entry of the loop of `plan_parts`. -/
theorem plan_parts_entry (T N : Nat) (hN : 1 ≤ N) (hNT : N ≤ T) :
    1 ≤ T / N ∧ T % N ≤ 0 + N ∧ 0 + N * (T / N) + (T % N - 0) = T := by
  refine ⟨?_, ?_, ?_⟩
  · exact (Nat.one_le_div_iff (by omega)).mpr hNT
  · have := Nat.mod_lt T (show N > 0 by omega); omega
  · have := Nat.div_add_mod T N; omega

/-- C1: for every `total_bytes = T >= 1` (a 64-bit value) and every options value, the ranges
returned by `plan_parts` tile `[0, T)` exactly: the first range starts at 0, every range has
`start <= end_inclusive`, each following range starts at the previous `end_inclusive + 1`, the
last range ends at `T - 1`, and the sum of `end_inclusive - start + 1` over all ranges is `T`. -/
theorem plan_parts_tiles (T : Nat) (opts : options) (hT : 1 ≤ T) (h64 : T < u64_mod) :
    (∃ p, (plan_parts T opts).head? = some p ∧ p.start = 0) ∧
    (∀ p ∈ plan_parts T opts, p.start ≤ p.end_inclusive) ∧
    List.Chain' (fun a b : part_range => b.start = a.end_inclusive + 1) (plan_parts T opts) ∧
    (∃ p, (plan_parts T opts).getLast? = some p ∧ p.end_inclusive = T - 1) ∧
    ((plan_parts T opts).map (fun p => p.end_inclusive - p.start + 1)).sum = T := by
  rw [plan_parts_eq T opts (by omega)]
  obtain ⟨hb, hr, hs⟩ := plan_parts_entry T (min (max opts.max_threads 1) T) (by omega)
    (by omega)
  obtain ⟨hlen, hmem, hchain, hhead, hlast, hsum⟩ :=
    plan_parts_loop_spec _ _ T hb h64 _ 0 0 hr hs
  generalize plan_parts_loop _ _ _ 0 0 = ps at *
  have hne : ps ≠ [] := by
    intro h; subst h; simp at hlen; omega
  have hsz : (fun p : part_range => p.end_inclusive - p.start + 1) = part_range.size := rfl
  refine ⟨?_, fun p hp => (hmem p hp).2.1, hchain, ?_, by rw [hsz]; exact hsum⟩
  · cases ps with
    | nil => exact absurd rfl hne
    | cons q qs => exact ⟨q, rfl, hhead q rfl⟩
  · refine ⟨ps.getLast hne, List.getLast?_eq_getLast ps hne, ?_⟩
    have := hlast _ (List.getLast?_eq_getLast ps hne)
    omega

/-- Witness for `plan_parts_tiles`: a 10-byte resource with `max_threads = 0`. -/
theorem plan_parts_tiles_witness :
    (∃ p, (plan_parts 10 (options.mk 0 1 60 "")).head? = some p ∧ p.start = 0) ∧
    (∀ p ∈ plan_parts 10 (options.mk 0 1 60 ""), p.start ≤ p.end_inclusive) ∧
    List.Chain' (fun a b : part_range => b.start = a.end_inclusive + 1)
      (plan_parts 10 (options.mk 0 1 60 "")) ∧
    (∃ p, (plan_parts 10 (options.mk 0 1 60 "")).getLast? = some p ∧ p.end_inclusive = 10 - 1) ∧
    ((plan_parts 10 (options.mk 0 1 60 "")).map (fun p => p.end_inclusive - p.start + 1)).sum
      = 10 :=
  plan_parts_tiles 10 (options.mk 0 1 60 "") (by decide) (by decide)

/-- C2 as stated fails when `max_threads = 0`: the guard of line 77 turns a desired part count
of 0 into 1, so a 5-byte resource gets one range although `min(0, 5) = 0`. -/
theorem plan_parts_count_counterexample :
    (plan_parts 5 (options.mk 0 1 60 "")).length ≠ min (options.mk 0 1 60 "").max_threads 5 := by
  decide

/-- C2 (amended): for every 64-bit `total_bytes = T` and `N = max_threads`, `plan_parts` returns
exactly `min(max(N, 1), T)` ranges (none when `T = 0`, never more than `T`), the `k`-th range
has `T / count` bytes plus one more when `k < T mod count` (so the larger ranges come first),
any two range sizes differ by at most 1, and `T = 10`, `N = 3` gives `[0-3], [4-6], [7-9]`. -/
theorem plan_parts_count_sizes (T : Nat) (opts : options) (h64 : T < u64_mod) :
    (plan_parts T opts).length = min (max opts.max_threads 1) T ∧
    (plan_parts T opts).length ≤ T ∧
    (T = 0 → plan_parts T opts = []) ∧
    (∀ k p, (plan_parts T opts)[k]? = some p →
      p.end_inclusive - p.start + 1 = T / (plan_parts T opts).length +
        if k < T % (plan_parts T opts).length then 1 else 0) ∧
    (∀ p ∈ plan_parts T opts, ∀ q ∈ plan_parts T opts,
      p.end_inclusive - p.start + 1 ≤ (q.end_inclusive - q.start + 1) + 1) ∧
    (∀ c t f, plan_parts 10 (options.mk 3 c t f) =
      [part_range.mk 0 3, part_range.mk 4 6, part_range.mk 7 9]) := by
  have hex : ∀ c t f, plan_parts 10 (options.mk 3 c t f) =
      [part_range.mk 0 3, part_range.mk 4 6, part_range.mk 7 9] := by
    intro c t f
    simp [plan_parts, plan_parts_loop, add64, sub64, u64_mod]
  rcases Nat.eq_zero_or_pos T with h0 | hpos
  · subst h0
    refine ⟨by simp [plan_parts], by simp [plan_parts], fun _ => by simp [plan_parts], ?_, ?_,
      hex⟩
    · intro k p hk; simp [plan_parts] at hk
    · intro p hp; simp [plan_parts] at hp
  · obtain ⟨hb, hr, hs⟩ := plan_parts_entry T (min (max opts.max_threads 1) T) (by omega)
      (by omega)
    have hlen := (plan_parts_loop_spec _ _ T hb h64 _ 0 0 hr hs).1
    have hsize := plan_parts_loop_size _ _ T hb h64 _ 0 0 hr hs
    rw [← plan_parts_eq T opts (by omega)] at hlen hsize
    have hk : ∀ k p, (plan_parts T opts)[k]? = some p →
        p.end_inclusive - p.start + 1 = T / (plan_parts T opts).length +
          if k < T % (plan_parts T opts).length then 1 else 0 := by
      intro k p hkp
      have := hsize k p hkp
      rw [hlen]
      simpa [part_range.size] using this
    refine ⟨hlen, by omega, fun h => by omega, hk, ?_, hex⟩
    intro p hp q hq
    obtain ⟨i, hi⟩ := List.getElem?_of_mem hp
    obtain ⟨j, hj⟩ := List.getElem?_of_mem hq
    rw [hk i p hi, hk j q hj]
    split <;> split <;> omega

/-- Witness for `plan_parts_count_sizes`: an 11-byte resource planned for 4 parts. -/
theorem plan_parts_count_sizes_witness :
    (plan_parts 11 (options.mk 4 1 60 "")).length = min (max 4 1) 11 :=
  (plan_parts_count_sizes 11 (options.mk 4 1 60 "") (by decide)).1

theorem sub64_of_le {a b : Nat} (h : b ≤ a) (ha : a < u64_mod) : sub64 a b = a - b := by
  unfold sub64 u64_mod at *
  have hb : b % 2 ^ 64 = b := Nat.mod_eq_of_lt (by omega)
  rw [hb]
  omega

theorem add64_sub64_one {a : Nat} (h : a < u64_mod) : add64 (sub64 a 1) 1 = a := by
  unfold add64 sub64 u64_mod at *
  omega

/-- A successful `memcpy` keeps the length of the target and every byte outside the window
`[dst, dst + n)`. -/
theorem memcpy_frame {target src t : List Nat} {dst off n : Nat}
    (h : memcpy target dst src off n = some t) :
    dst + n ≤ target.length ∧ t.length = target.length ∧
      ∀ j, j < dst ∨ dst + n ≤ j → t[j]? = target[j]? := by
  unfold memcpy at h
  split at h
  · rename_i hc
    obtain ⟨_, h1, h2⟩ := hc
    simp only [Option.some.injEq] at h
    subst h
    have hl1 : (target.take dst).length = dst := by simp; omega
    have hl2 : ((src.drop off).take n).length = n := by simp; omega
    refine ⟨h1, ?_, ?_⟩
    · simp only [List.length_append, List.length_take, List.length_drop]
      omega
    · intro j hj
      rcases hj with hj | hj
      · rw [List.getElem?_append_left (by omega), List.getElem?_take_of_lt hj]
      · rw [List.getElem?_append_right (by omega), List.getElem?_append_right (by omega),
          List.getElem?_drop, hl1, hl2]
        congr 1; omega
  · exact absurd h (by simp)

/-- A copy accepted by `copy_chunk` for a window inside the target stays in bounds, keeps the
length of the target and every byte outside `[chunk_start, chunk_start + chunk)`. -/
theorem copy_chunk_frame (resp : response) (target : List Nat) (chunk_start chunk : Nat)
    (r : Option (List Nat)) (h64 : chunk_start + chunk < u64_mod)
    (hs : chunk_start < target.length) (hc : chunk_start + chunk ≤ target.length)
    (h : copy_chunk resp target chunk_start (sub64 (add64 chunk_start chunk) 1) chunk
      = Except.ok r) :
    ∃ t, r = some t ∧ t.length = target.length ∧
      ∀ j, j < chunk_start ∨ chunk_start + chunk ≤ j → t[j]? = target[j]? := by
  have e3 : add64 (sub64 (add64 chunk_start chunk) 1) 1 = chunk_start + chunk := by
    rw [add64_of_lt h64]
    exact add64_sub64_one h64
  unfold copy_chunk at h
  rw [e3] at h
  have key : ∀ off, off + chunk ≤ resp.body.length →
      memcpy target chunk_start resp.body off chunk = r →
      ∃ t, r = some t ∧ t.length = target.length ∧
        ∀ j, j < chunk_start ∨ chunk_start + chunk ≤ j → t[j]? = target[j]? := by
    intro off hoff hm
    have hsome : memcpy target chunk_start resp.body off chunk =
        some (target.take chunk_start ++
          ((resp.body.drop off).take chunk ++ target.drop (chunk_start + chunk))) := by
      unfold memcpy
      rw [if_pos ⟨hs, hc, hoff⟩]
    rw [hsome] at hm
    obtain ⟨_, hl, hfr⟩ := memcpy_frame hsome
    exact ⟨_, hm.symm, hl, hfr⟩
  split at h
  · split at h
    · exact absurd h (by simp)
    · rename_i hb
      exact key chunk_start (by omega) (by simpa using h)
  · split at h
    · exact absurd h (by simp)
    · rename_i hb
      exact key 0 (by simp at hb; omega) (by simpa using h)

/-- One pass through the loop body for a range inside the target: it never copies out of
bounds, and either stops leaving the target untouched, or goes on with `part_done` still at
most `part_total`, the target keeping its length and all bytes outside the range. -/
theorem download_part_step_frame (env : part_env) (range : part_range) (part_index : Nat)
    (opts : options) (hp : Bool) (T : Nat) (h64 : T < u64_mod)
    (hse : range.start ≤ range.end_inclusive) (heT : range.end_inclusive < T)
    (k part_done : Nat) (st : part_state) (hlen : st.target.length = T)
    (hlt : part_done < range.end_inclusive - range.start + 1) :
    (∃ ok st1, download_part_step env range part_index opts hp
        (range.end_inclusive - range.start + 1) k part_done st
          = step_result.stop (part_status.returned ok) st1 ∧ st1.target = st.target) ∨
    (∃ pd st1, download_part_step env range part_index opts hp
        (range.end_inclusive - range.start + 1) k part_done st = step_result.next pd st1 ∧
        pd ≤ range.end_inclusive - range.start + 1 ∧ st1.target.length = T ∧
        ∀ j, j < range.start ∨ range.end_inclusive < j → st1.target[j]? = st.target[j]?) := by
  unfold download_part_step
  have e1 : sub64 (range.end_inclusive - range.start + 1) part_done
      = range.end_inclusive - range.start + 1 - part_done :=
    sub64_of_le (by omega) (by omega)
  have e2 : add64 range.start part_done = range.start + part_done :=
    add64_of_lt (by omega)
  simp only [e1, e2]
  generalize hchunk : min opts.chunk_size_bytes
    (range.end_inclusive - range.start + 1 - part_done) = chunk
  have hcle : chunk ≤ range.end_inclusive - range.start + 1 - part_done := by omega
  have e4 : add64 part_done chunk = part_done + chunk := add64_of_lt (by omega)
  split
  · exact Or.inl ⟨false, _, rfl, rfl⟩
  · split
    · exact Or.inl ⟨false, _, rfl, rfl⟩
    · split
      · exact Or.inl ⟨false, _, rfl, rfl⟩
      · rename_i hcopy
        obtain ⟨t, ht, _, _⟩ := copy_chunk_frame _ _ _ _ _ (by omega) (by omega) (by omega) hcopy
        exact absurd ht (by simp)
      · rename_i target hcopy
        obtain ⟨t, ht, hl, hfr⟩ :=
          copy_chunk_frame _ _ _ _ _ (by omega) (by omega) (by omega) hcopy
        simp only [Option.some.injEq] at ht
        subst ht
        refine Or.inr ⟨_, _, rfl, by omega, by simp [hl, hlen], ?_⟩
        intro j hj
        exact hfr j (by omega)

/-- Frame property of the sub-chunk loop for a range inside the target: no copy is out of
bounds, the target keeps its length, and bytes outside the range keep their value. -/
theorem download_part_loop_frame (env : part_env) (range : part_range) (part_index : Nat)
    (opts : options) (hp : Bool) (T : Nat) (h64 : T < u64_mod)
    (hse : range.start ≤ range.end_inclusive) (heT : range.end_inclusive < T) :
    ∀ fuel k part_done (st : part_state), st.target.length = T →
      part_done ≤ range.end_inclusive - range.start + 1 →
      (download_part_loop env range part_index opts hp
          (range.end_inclusive - range.start + 1) fuel k part_done st).1
        ≠ part_status.out_of_bounds ∧
      (download_part_loop env range part_index opts hp
          (range.end_inclusive - range.start + 1) fuel k part_done st).2.target.length = T ∧
      ∀ j, j < range.start ∨ range.end_inclusive < j →
        (download_part_loop env range part_index opts hp
          (range.end_inclusive - range.start + 1) fuel k part_done st).2.target[j]?
          = st.target[j]? := by
  intro fuel
  induction fuel with
  | zero =>
    intro k part_done st hlen _
    simp only [download_part_loop]
    split <;> simp [hlen]
  | succ fuel ih =>
    intro k part_done st hlen hdone
    simp only [download_part_loop]
    split
    · rename_i hlt
      rcases download_part_step_frame env range part_index opts hp T h64 hse heT k part_done st
        hlen hlt with ⟨ok, st1, hst, htg⟩ | ⟨pd, st1, hst, hpd, hl1, hfr⟩
      · rw [hst]
        simp [htg, hlen]
      · rw [hst]
        obtain ⟨i1, i2, i3⟩ := ih (k + 1) pd st1 hl1 hpd
        refine ⟨i1, i2, ?_⟩
        intro j hj
        rw [i3 j hj]
        exact hfr j hj
    · simp [hlen]

/-- The ranges produced by the planning loop are pairwise disjoint and in increasing order. -/
theorem plan_parts_loop_pairwise (base rem T : Nat) (hb : 1 ≤ base) (hT : T < u64_mod) :
    ∀ n i offset, rem ≤ i + n → offset + n * base + (rem - i) = T →
      List.Pairwise (fun a b : part_range => a.end_inclusive < b.start)
        (plan_parts_loop base rem n i offset) := by
  intro n
  induction n with
  | zero =>
    intro i offset _ _
    simp [plan_parts_loop]
  | succ n ih =>
    intro i offset hr hsum
    have hmul : (n + 1) * base = n * base + base := by ring
    have hsz : offset + (base + if i < rem then 1 else 0) + n * base + (rem - (i + 1)) = T := by
      split <;> omega
    rw [plan_parts_loop_succ base rem n i offset hb (by omega)]
    have hmem := (plan_parts_loop_spec base rem T hb hT n (i + 1) _ (by omega) hsz).2.1
    refine List.Pairwise.cons ?_ (ih (i + 1) _ (by omega) hsz)
    intro p hp
    have := hmem p hp
    simp only
    omega

/-- C3: for every 64-bit `total_bytes = T`, the ranges planned by `plan_parts` are pairwise
disjoint, and for each planned range `[s, e]` and a target buffer of `T` bytes, `download_part`
(for every cancellation pattern, every sequence of server answers with status 206, 200 or
anything else, and after any number of loop iterations) never copies out of bounds, keeps the
length of the buffer, and leaves every byte with index outside `[s, e]` unchanged. -/
theorem download_part_writes_own_range (T : Nat) (opts : options) (h64 : T < u64_mod)
    (env : part_env) (fuel part_index : Nat) (has_on_progress : Bool) (st : part_state)
    (hlen : st.target.length = T) :
    List.Pairwise (fun a b : part_range => a.end_inclusive < b.start) (plan_parts T opts) ∧
    ∀ r ∈ plan_parts T opts,
      (download_part env fuel r part_index opts has_on_progress st).1
        ≠ part_status.out_of_bounds ∧
      (download_part env fuel r part_index opts has_on_progress st).2.target.length = T ∧
      ∀ j, j < r.start ∨ r.end_inclusive < j →
        (download_part env fuel r part_index opts has_on_progress st).2.target[j]?
          = st.target[j]? := by
  rcases Nat.eq_zero_or_pos T with h0 | hpos
  · subst h0
    simp [plan_parts]
  · obtain ⟨hb, hr, hs⟩ := plan_parts_entry T (min (max opts.max_threads 1) T) (by omega)
      (by omega)
    have hpw := plan_parts_loop_pairwise _ _ T hb h64 _ 0 0 hr hs
    have hmem := (plan_parts_loop_spec _ _ T hb h64 _ 0 0 hr hs).2.1
    rw [← plan_parts_eq T opts (by omega)] at hpw hmem
    refine ⟨hpw, ?_⟩
    intro r hr
    obtain ⟨_, hse, heT⟩ := hmem r hr
    unfold download_part
    split
    · simp [hlen]
    · have e : add64 (sub64 r.end_inclusive r.start) 1 = r.end_inclusive - r.start + 1 := by
        rw [sub64_of_le hse (by omega)]
        exact add64_of_lt (by omega)
      simp only [e]
      exact download_part_loop_frame env r part_index opts has_on_progress T h64 hse heT fuel 0 0
        st hlen (by omega)

/-- Witness for `download_part_writes_own_range`: a 4-byte buffer planned for two parts and a
server that answers every request with status 206 and the requested number of bytes. -/
theorem download_part_writes_own_range_witness :
    (4 < u64_mod ∧ (part_state.mk [0, 0, 0, 0] 0 "" []).target.length = 4) ∧
    (List.Pairwise (fun a b : part_range => a.end_inclusive < b.start)
      (plan_parts 4 (options.mk 2 1 60 "")) ∧
    ∀ r ∈ plan_parts 4 (options.mk 2 1 60 ""),
      (download_part
          (part_env.mk (fun _ => false)
            (fun _ a b => response.mk 206 (List.replicate (b + 1 - a) 7) []))
          5 r 0 (options.mk 2 1 60 "") true (part_state.mk [0, 0, 0, 0] 0 "" [])).1
        ≠ part_status.out_of_bounds ∧
      (download_part
          (part_env.mk (fun _ => false)
            (fun _ a b => response.mk 206 (List.replicate (b + 1 - a) 7) []))
          5 r 0 (options.mk 2 1 60 "") true
          (part_state.mk [0, 0, 0, 0] 0 "" [])).2.target.length = 4 ∧
      ∀ j, j < r.start ∨ r.end_inclusive < j →
        (download_part
          (part_env.mk (fun _ => false)
            (fun _ a b => response.mk 206 (List.replicate (b + 1 - a) 7) []))
          5 r 0 (options.mk 2 1 60 "") true (part_state.mk [0, 0, 0, 0] 0 "" [])).2.target[j]?
          = (part_state.mk [0, 0, 0, 0] 0 "" []).target[j]?) :=
  ⟨⟨by decide, rfl⟩,
    download_part_writes_own_range 4 (options.mk 2 1 60 "") (by decide)
      (part_env.mk (fun _ => false)
        (fun _ a b => response.mk 206 (List.replicate (b + 1 - a) 7) []))
      5 0 true (part_state.mk [0, 0, 0, 0] 0 "" []) rfl⟩

/-- C4 fails for `max_threads = 0`: for the one-byte resource `[7]` on a server with full range
support, `plan_parts` plans one part (line 77 turns 0 into 1) but `launch_next` is called with
`min(max_threads, parts.size()) = 0` (line 310), no part is ever downloaded, and `download`
still reports `on_complete(true, "")` with a buffer holding `[0]`. -/
theorem download_zero_threads_reports_success :
    download decimal_stoull (range_server_env [7]) 5 (options.mk 0 1 60 "") true true []
      = some (download_result.mk [0] [event.complete true ""] none) ∧
    plan_parts 1 (options.mk 0 1 60 "") = [part_range.mk 0 0] := by
  decide

/-- A successful `memcpy` puts the source bytes into the window `[dst, dst + n)`. -/
theorem memcpy_content {target src t : List Nat} {dst off n : Nat}
    (h : memcpy target dst src off n = some t) :
    ∀ j, j < n → t[dst + j]? = src[off + j]? := by
  unfold memcpy at h
  split at h
  · rename_i hc
    obtain ⟨_, h1, h2⟩ := hc
    simp only [Option.some.injEq] at h
    subst h
    have hl1 : (target.take dst).length = dst := by simp; omega
    have hl2 : ((src.drop off).take n).length = n := by simp; omega
    intro j hj
    rw [List.getElem?_append_right (by omega), List.getElem?_append_left (by omega),
      List.getElem?_take_of_lt (by omega), List.getElem?_drop, hl1]
    congr 1; omega
  · exact absurd h (by simp)

/-- A response with status 206 and a body of the chunk length is copied from its start. -/
theorem copy_chunk_206 (resp : response) (target : List Nat) (chunk_start chunk_end chunk : Nat)
    (hst : resp.status_code = 206) (hbl : resp.body.length = chunk) :
    copy_chunk resp target chunk_start chunk_end chunk
      = Except.ok (memcpy target chunk_start resp.body 0 chunk) := by
  unfold copy_chunk
  rw [hst, if_neg (by omega), if_neg (by simp [hbl])]

/-- One pass through the loop body against a server with full range support for `resource`:
the loop goes on, `part_done` grows by the chunk size (at least 1), bytes that already equal
the resource stay so, and the bytes of the chunk now equal the resource. -/
theorem download_part_step_faithful (env : part_env) (resource : List Nat)
    (range : part_range) (part_index : Nat) (opts : options) (hp : Bool)
    (h64 : resource.length < u64_mod)
    (hse : range.start ≤ range.end_inclusive) (heT : range.end_inclusive < resource.length)
    (hchunk : 1 ≤ opts.chunk_size_bytes)
    (hcancel : ∀ k, env.cancel k = false)
    (hget : ∀ k a b, (env.get k a b).status_code = 206 ∧
      (env.get k a b).body = (resource.drop a).take (b + 1 - a))
    (k part_done : Nat) (st : part_state) (hlen : st.target.length = resource.length)
    (hlt : part_done < range.end_inclusive - range.start + 1) :
    ∃ pd st1, download_part_step env range part_index opts hp
        (range.end_inclusive - range.start + 1) k part_done st = step_result.next pd st1 ∧
      part_done < pd ∧ pd ≤ range.end_inclusive - range.start + 1 ∧
      st1.target.length = resource.length ∧
      (∀ j : Nat, st.target[j]? = resource[j]? → st1.target[j]? = resource[j]?) ∧
      (∀ j : Nat, range.start + part_done ≤ j → j < range.start + pd →
        st1.target[j]? = resource[j]?) := by
  unfold download_part_step
  have e1 : sub64 (range.end_inclusive - range.start + 1) part_done
      = range.end_inclusive - range.start + 1 - part_done :=
    sub64_of_le (by omega) (by omega)
  have e2 : add64 range.start part_done = range.start + part_done :=
    add64_of_lt (by omega)
  simp only [e1, e2, hcancel, Bool.false_eq_true, if_false]
  generalize hchunkv : min opts.chunk_size_bytes
    (range.end_inclusive - range.start + 1 - part_done) = chunk
  have hcle : chunk ≤ range.end_inclusive - range.start + 1 - part_done := by omega
  have hcpos : 1 ≤ chunk := by omega
  have e4 : add64 part_done chunk = part_done + chunk := add64_of_lt (by omega)
  have e5 : sub64 (add64 (range.start + part_done) chunk) 1
      = range.start + part_done + chunk - 1 := by
    rw [add64_of_lt (by omega)]
    exact sub64_one_of_pos (by omega) (by omega)
  simp only [e4, e5]
  obtain ⟨hst, hbody⟩ := hget k (range.start + part_done) (range.start + part_done + chunk - 1)
  generalize env.get k (range.start + part_done) (range.start + part_done + chunk - 1)
    = resp at hst hbody ⊢
  have hb : resp.body = (resource.drop (range.start + part_done)).take chunk := by
    rw [hbody, show range.start + part_done + chunk - 1 + 1 - (range.start + part_done) = chunk
      by omega]
  have hbl : resp.body.length = chunk := by
    rw [hb]; simp; omega
  have hm : memcpy st.target (range.start + part_done) resp.body 0 chunk
      = some (st.target.take (range.start + part_done) ++
          ((resp.body.drop 0).take chunk ++
            st.target.drop (range.start + part_done + chunk))) := by
    unfold memcpy
    rw [if_pos ⟨by omega, by omega, by omega⟩]
  obtain ⟨_, hl, hfr⟩ := memcpy_frame hm
  have hct := memcpy_content hm
  generalize st.target.take (range.start + part_done) ++
    ((resp.body.drop 0).take chunk ++ st.target.drop (range.start + part_done + chunk))
    = t at hm hl hfr hct
  have hwin : ∀ j, range.start + part_done ≤ j → j < range.start + part_done + chunk →
      t[j]? = resource[j]? := by
    intro j hj1 hj2
    have := hct (j - (range.start + part_done)) (by omega)
    rw [show range.start + part_done + (j - (range.start + part_done)) = j by omega] at this
    rw [this, hb, List.getElem?_take_of_lt (by omega), List.getElem?_drop,
      show range.start + part_done + (0 + (j - (range.start + part_done))) = j by omega]
  rw [if_neg (fun h => h.1 hst), copy_chunk_206 _ _ _ _ _ hst hbl, hm]
  simp only
  refine ⟨_, _, rfl, by omega, by omega, by simp [hl, hlen], ?_, ?_⟩
  · intro j hj
    by_cases hin : range.start + part_done ≤ j ∧ j < range.start + part_done + chunk
    · exact hwin j hin.1 hin.2
    · simp only
      rw [hfr j (by omega)]
      exact hj
  · intro j hj1 hj2
    exact hwin j hj1 (by omega)

/-- The sub-chunk loop against a server with full range support, with enough fuel: it
returns `true`, bytes equal to the resource stay so, and the whole range equals the
resource. -/
theorem download_part_loop_faithful (env : part_env) (resource : List Nat)
    (range : part_range) (part_index : Nat) (opts : options) (hp : Bool)
    (h64 : resource.length < u64_mod)
    (hse : range.start ≤ range.end_inclusive) (heT : range.end_inclusive < resource.length)
    (hchunk : 1 ≤ opts.chunk_size_bytes)
    (hcancel : ∀ k, env.cancel k = false)
    (hget : ∀ k a b, (env.get k a b).status_code = 206 ∧
      (env.get k a b).body = (resource.drop a).take (b + 1 - a)) :
    ∀ fuel k part_done (st : part_state), st.target.length = resource.length →
      part_done ≤ range.end_inclusive - range.start + 1 →
      range.end_inclusive - range.start + 1 - part_done ≤ fuel →
      (∀ j : Nat, range.start ≤ j → j < range.start + part_done →
        st.target[j]? = resource[j]?) →
      ∃ st1, download_part_loop env range part_index opts hp
          (range.end_inclusive - range.start + 1) fuel k part_done st
          = (part_status.returned true, st1) ∧
        st1.target.length = resource.length ∧
        (∀ j : Nat, st.target[j]? = resource[j]? → st1.target[j]? = resource[j]?) ∧
        (∀ j : Nat, range.start ≤ j → j ≤ range.end_inclusive →
          st1.target[j]? = resource[j]?) := by
  intro fuel
  induction fuel with
  | zero =>
    intro k part_done st hlen hdone hfuel hgood
    have hnot : ¬ part_done < range.end_inclusive - range.start + 1 := by omega
    refine ⟨st, by simp [download_part_loop, hnot], hlen, fun j hj => hj, ?_⟩
    intro j h1 h2
    exact hgood j h1 (by omega)
  | succ fuel ih =>
    intro k part_done st hlen hdone hfuel hgood
    by_cases hlt : part_done < range.end_inclusive - range.start + 1
    · obtain ⟨pd, st1, hstep, hpd1, hpd2, hl1, hmono, hwin⟩ :=
        download_part_step_faithful env resource range part_index opts hp h64 hse heT hchunk
          hcancel hget k part_done st hlen hlt
      obtain ⟨st2, hloop, hl2, hmono2, hall⟩ := ih (k + 1) pd st1 hl1 hpd2 (by omega) (by
        intro j h1 h2
        by_cases hj : j < range.start + part_done
        · exact hmono j (hgood j h1 hj)
        · exact hwin j (by omega) h2)
      refine ⟨st2, ?_, hl2, fun j hj => hmono2 j (hmono j hj), hall⟩
      simp only [download_part_loop, hlt, if_true, hstep]
      exact hloop
    · refine ⟨st, by simp [download_part_loop, hlt], hlen, fun j hj => hj, ?_⟩
      intro j h1 h2
      exact hgood j h1 (by omega)

/-- The function `download_part` against a server with full range support, with fuel for
every byte of the range. -/
theorem download_part_faithful (env : part_env) (resource : List Nat)
    (range : part_range) (part_index : Nat) (opts : options) (hp : Bool) (fuel : Nat)
    (h64 : resource.length < u64_mod)
    (hse : range.start ≤ range.end_inclusive) (heT : range.end_inclusive < resource.length)
    (hchunk : 1 ≤ opts.chunk_size_bytes) (hfuel : resource.length ≤ fuel)
    (hcancel : ∀ k, env.cancel k = false)
    (hget : ∀ k a b, (env.get k a b).status_code = 206 ∧
      (env.get k a b).body = (resource.drop a).take (b + 1 - a))
    (st : part_state) (hlen : st.target.length = resource.length) :
    ∃ st1, download_part env fuel range part_index opts hp st
        = (part_status.returned true, st1) ∧
      st1.target.length = resource.length ∧
      (∀ j : Nat, st.target[j]? = resource[j]? → st1.target[j]? = resource[j]?) ∧
      (∀ j : Nat, range.start ≤ j → j ≤ range.end_inclusive →
        st1.target[j]? = resource[j]?) := by
  unfold download_part
  have e : add64 (sub64 range.end_inclusive range.start) 1
      = range.end_inclusive - range.start + 1 := by
    rw [sub64_of_le hse (by omega)]
    exact add64_of_lt (by omega)
  simp only [hcancel, Bool.false_eq_true, if_false, e]
  exact download_part_loop_faithful env resource range part_index opts hp h64 hse heT hchunk
    hcancel hget fuel 0 0 st hlen (by omega) (by omega) (fun j h1 h2 => by omega)

/-- Launching never goes beyond the planned parts: every future launched is a planned part,
nothing already in flight is lost, and all parts from `next_index` up to the new
`next_index` are in flight. -/
theorem launch_next_spec (parts : List part_range) :
    ∀ count (fl : List (Nat × part_range)) (ni : Nat),
      (launch_next parts count fl ni).2 = min (ni + count) (max ni parts.length) ∧
      (∀ e ∈ fl, e ∈ (launch_next parts count fl ni).1) ∧
      (∀ e ∈ (launch_next parts count fl ni).1, e ∈ fl ∨ e.2 ∈ parts) ∧
      (∀ i p, ni ≤ i → i < ni + count → parts[i]? = some p →
        (i, p) ∈ (launch_next parts count fl ni).1) := by
  intro count
  induction count with
  | zero =>
    intro fl ni
    simp only [launch_next]
    exact ⟨by omega, fun e he => he, fun e he => Or.inl he, fun i p h1 h2 => by omega⟩
  | succ count ih =>
    intro fl ni
    simp only [launch_next]
    cases hp : parts[ni]? with
    | none =>
      have hlen : parts.length ≤ ni := List.getElem?_eq_none_iff.mp hp
      refine ⟨by simp only; omega, fun e he => he, fun e he => Or.inl he, ?_⟩
      intro i p h1 _ hip
      have : parts[i]? = none := List.getElem?_eq_none_iff.mpr (by omega)
      rw [this] at hip
      exact absurd hip (by simp)
    | some range =>
      have hlt : ni < parts.length := by
        by_contra hcon
        have : parts[ni]? = none := List.getElem?_eq_none_iff.mpr (by omega)
        rw [this] at hp
        exact absurd hp (by simp)
      obtain ⟨i1, i2, i3, i4⟩ := ih ((ni, range) :: fl) (ni + 1)
      simp only
      refine ⟨by rw [i1]; omega, fun e he => i2 e (List.mem_cons_of_mem _ he), ?_, ?_⟩
      · intro e he
        rcases i3 e he with h | h
        · rcases List.mem_cons.mp h with rfl | h
          · exact Or.inr (List.getElem?_mem hp)
          · exact Or.inl h
        · exact Or.inr h
      · intro i p h1 h2 hip
        by_cases hi : i = ni
        · subst hi
          rw [hp] at hip
          simp only [Option.some.injEq] at hip
          subst hip
          exact i2 _ (List.mem_cons_self _ _)
        · exact i4 i p (by omega) (by omega) hip

/-- Awaiting the futures against a server with full range support, without cancellation and
with all parts already launched: every task returns `true`, nothing is marked failed, and
the range of every awaited part equals the resource afterwards. -/
theorem drain_faithful (env : download_env) (resource : List Nat) (parts : List part_range)
    (opts : options) (hp : Bool) (fuel : Nat) (h64 : resource.length < u64_mod)
    (hchunk : 1 ≤ opts.chunk_size_bytes) (hfuel : resource.length ≤ fuel)
    (hcancel : ∀ i k, (env.part i).cancel k = false)
    (hget : ∀ i k a b, ((env.part i).get k a b).status_code = 206 ∧
      ((env.part i).get k a b).body = (resource.drop a).take (b + 1 - a))
    (hafter : ∀ i, env.cancel_after_get i = false) :
    ∀ n (fl : List (Nat × part_range)) (first_error : String) (shared : part_state),
      fl.length ≤ n → shared.target.length = resource.length →
      (∀ e ∈ fl, e.2.start ≤ e.2.end_inclusive ∧ e.2.end_inclusive < resource.length) →
      ∃ ps1, drain env fuel parts opts hp n
          (pool_state.mk fl parts.length false first_error shared) = some ps1 ∧
        ps1.failed = false ∧ ps1.shared.target.length = resource.length ∧
        (∀ j : Nat, shared.target[j]? = resource[j]? → ps1.shared.target[j]? = resource[j]?) ∧
        (∀ e ∈ fl, ∀ j : Nat, e.2.start ≤ j → j ≤ e.2.end_inclusive →
          ps1.shared.target[j]? = resource[j]?) := by
  intro n
  induction n with
  | zero =>
    intro fl first_error shared hn hlen _
    have : fl = [] := List.length_eq_zero.mp (by omega)
    subst this
    exact ⟨pool_state.mk [] parts.length false first_error shared, by simp [drain], rfl, hlen,
      fun j hj => hj, by simp⟩
  | succ n ih =>
    intro fl first_error shared hn hlen hvalid
    cases fl with
    | nil =>
      exact ⟨pool_state.mk [] parts.length false first_error shared, by simp [drain], rfl, hlen,
        fun j hj => hj, by simp⟩
    | cons e rest =>
      obtain ⟨idx, range⟩ := e
      obtain ⟨hse, heT⟩ := hvalid (idx, range) (List.mem_cons_self _ _)
      obtain ⟨st1, hdl, hl1, hmono, hall⟩ :=
        download_part_faithful (env.part idx) resource range idx opts hp fuel h64 hse heT hchunk
          hfuel (hcancel idx) (hget idx) { shared with out_error := "" } hlen
      have hlaunch : launch_next parts 1 rest parts.length = (rest, parts.length) := by
        have : parts[parts.length]? = none := List.getElem?_eq_none_iff.mpr (le_refl _)
        simp [launch_next, this]
      obtain ⟨ps1, hdr, hf, hl2, hmono2, hall2⟩ := ih rest first_error st1
        (by simp only [List.length_cons] at hn; omega) hl1
        (fun e he => hvalid e (List.mem_cons_of_mem _ he))
      refine ⟨ps1, ?_, hf, hl2, fun j hj => hmono2 j (hmono j hj), ?_⟩
      · simp only [drain, hdl, hafter, hlaunch, Bool.not_true, Bool.or_false, Bool.false_eq_true,
          if_false, Bool.false_and, Bool.and_false]
        exact hdr
      · intro e he j h1 h2
        rcases List.mem_cons.mp he with rfl | he
        · exact hmono2 j (hall j h1 h2)
        · exact hall2 e he j h1 h2

/-- Every byte index below `T` lies in one of the ranges produced by the planning loop. -/
theorem plan_parts_loop_cover (base rem T : Nat) (hb : 1 ≤ base) (hT : T < u64_mod) :
    ∀ n i offset, rem ≤ i + n → offset + n * base + (rem - i) = T →
      ∀ j, offset ≤ j → j < T →
        ∃ p ∈ plan_parts_loop base rem n i offset, p.start ≤ j ∧ j ≤ p.end_inclusive := by
  intro n
  induction n with
  | zero =>
    intro i offset hr hsum j h1 h2
    simp at hsum
    omega
  | succ n ih =>
    intro i offset hr hsum j h1 h2
    have hmul : (n + 1) * base = n * base + base := by ring
    have hsz : offset + (base + if i < rem then 1 else 0) + n * base + (rem - (i + 1)) = T := by
      split <;> omega
    rw [plan_parts_loop_succ base rem n i offset hb (by omega)]
    by_cases hj : j < offset + (base + if i < rem then 1 else 0)
    · exact ⟨_, List.mem_cons_self _ _, h1, by simp only; omega⟩
    · obtain ⟨p, hp, hp1, hp2⟩ := ih (i + 1) _ (by omega) hsz j (by omega) h2
      exact ⟨p, List.mem_cons_of_mem _ hp, hp1, hp2⟩

theorem launch_next_length (parts : List part_range) :
    ∀ count (fl : List (Nat × part_range)) (ni : Nat),
      (launch_next parts count fl ni).1.length ≤ fl.length + count := by
  intro count
  induction count with
  | zero => intro fl ni; simp [launch_next]
  | succ count ih =>
    intro fl ni
    simp only [launch_next]
    cases parts[ni]? with
    | none => simp only; omega
    | some range =>
      have := ih ((ni, range) :: fl) (ni + 1)
      simp only [List.length_cons] at this
      simp only
      omega

theorem finish_buffer (env : download_env) (opts : options) (hc : Bool) (ps : pool_state) :
    (finish env opts hc ps).buffer = ps.shared.target := by
  unfold finish
  simp only
  split
  · rfl
  · split
    · rfl
    · split
      · split <;> rfl
      · rfl

/-- The ranged path of `download` is correct for `max_threads >= 1`: for a resource of
`T >= 1` bytes on a server with full range support (the probe reports `T` and range support,
every ranged request is answered 206 with exactly the requested bytes), a chunk size of at
least 1, no cancellation and fuel for every byte, `download` returns, the buffer equals the
resource, and unless the output file cannot be opened the last callback call is
`on_complete(true, "")`. -/
theorem download_ranged_faithful (stoull : String → Option Nat) (env : download_env)
    (resource : List Nat) (opts : options) (fuel : Nat) (hp hc : Bool) (buffer : List Nat)
    (hT : 1 ≤ resource.length) (h64 : resource.length < u64_mod)
    (hprobe : parse_content_length stoull env.probe = resource.length)
    (hranges : server_supports_ranges env.probe = true)
    (hthreads : 1 ≤ opts.max_threads) (hchunk : 1 ≤ opts.chunk_size_bytes)
    (hfuel : resource.length ≤ fuel)
    (hcancel : ∀ i k, (env.part i).cancel k = false)
    (hget : ∀ i k a b, ((env.part i).get k a b).status_code = 206 ∧
      ((env.part i).get k a b).body = (resource.drop a).take (b + 1 - a))
    (hafter : ∀ i, env.cancel_after_get i = false) (hfinal : env.cancel_final = false) :
    ∃ r, download stoull env fuel opts hp hc buffer = some r ∧ r.buffer = resource ∧
      (opts.output_file_path.isEmpty = true ∨ env.file_opens = true →
        ∃ ps, r.events = List.map event.progress ps ++ notify hc true "") := by
  obtain ⟨hb, hr, hs⟩ := plan_parts_entry resource.length
    (min (max opts.max_threads 1) resource.length) (by omega) (by omega)
  have hspec := plan_parts_loop_spec _ _ resource.length hb h64 _ 0 0 hr hs
  have hcover := plan_parts_loop_cover _ _ resource.length hb h64 _ 0 0 hr hs
  rw [← plan_parts_eq resource.length opts (by omega)] at hspec hcover
  obtain ⟨hplen, hpmem, _, _, _, _⟩ := hspec
  have hcount : min opts.max_threads (plan_parts resource.length opts).length
      = (plan_parts resource.length opts).length := by omega
  obtain ⟨l1, _, l3, l4⟩ := launch_next_spec (plan_parts resource.length opts)
    (plan_parts resource.length opts).length [] 0
  have l5 := launch_next_length (plan_parts resource.length opts)
    (plan_parts resource.length opts).length [] 0
  have hni : (launch_next (plan_parts resource.length opts)
      (plan_parts resource.length opts).length [] 0).2
      = (plan_parts resource.length opts).length := by
    rw [l1]; omega
  obtain ⟨ps1, hdr, hf, hl, _, hall⟩ := drain_faithful env resource
    (plan_parts resource.length opts) opts hp fuel h64 hchunk hfuel hcancel hget hafter
    (plan_parts resource.length opts).length
    (launch_next (plan_parts resource.length opts)
      (plan_parts resource.length opts).length [] 0).1 ""
    (part_state.mk (List.replicate resource.length 0) 0 "" [])
    (by simpa using l5) (by simp)
    (by
      intro e he
      rcases l3 e he with h | h
      · simp at h
      · have := hpmem e.2 h
        omega)
  have htarget : ps1.shared.target = resource := by
    apply List.ext_getElem?
    intro j
    by_cases hj : j < resource.length
    · obtain ⟨p, hpin, hp1, hp2⟩ := hcover j (by omega) hj
      obtain ⟨i, hi⟩ := List.getElem?_of_mem hpin
      have hilt : i < (plan_parts resource.length opts).length := by
        by_contra hcon
        have : (plan_parts resource.length opts)[i]? = none :=
          List.getElem?_eq_none_iff.mpr (by omega)
        rw [this] at hi
        exact absurd hi (by simp)
      exact hall (i, p) (l4 i p (by omega) (by omega) hi) j hp1 hp2
    · rw [List.getElem?_eq_none_iff.mpr (by omega), List.getElem?_eq_none_iff.mpr (by omega)]
  have hne : ¬ resource.length = 0 := by omega
  refine ⟨finish env opts hc ps1, ?_, by rw [finish_buffer, htarget], ?_⟩
  · unfold download
    simp only [hprobe, hranges, hne, if_false, Bool.not_true, Bool.false_eq_true, hcount]
    rw [hni, hdr]
  · intro hfile
    refine ⟨ps1.shared.progress, ?_⟩
    unfold finish
    simp only [hfinal, hf, Bool.false_eq_true, if_false]
    rcases hfile with h | h
    · simp [h]
    · by_cases h2 : opts.output_file_path.isEmpty = true
      · simp [h2]
      · simp [h, h2]

theorem after_last_suffix (c : Char) :
    ∀ (l t : List Char), after_last c l = some t →
      t.length < l.length ∧ l.drop (l.length - t.length) = t := by
  intro l
  induction l with
  | nil => intro t h; simp [after_last] at h
  | cons x xs ih =>
    intro t h
    simp only [after_last] at h
    cases hxs : after_last c xs with
    | some u =>
      simp only [hxs, Option.some.injEq] at h
      subst h
      obtain ⟨h1, h2⟩ := ih u hxs
      refine ⟨by simp only [List.length_cons]; omega, ?_⟩
      simp only [List.length_cons]
      rw [show xs.length + 1 - u.length = (xs.length - u.length) + 1 by omega, List.drop_succ_cons]
      exact h2
    | none =>
      simp only [hxs] at h
      split at h
      · simp only [Option.some.injEq] at h
        subst h
        simp
      · exact absurd h (by simp)

/-- The search `rfind` finds the position in front of the text behind the last occurrence. -/
theorem rfind_from_eq (c : Char) :
    ∀ (l : List Char) (i : Nat) (acc : Option Nat),
      rfind_from c l i acc =
        match after_last c l with
        | some t => some (i + (l.length - t.length - 1))
        | none => acc := by
  intro l
  induction l with
  | nil => intro i acc; rfl
  | cons x xs ih =>
    intro i acc
    simp only [rfind_from, after_last, ih]
    cases hxs : after_last c xs with
    | some u =>
      obtain ⟨h1, _⟩ := after_last_suffix c xs u hxs
      simp only [List.length_cons]
      congr 1
      omega
    | none =>
      simp only
      split
      · simp
      · rfl

theorem content_length_fallback_eq (stoull : String → Option Nat) (resp : response)
    (hst : ∀ t n, stoull t = some n → n < u64_mod) :
    content_length_fallback stoull resp =
      match spec_content_length stoull resp with
      | some n => n
      | none => 0 := by
  unfold content_length_fallback spec_content_length
  cases find_header resp "content-length" with
  | none => rfl
  | some v =>
    simp only
    cases h : stoull v with
    | none => rfl
    | some n => exact Nat.mod_eq_of_lt (hst v n h)

/-- C15: for every probe response, `parse_content_length` returns the total of the
Content-Range header (the number read from the text after its last `/`) when that header is
present and the total parses to a positive number; otherwise the Content-Length value when that
header is present and parses; otherwise 0. Here `stoull` is `std::stoull`, whose results fit
64 bits. -/
theorem parse_content_length_spec (stoull : String → Option Nat) (resp : response)
    (hst : ∀ t n, stoull t = some n → n < u64_mod) :
    parse_content_length stoull resp = spec_parse_content_length stoull resp := by
  have hfb := content_length_fallback_eq stoull resp hst
  unfold parse_content_length spec_parse_content_length spec_content_range_total
  cases hcr : find_header resp "content-range" with
  | none => simp only; exact hfb
  | some v =>
    simp only [rfind_from_eq]
    cases hal : after_last '/' v.toList with
    | none => simp only; exact hfb
    | some t =>
      obtain ⟨h1, h2⟩ := after_last_suffix '/' v.toList t hal
      have hpos : 0 + (v.toList.length - t.length - 1) + 1 = v.toList.length - t.length := by
        omega
      simp only [hpos, h2]
      by_cases ht : t = []
      · subst ht
        simp only [List.length_nil, Nat.sub_zero, Nat.lt_irrefl, if_false, if_true]
        exact hfb
      · have hlen : 0 < t.length := List.length_pos.mpr ht
        have hlt : v.toList.length - t.length < v.toList.length := by omega
        simp only [hlt, if_true, ht, if_false]
        cases hs : stoull (String.mk t) with
        | none => simp only; exact hfb
        | some total =>
          have := hst _ total hs
          simp only [Nat.mod_eq_of_lt this]
          split
          · rfl
          · exact hfb

theorem decimal_stoull_lt (t : String) (n : Nat) (h : decimal_stoull t = some n) :
    n < u64_mod := by
  unfold decimal_stoull at h
  simp only at h
  split at h
  · exact absurd h (by simp)
  · split at h
    · rename_i hlt
      simp only [Option.some.injEq] at h
      rw [← h]
      exact hlt
    · exact absurd h (by simp)

/-- Witness for `parse_content_length_spec`: a probe answer carrying both headers; the
Content-Range total wins. -/
theorem parse_content_length_spec_witness :
    parse_content_length decimal_stoull
      (response.mk 206 [0] [("content-length", "1"), ("content-range", "bytes 0-0/2398523392")])
      = 2398523392 ∧
    parse_content_length decimal_stoull
      (response.mk 206 [0] [("content-length", "1"), ("content-range", "bytes 0-0/2398523392")])
      = spec_parse_content_length decimal_stoull
        (response.mk 206 [0]
          [("content-length", "1"), ("content-range", "bytes 0-0/2398523392")]) :=
  ⟨by decide,
    parse_content_length_spec decimal_stoull
      (response.mk 206 [0] [("content-length", "1"), ("content-range", "bytes 0-0/2398523392")])
      decimal_stoull_lt⟩

theorem contains_substr_iff (needle : List Char) :
    ∀ l : List Char, contains_substr needle l = true ↔ needle <:+: l := by
  intro l
  induction l with
  | nil => simp [contains_substr, List.isEmpty_iff]
  | cons c cs ih =>
    simp only [contains_substr, Bool.or_eq_true, List.isPrefixOf_iff_prefix, ih,
      List.infix_cons_iff]

/-- C16: for every probe response, `server_supports_ranges` returns true if and only if the
status code is 206, or a `content-range` header is present, or an `accept-ranges` header is
present whose value, after lower-casing, contains "bytes" as a substring. -/
theorem server_supports_ranges_iff (resp : response) :
    server_supports_ranges resp = true ↔
      resp.status_code = 206 ∨ (find_header resp "content-range").isSome = true ∨
      ∃ v, find_header resp "accept-ranges" = some v ∧
        "bytes".toList <:+: v.toList.map Char.toLower := by
  unfold server_supports_ranges
  by_cases h206 : resp.status_code = 206
  · simp [h206]
  · simp only [h206, if_false, false_or]
    cases hcr : find_header resp "content-range" with
    | some w => simp
    | none =>
      simp only [Option.isSome_none, Bool.false_eq_true, false_or]
      cases har : find_header resp "accept-ranges" with
      | none => simp
      | some v =>
        simp only [contains_substr_iff, to_lower_copy, Option.some.injEq, exists_eq_left']

/-- After a successful unranged request the buffer holds exactly the body, whatever size was
predicted. -/
theorem store_body_eq (total_bytes : Nat) (buffer body : List Nat)
    (h : total_bytes ≠ 0 → buffer.length = total_bytes) :
    store_body total_bytes buffer body = body := by
  unfold store_body
  by_cases h0 : total_bytes = 0
  · simp [h0]
  · have hb := h h0
    simp only [h0, if_false]
    have hlen : (if body.length ≠ total_bytes then vector_resize buffer body.length
        else buffer).length = body.length := by
      split
      · simp only [vector_resize, List.length_append, List.length_take, List.length_replicate]
        omega
      · rename_i heq
        simp only [ne_eq, Decidable.not_not] at heq
        omega
    rw [List.drop_of_length_le (le_refl _), List.append_nil, hlen, List.take_of_length_le
      (le_refl _)]

/-- C17: on the single-request paths of `download` (the probe gives size 0, or it gives a size
but no range support), when the cancellation flag is not set and the unranged request is
answered with a 2xx status and body `B`, `download` returns with the buffer equal to `B`, and
the callback calls are one `on_progress` call with part index 0 and all four byte counts equal
to `|B|` (when `on_progress` is non-null) followed by `on_complete(true, "")` (when
`on_complete` is non-null); no file is written. -/
theorem single_request_download (stoull : String → Option Nat) (env : download_env)
    (fuel : Nat) (opts : options) (has_on_progress has_on_complete : Bool) (buffer : List Nat)
    (hpath : parse_content_length stoull env.probe = 0 ∨
      server_supports_ranges env.probe = false)
    (hcancel : env.cancel_single = false)
    (h2xx : 200 ≤ env.plain.status_code ∧ env.plain.status_code < 300) :
    download stoull env fuel opts has_on_progress has_on_complete buffer =
      some (download_result.mk env.plain.body
        ((if has_on_progress then
            [event.progress (progress_info.mk 0 env.plain.body.length env.plain.body.length
              env.plain.body.length env.plain.body.length)]
          else []) ++ (if has_on_complete then [event.complete true ""] else []))
        none) := by
  have hst : ¬ (env.plain.status_code < 200 ∨ env.plain.status_code ≥ 300) := by omega
  have single : ∀ (total_bytes : Nat) (b : List Nat), (total_bytes ≠ 0 → b.length = total_bytes) →
      single_get env has_on_progress has_on_complete total_bytes b =
        download_result.mk env.plain.body
          ((if has_on_progress then
              [event.progress (progress_info.mk 0 env.plain.body.length env.plain.body.length
                env.plain.body.length env.plain.body.length)]
            else []) ++ (if has_on_complete then [event.complete true ""] else []))
          none := by
    intro total_bytes b hb
    simp only [single_get, hcancel, Bool.false_eq_true, if_false, hst,
      store_body_eq total_bytes b env.plain.body hb, notify]
  unfold download
  simp only
  by_cases h0 : parse_content_length stoull env.probe = 0
  · rw [if_pos h0, single _ buffer (fun h => absurd h0 h)]
  · rcases hpath with h | h
    · exact absurd h h0
    · rw [if_neg h0]
      simp only [h, Bool.not_false, if_true]
      rw [single _ _ (fun _ => by simp)]

/-- Witness for `single_request_download`: a probe without size and range information and a
three-byte body. -/
theorem single_request_download_witness :
    download decimal_stoull
      (download_env.mk (response.mk 200 [] []) (response.mk 200 [4, 5, 6] []) false
        (fun _ => range_server []) (fun _ => false) false true)
      0 (options.mk 4 1 60 "") true true [9]
      = some (download_result.mk [4, 5, 6]
          [event.progress (progress_info.mk 0 3 3 3 3), event.complete true ""] none) :=
  single_request_download decimal_stoull
    (download_env.mk (response.mk 200 [] []) (response.mk 200 [4, 5, 6] []) false
      (fun _ => range_server []) (fun _ => false) false true)
    0 (options.mk 4 1 60 "") true true [9] (Or.inl (by decide)) rfl (by decide)

/-- The window of a sub-chunk of a range inside a target of `T < 2^64` bytes: it starts at
`start + part_done`, has between 0 and `part_total - part_done` bytes, ends inside the range,
and when it has at least one byte the Range header end is its last byte. -/
theorem next_chunk_window (range : part_range) (opts : options) (T part_done : Nat)
    (h64 : T < u64_mod) (hse : range.start ≤ range.end_inclusive) (heT : range.end_inclusive < T)
    (hlt : part_done < range.end_inclusive - range.start + 1) :
    (next_chunk range opts (range.end_inclusive - range.start + 1) part_done).chunk
      = min opts.chunk_size_bytes (range.end_inclusive - range.start + 1 - part_done) ∧
    (next_chunk range opts (range.end_inclusive - range.start + 1) part_done).chunk_start
      = range.start + part_done ∧
    add64 (next_chunk range opts (range.end_inclusive - range.start + 1) part_done).chunk_end 1
      = range.start + part_done +
        (next_chunk range opts (range.end_inclusive - range.start + 1) part_done).chunk ∧
    (1 ≤ (next_chunk range opts (range.end_inclusive - range.start + 1) part_done).chunk →
      (next_chunk range opts (range.end_inclusive - range.start + 1) part_done).chunk_end + 1
        = range.start + part_done +
          (next_chunk range opts (range.end_inclusive - range.start + 1) part_done).chunk) := by
  have e1 : sub64 (range.end_inclusive - range.start + 1) part_done
      = range.end_inclusive - range.start + 1 - part_done :=
    sub64_of_le (by omega) (by omega)
  have e2 : add64 range.start part_done = range.start + part_done :=
    add64_of_lt (by omega)
  simp only [next_chunk, e1, e2]
  generalize hchunk : min opts.chunk_size_bytes
    (range.end_inclusive - range.start + 1 - part_done) = chunk
  have hcle : chunk ≤ range.end_inclusive - range.start + 1 - part_done := by omega
  have e3 : add64 (range.start + part_done) chunk = range.start + part_done + chunk :=
    add64_of_lt (by omega)
  refine ⟨trivial, trivial, ?_, ?_⟩
  · rw [e3]
    exact add64_sub64_one (by omega)
  · intro h1
    rw [e3, sub64_one_of_pos (by omega) (by omega)]
    omega

/-- The loop body written with the window `w` computed by `next_chunk` and the response
`resp` to the request for it. -/
theorem download_part_step_eq (env : part_env) (range : part_range) (part_index : Nat)
    (opts : options) (hp : Bool) (part_total k part_done : Nat) (st : part_state)
    (w : chunk_window) (resp : response)
    (hw : w = next_chunk range opts part_total part_done)
    (hresp : resp = env.get k w.chunk_start w.chunk_end) :
    download_part_step env range part_index opts hp part_total k part_done st =
      if env.cancel (k + 1) then
        step_result.stop (part_status.returned false) { st with out_error := "cancelled" }
      else if resp.status_code ≠ 206 ∧ resp.status_code ≠ 200 then
        step_result.stop (part_status.returned false)
          { st with out_error := "http status " ++ toString resp.status_code }
      else
        match copy_chunk resp st.target w.chunk_start w.chunk_end w.chunk with
        | Except.error e =>
          step_result.stop (part_status.returned false) { st with out_error := e }
        | Except.ok none => step_result.stop part_status.out_of_bounds st
        | Except.ok (some target) =>
          step_result.next (add64 part_done w.chunk)
            { st with
              target := target
              global_written := add64 st.global_written w.chunk
              progress :=
                if hp then st.progress ++
                  [progress_info.mk part_index (add64 part_done w.chunk) part_total
                    (add64 st.global_written w.chunk) target.length]
                else st.progress } := by
  subst hresp
  subst hw
  rfl

/-- A response with status 200 is accepted exactly when its body reaches the end of the
window, and is then copied from the offset of the window. -/
theorem copy_chunk_200 (resp : response) (target : List Nat) (a chunk : Nat)
    (hst : resp.status_code = 200) (h64 : a + chunk < u64_mod) :
    copy_chunk resp target a (sub64 (add64 a chunk) 1) chunk =
      if resp.body.length < a + chunk then Except.error "unexpected short 200 body"
      else Except.ok (memcpy target a resp.body a chunk) := by
  unfold copy_chunk
  rw [if_pos hst, add64_of_lt h64, add64_sub64_one h64]

/-- What a successful `memcpy` from the same offset of the source leaves in the target. -/
theorem memcpy_same_offset (target body : List Nat) (a chunk : Nat)
    (ha : a < target.length) (hat : a + chunk ≤ target.length)
    (hab : a + chunk ≤ body.length) :
    ∃ t, memcpy target a body a chunk = some t ∧ t.length = target.length ∧
      (∀ j : Nat, a ≤ j → j < a + chunk → t[j]? = body[j]?) ∧
      (∀ j : Nat, j < a ∨ a + chunk ≤ j → t[j]? = target[j]?) := by
  have hm : memcpy target a body a chunk
      = some (target.take a ++ ((body.drop a).take chunk ++ target.drop (a + chunk))) := by
    unfold memcpy
    rw [if_pos ⟨ha, hat, hab⟩]
  obtain ⟨_, hl, hfr⟩ := memcpy_frame hm
  have hct := memcpy_content hm
  refine ⟨_, hm, hl, ?_, hfr⟩
  intro j h1 h2
  have := hct (j - a) (by omega)
  rw [show a + (j - a) = j by omega] at this
  exact this

/-- C18: a sub-chunk step of `download_part` (for a range inside the target, with the
cancellation flag not set) that asks for the `chunk` bytes from `chunk_start` (for
`chunk >= 1` the window `[chunk_start, chunk_end]` of the Range header) and is answered with
status 200: when the body does not reach the end of the window the step fails with
"unexpected short 200 body"; otherwise the body is at least as long as the window, the step
goes on, the bytes of the window in the target are exactly the bytes of the body at the same
offsets, and every other byte of the target is unchanged. In particular a request for bytes
100-199 answered with a 1000-byte body copies bytes `[100, 200)` of the body to offset 100
and nothing else. -/
theorem step_answered_200 (env : part_env) (range : part_range) (part_index : Nat)
    (opts : options) (hp : Bool) (T k part_done : Nat) (st : part_state) (w : chunk_window)
    (resp : response)
    (h64 : T < u64_mod) (hse : range.start ≤ range.end_inclusive)
    (heT : range.end_inclusive < T) (hlen : st.target.length = T)
    (hlt : part_done < range.end_inclusive - range.start + 1)
    (hcancel : env.cancel (k + 1) = false)
    (hw : w = next_chunk range opts (range.end_inclusive - range.start + 1) part_done)
    (hresp : resp = env.get k w.chunk_start w.chunk_end)
    (h200 : resp.status_code = 200) :
    (1 ≤ w.chunk → w.chunk_start ≤ w.chunk_end ∧ w.chunk_end + 1 = w.chunk_start + w.chunk) ∧
    (resp.body.length < w.chunk_start + w.chunk →
      download_part_step env range part_index opts hp (range.end_inclusive - range.start + 1)
        k part_done st
        = step_result.stop (part_status.returned false)
            { st with out_error := "unexpected short 200 body" }) ∧
    (w.chunk_start + w.chunk ≤ resp.body.length →
      w.chunk ≤ resp.body.length ∧
      ∃ st1, download_part_step env range part_index opts hp
          (range.end_inclusive - range.start + 1) k part_done st
          = step_result.next (part_done + w.chunk) st1 ∧
        st1.target.length = T ∧
        (∀ j : Nat, w.chunk_start ≤ j → j < w.chunk_start + w.chunk →
          st1.target[j]? = resp.body[j]?) ∧
        (∀ j : Nat, j < w.chunk_start ∨ w.chunk_start + w.chunk ≤ j →
          st1.target[j]? = st.target[j]?)) ∧
    (∀ (body target : List Nat) (headers : List (String × String)),
      body.length = 1000 → 200 ≤ target.length →
      ∃ t, copy_chunk (response.mk 200 body headers) target 100 199 100 = Except.ok (some t) ∧
        t.length = target.length ∧
        (∀ j : Nat, 100 ≤ j → j < 200 → t[j]? = body[j]?) ∧
        (∀ j : Nat, j < 100 ∨ 200 ≤ j → t[j]? = target[j]?)) := by
  obtain ⟨wc, ws, _, we⟩ := next_chunk_window range opts T part_done h64 hse heT hlt
  rw [← hw] at wc ws we
  have hcle : w.chunk ≤ range.end_inclusive - range.start + 1 - part_done := by omega
  have hend : w.chunk_end = sub64 (add64 w.chunk_start w.chunk) 1 := by rw [hw]; rfl
  have hstep := download_part_step_eq env range part_index opts hp
    (range.end_inclusive - range.start + 1) k part_done st w resp hw hresp
  rw [hcancel, if_neg (by simp), if_neg (fun h => h.2 h200)] at hstep
  have hcopy := copy_chunk_200 resp st.target w.chunk_start w.chunk h200 (by omega)
  rw [← hend] at hcopy
  rw [hstep, hcopy, add64_of_lt (show part_done + w.chunk < u64_mod by omega)]
  refine ⟨fun h1 => ⟨by have := we h1; omega, by have := we h1; omega⟩, ?_, ?_, ?_⟩
  · intro hshort
    rw [if_pos hshort]
  · intro hlong
    obtain ⟨t, hm, hl, hin, hout⟩ := memcpy_same_offset st.target resp.body w.chunk_start w.chunk
      (by omega) (by omega) hlong
    rw [if_neg (by omega), hm]
    exact ⟨by omega, _, rfl, by simp only; omega, hin, hout⟩
  · intro body target headers hb ht
    obtain ⟨t, hm, hl, hin, hout⟩ := memcpy_same_offset target body 100 100
      (by omega) (by omega) (by omega)
    refine ⟨t, ?_, hl, hin, hout⟩
    have e : add64 199 1 = 200 := by simp [add64, u64_mod]
    simp only [copy_chunk, if_true, e, hb, hm]
    rfl

/-- Witness for `step_answered_200`: the first two bytes of a four-byte range are asked for
and the server answers 200 with the whole resource. -/
theorem step_answered_200_witness :
    download_part_step
      (part_env.mk (fun _ => false) (fun _ _ _ => response.mk 200 [5, 6, 7, 8] []))
      (part_range.mk 0 3) 0 (options.mk 1 2 60 "") false (3 - 0 + 1) 0 0
      (part_state.mk [0, 0, 0, 0] 0 "" [])
      = step_result.next 2 (part_state.mk [5, 6, 0, 0] 2 "" []) ∧
    ((next_chunk (part_range.mk 0 3) (options.mk 1 2 60 "") (3 - 0 + 1) 0).chunk
        ≤ (response.mk 200 [5, 6, 7, 8] []).body.length ∧
      ∃ st1, download_part_step
          (part_env.mk (fun _ => false) (fun _ _ _ => response.mk 200 [5, 6, 7, 8] []))
          (part_range.mk 0 3) 0 (options.mk 1 2 60 "") false (3 - 0 + 1) 0 0
          (part_state.mk [0, 0, 0, 0] 0 "" [])
          = step_result.next
            (0 + (next_chunk (part_range.mk 0 3) (options.mk 1 2 60 "") (3 - 0 + 1) 0).chunk)
            st1 ∧
        st1.target.length = 4 ∧
        (∀ j : Nat,
          (next_chunk (part_range.mk 0 3) (options.mk 1 2 60 "") (3 - 0 + 1) 0).chunk_start ≤ j →
          j < (next_chunk (part_range.mk 0 3) (options.mk 1 2 60 "") (3 - 0 + 1) 0).chunk_start
            + (next_chunk (part_range.mk 0 3) (options.mk 1 2 60 "") (3 - 0 + 1) 0).chunk →
          st1.target[j]? = (response.mk 200 [5, 6, 7, 8] []).body[j]?) ∧
        (∀ j : Nat,
          j < (next_chunk (part_range.mk 0 3) (options.mk 1 2 60 "") (3 - 0 + 1) 0).chunk_start ∨
          (next_chunk (part_range.mk 0 3) (options.mk 1 2 60 "") (3 - 0 + 1) 0).chunk_start
            + (next_chunk (part_range.mk 0 3) (options.mk 1 2 60 "") (3 - 0 + 1) 0).chunk ≤ j →
          st1.target[j]? = (part_state.mk [0, 0, 0, 0] 0 "" []).target[j]?)) :=
  ⟨by decide,
    (step_answered_200
      (part_env.mk (fun _ => false) (fun _ _ _ => response.mk 200 [5, 6, 7, 8] []))
      (part_range.mk 0 3) 0 (options.mk 1 2 60 "") false 4 0 0
      (part_state.mk [0, 0, 0, 0] 0 "" [])
      (next_chunk (part_range.mk 0 3) (options.mk 1 2 60 "") (3 - 0 + 1) 0)
      (response.mk 200 [5, 6, 7, 8] [])
      (by decide) (by decide) (by decide) rfl (by decide) rfl rfl rfl rfl).2.2.1 (by decide)⟩

theorem http_status_ne_empty (t : String) : "http status " ++ t ≠ "" := by
  intro h
  have := congrArg String.length h
  simp only [String.length_append] at this
  have h12 : "http status ".length = 12 := by decide
  have h0 : "".length = 0 := by decide
  omega

/-- A response with status 206 is accepted exactly when its body has the chunk length, and is
then copied from its start. -/
theorem copy_chunk_206_eq (resp : response) (target : List Nat) (a b chunk : Nat)
    (hst : resp.status_code = 206) :
    copy_chunk resp target a b chunk =
      if resp.body.length ≠ chunk then Except.error "partial body length mismatch"
      else Except.ok (memcpy target a resp.body 0 chunk) := by
  unfold copy_chunk
  rw [hst, if_neg (by omega)]

/-- The six ways through the body of the sub-chunk loop, for a range inside the target. -/
theorem download_part_step_cases (env : part_env) (range : part_range) (part_index : Nat)
    (opts : options) (hp : Bool) (T k part_done : Nat) (st : part_state) (w : chunk_window)
    (resp : response)
    (h64 : T < u64_mod) (hse : range.start ≤ range.end_inclusive)
    (heT : range.end_inclusive < T) (hlen : st.target.length = T)
    (hlt : part_done < range.end_inclusive - range.start + 1)
    (hw : w = next_chunk range opts (range.end_inclusive - range.start + 1) part_done)
    (hresp : resp = env.get k w.chunk_start w.chunk_end) :
    (env.cancel (k + 1) = true →
      download_part_step env range part_index opts hp (range.end_inclusive - range.start + 1)
        k part_done st
        = step_result.stop (part_status.returned false) { st with out_error := "cancelled" }) ∧
    (env.cancel (k + 1) = false → resp.status_code ≠ 200 ∧ resp.status_code ≠ 206 →
      download_part_step env range part_index opts hp (range.end_inclusive - range.start + 1)
        k part_done st
        = step_result.stop (part_status.returned false)
            { st with out_error := "http status " ++ toString resp.status_code }) ∧
    (env.cancel (k + 1) = false → resp.status_code = 206 → resp.body.length ≠ w.chunk →
      download_part_step env range part_index opts hp (range.end_inclusive - range.start + 1)
        k part_done st
        = step_result.stop (part_status.returned false)
            { st with out_error := "partial body length mismatch" }) ∧
    (env.cancel (k + 1) = false → resp.status_code = 200 →
      resp.body.length < w.chunk_start + w.chunk →
      download_part_step env range part_index opts hp (range.end_inclusive - range.start + 1)
        k part_done st
        = step_result.stop (part_status.returned false)
            { st with out_error := "unexpected short 200 body" }) ∧
    (env.cancel (k + 1) = false →
      (resp.status_code = 206 ∧ resp.body.length = w.chunk) ∨
        (resp.status_code = 200 ∧ w.chunk_start + w.chunk ≤ resp.body.length) →
      ∃ st1, download_part_step env range part_index opts hp
          (range.end_inclusive - range.start + 1) k part_done st
          = step_result.next (part_done + w.chunk) st1) := by
  obtain ⟨wc, ws, _, _⟩ := next_chunk_window range opts T part_done h64 hse heT hlt
  rw [← hw] at wc ws
  have hcle : w.chunk ≤ range.end_inclusive - range.start + 1 - part_done := by omega
  have hend : w.chunk_end = sub64 (add64 w.chunk_start w.chunk) 1 := by rw [hw]; rfl
  have hstep := download_part_step_eq env range part_index opts hp
    (range.end_inclusive - range.start + 1) k part_done st w resp hw hresp
  have hadd : add64 part_done w.chunk = part_done + w.chunk := add64_of_lt (by omega)
  rw [hstep]
  refine ⟨?_, ?_, ?_, ?_, ?_⟩
  · intro hc
    rw [hc, if_pos rfl]
  · intro hc hs
    rw [hc, if_neg (by simp), if_pos ⟨hs.2, hs.1⟩]
  · intro hc hs hb
    rw [hc, if_neg (by simp), if_neg (fun h => h.1 hs), copy_chunk_206_eq _ _ _ _ _ hs,
      if_pos hb]
  · intro hc hs hb
    have hcopy := copy_chunk_200 resp st.target w.chunk_start w.chunk hs (by omega)
    rw [← hend] at hcopy
    rw [hc, if_neg (by simp), if_neg (fun h => h.2 hs), hcopy, if_pos hb]
  · intro hc hs
    rcases hs with ⟨hs, hb⟩ | ⟨hs, hb⟩
    · have hm : memcpy st.target w.chunk_start resp.body 0 w.chunk
          = some (st.target.take w.chunk_start ++
              ((resp.body.drop 0).take w.chunk ++
                st.target.drop (w.chunk_start + w.chunk))) := by
        unfold memcpy
        rw [if_pos ⟨by omega, by omega, by omega⟩]
      rw [hc, if_neg (by simp), if_neg (fun h => h.1 hs), copy_chunk_206_eq _ _ _ _ _ hs,
        if_neg (by simp [hb]), hm, hadd]
      exact ⟨_, rfl⟩
    · obtain ⟨t, hm, _, _, _⟩ := memcpy_same_offset st.target resp.body w.chunk_start w.chunk
        (by omega) (by omega) hb
      have hcopy := copy_chunk_200 resp st.target w.chunk_start w.chunk hs (by omega)
      rw [← hend] at hcopy
      rw [hc, if_neg (by simp), if_neg (fun h => h.2 hs), hcopy, if_neg (by omega), hm, hadd]
      exact ⟨_, rfl⟩

/-- C19 as stated fails under cancellation: a step that finds the cancellation flag set
(line 115) makes `download_part` return false with the error "cancelled" and without copying,
although the server answers the request of that step with status 206 and a body of exactly
the requested length. -/
theorem step_cancelled_counterexample :
    download_part_step
      (part_env.mk (fun k => decide (k = 1)) (fun _ _ _ => response.mk 206 [5, 6] []))
      (part_range.mk 0 1) 0 (options.mk 1 2 60 "") true 2 0 0 (part_state.mk [0, 0] 0 "" [])
      = step_result.stop (part_status.returned false) (part_state.mk [0, 0] 0 "cancelled" []) ∧
    download_part
      (part_env.mk (fun k => decide (k = 1)) (fun _ _ _ => response.mk 206 [5, 6] []))
      5 (part_range.mk 0 1) 0 (options.mk 1 2 60 "") true (part_state.mk [0, 0] 0 "" [])
      = (part_status.returned false, part_state.mk [0, 0] 0 "cancelled" []) ∧
    next_chunk (part_range.mk 0 1) (options.mk 1 2 60 "") 2 0 = chunk_window.mk 2 0 1 ∧
    (response.mk 206 [5, 6] []).status_code = 206 ∧
    (response.mk 206 [5, 6] []).body.length = 2 := by
  decide

/-- C19 (amended): a sub-chunk step of `download_part` (for a range inside the target) fails,
that is `download_part` returns false, if and only if the cancellation flag is set when the
step reads it (error "cancelled", no request is made), or else the response status is neither
200 nor 206 (error "http status <code>"), or it is 206 and the body length differs from the
requested chunk length (error "partial body length mismatch"), or it is 200 and the body does
not reach the end of the requested window (error "unexpected short 200 body"). A failing step
leaves the target, the byte counter and the progress calls as they were, its error is not
empty, and the loop returns at once with it: no further sub-chunk is requested. -/
theorem step_fails_iff (env : part_env) (range : part_range) (part_index : Nat)
    (opts : options) (hp : Bool) (T k part_done : Nat) (st : part_state) (w : chunk_window)
    (resp : response)
    (h64 : T < u64_mod) (hse : range.start ≤ range.end_inclusive)
    (heT : range.end_inclusive < T) (hlen : st.target.length = T)
    (hlt : part_done < range.end_inclusive - range.start + 1)
    (hw : w = next_chunk range opts (range.end_inclusive - range.start + 1) part_done)
    (hresp : resp = env.get k w.chunk_start w.chunk_end) :
    ((∃ st1, download_part_step env range part_index opts hp
          (range.end_inclusive - range.start + 1) k part_done st
          = step_result.stop (part_status.returned false) st1) ↔
      (env.cancel (k + 1) = true ∨
        (env.cancel (k + 1) = false ∧
          ((resp.status_code ≠ 200 ∧ resp.status_code ≠ 206) ∨
            (resp.status_code = 206 ∧ resp.body.length ≠ w.chunk) ∨
            (resp.status_code = 200 ∧ resp.body.length < w.chunk_start + w.chunk))))) ∧
    (env.cancel (k + 1) = true →
      download_part_step env range part_index opts hp (range.end_inclusive - range.start + 1)
        k part_done st
        = step_result.stop (part_status.returned false) { st with out_error := "cancelled" }) ∧
    (env.cancel (k + 1) = false → resp.status_code ≠ 200 ∧ resp.status_code ≠ 206 →
      download_part_step env range part_index opts hp (range.end_inclusive - range.start + 1)
        k part_done st
        = step_result.stop (part_status.returned false)
            { st with out_error := "http status " ++ toString resp.status_code }) ∧
    (env.cancel (k + 1) = false → resp.status_code = 206 → resp.body.length ≠ w.chunk →
      download_part_step env range part_index opts hp (range.end_inclusive - range.start + 1)
        k part_done st
        = step_result.stop (part_status.returned false)
            { st with out_error := "partial body length mismatch" }) ∧
    (env.cancel (k + 1) = false → resp.status_code = 200 →
      resp.body.length < w.chunk_start + w.chunk →
      download_part_step env range part_index opts hp (range.end_inclusive - range.start + 1)
        k part_done st
        = step_result.stop (part_status.returned false)
            { st with out_error := "unexpected short 200 body" }) ∧
    (∀ st1, download_part_step env range part_index opts hp
        (range.end_inclusive - range.start + 1) k part_done st
        = step_result.stop (part_status.returned false) st1 →
      st1.target = st.target ∧ st1.global_written = st.global_written ∧
      st1.progress = st.progress ∧ st1.out_error ≠ "" ∧
      ∀ fuel, download_part_loop env range part_index opts hp
        (range.end_inclusive - range.start + 1) (fuel + 1) k part_done st
        = (part_status.returned false, st1)) := by
  obtain ⟨c1, c2, c3, c4, c5⟩ := download_part_step_cases env range part_index opts hp T k
    part_done st w resp h64 hse heT hlen hlt hw hresp
  have key : (∃ e, e ≠ "" ∧
        download_part_step env range part_index opts hp
          (range.end_inclusive - range.start + 1) k part_done st
          = step_result.stop (part_status.returned false) { st with out_error := e } ∧
        (env.cancel (k + 1) = true ∨
          (env.cancel (k + 1) = false ∧
            ((resp.status_code ≠ 200 ∧ resp.status_code ≠ 206) ∨
              (resp.status_code = 206 ∧ resp.body.length ≠ w.chunk) ∨
              (resp.status_code = 200 ∧ resp.body.length < w.chunk_start + w.chunk))))) ∨
      (∃ st1, download_part_step env range part_index opts hp
          (range.end_inclusive - range.start + 1) k part_done st
          = step_result.next (part_done + w.chunk) st1 ∧
        ¬ (env.cancel (k + 1) = true ∨
          (env.cancel (k + 1) = false ∧
            ((resp.status_code ≠ 200 ∧ resp.status_code ≠ 206) ∨
              (resp.status_code = 206 ∧ resp.body.length ≠ w.chunk) ∨
              (resp.status_code = 200 ∧ resp.body.length < w.chunk_start + w.chunk))))) := by
    cases hc : env.cancel (k + 1) with
    | true => exact Or.inl ⟨"cancelled", by decide, c1 hc, Or.inl rfl⟩
    | false =>
      by_cases h200 : resp.status_code = 200
      · by_cases hshort : resp.body.length < w.chunk_start + w.chunk
        · exact Or.inl ⟨_, by decide, c4 hc h200 hshort, Or.inr ⟨rfl, Or.inr (Or.inr
            ⟨h200, hshort⟩)⟩⟩
        · obtain ⟨st1, h1⟩ := c5 hc (Or.inr ⟨h200, by omega⟩)
          refine Or.inr ⟨st1, h1, ?_⟩
          rintro (h | ⟨_, h | h | h⟩)
          · exact absurd h (by simp)
          · exact h.1 h200
          · omega
          · exact hshort h.2
      · by_cases h206 : resp.status_code = 206
        · by_cases hb : resp.body.length = w.chunk
          · obtain ⟨st1, h1⟩ := c5 hc (Or.inl ⟨h206, hb⟩)
            refine Or.inr ⟨st1, h1, ?_⟩
            rintro (h | ⟨_, h | h | h⟩)
            · exact absurd h (by simp)
            · exact h.2 h206
            · exact h.2 hb
            · exact h200 h.1
          · exact Or.inl ⟨_, by decide, c3 hc h206 hb, Or.inr ⟨rfl, Or.inr (Or.inl
              ⟨h206, hb⟩)⟩⟩
        · exact Or.inl ⟨_, http_status_ne_empty _, c2 hc ⟨h200, h206⟩, Or.inr ⟨rfl, Or.inl
            ⟨h200, h206⟩⟩⟩
  refine ⟨?_, c1, c2, c3, c4, ?_⟩
  · constructor
    · rintro ⟨st1, h1⟩
      rcases key with ⟨e, _, _, hcond⟩ | ⟨st2, h2, _⟩
      · exact hcond
      · rw [h1] at h2
        exact absurd h2 (by simp)
    · intro hcond
      rcases key with ⟨e, _, h1, _⟩ | ⟨st2, _, hnot⟩
      · exact ⟨_, h1⟩
      · exact absurd hcond hnot
  · intro st1 h1
    rcases key with ⟨e, hne, h2, _⟩ | ⟨st2, h2, _⟩
    · rw [h1] at h2
      simp only [step_result.stop.injEq, true_and] at h2
      subst h2
      refine ⟨rfl, rfl, rfl, hne, ?_⟩
      intro fuel
      simp only [download_part_loop, hlt, if_true, h1]
    · rw [h1] at h2
      exact absurd h2 (by simp)

/-- Witness for `step_fails_iff`: the first request for two bytes is answered with status
206 and a one-byte body. -/
theorem step_fails_iff_witness :
    download_part_step
      (part_env.mk (fun _ => false) (fun _ _ _ => response.mk 206 [5] []))
      (part_range.mk 0 3) 0 (options.mk 1 2 60 "") false (3 - 0 + 1) 0 0
      (part_state.mk [0, 0, 0, 0] 0 "" [])
      = step_result.stop (part_status.returned false)
          (part_state.mk [0, 0, 0, 0] 0 "partial body length mismatch" []) :=
  (step_fails_iff
    (part_env.mk (fun _ => false) (fun _ _ _ => response.mk 206 [5] []))
    (part_range.mk 0 3) 0 (options.mk 1 2 60 "") false 4 0 0
    (part_state.mk [0, 0, 0, 0] 0 "" [])
    (next_chunk (part_range.mk 0 3) (options.mk 1 2 60 "") (3 - 0 + 1) 0)
    (response.mk 206 [5] [])
    (by decide) (by decide) (by decide) rfl (by decide) rfl rfl).2.2.2.1 rfl rfl (by decide)

/-- A call of `download_part` for a range inside the target keeps the length of the
target. -/
theorem download_part_length (env : part_env) (fuel : Nat) (range : part_range)
    (part_index : Nat) (opts : options) (hp : Bool) (T : Nat) (st : part_state)
    (h64 : T < u64_mod) (hse : range.start ≤ range.end_inclusive)
    (heT : range.end_inclusive < T) (hlen : st.target.length = T) :
    (download_part env fuel range part_index opts hp st).2.target.length = T := by
  unfold download_part
  split
  · exact hlen
  · have e : add64 (sub64 range.end_inclusive range.start) 1
        = range.end_inclusive - range.start + 1 := by
      rw [sub64_of_le hse (by omega)]
      exact add64_of_lt (by omega)
    simp only [e]
    exact (download_part_loop_frame env range part_index opts hp T h64 hse heT fuel 0 0 st hlen
      (by omega)).2.1

/-- Every future that `launch_next` adds is a planned part together with its index. -/
theorem launch_next_entries (parts : List part_range) :
    ∀ count (fl : List (Nat × part_range)) (ni : Nat),
      ∀ e ∈ (launch_next parts count fl ni).1, e ∈ fl ∨ parts[e.1]? = some e.2 := by
  intro count
  induction count with
  | zero => intro fl ni e he; exact Or.inl he
  | succ count ih =>
    intro fl ni e he
    simp only [launch_next] at he
    cases hp : parts[ni]? with
    | none =>
      rw [hp] at he
      exact Or.inl he
    | some range =>
      rw [hp] at he
      rcases ih _ _ e he with h | h
      · rcases List.mem_cons.mp h with rfl | h
        · exact Or.inr hp
        · exact Or.inl h
      · exact Or.inr h

theorem launch_one_at_end (parts : List part_range) (rest : List (Nat × part_range)) :
    launch_next parts 1 rest parts.length = (rest, parts.length) := by
  have : parts[parts.length]? = none := List.getElem?_eq_none_iff.mpr (le_refl _)
  simp [launch_next, this]

/-- Awaiting the futures once a failure has been recorded: whatever the remaining tasks
return, the loop ends with all futures awaited, the transfer marked failed and the first
error kept. -/
theorem drain_after_failure (env : download_env) (fuel : Nat) (parts : List part_range)
    (opts : options) (hp : Bool) (T : Nat) (h64 : T < u64_mod)
    (hvalid : ∀ r ∈ parts, r.start ≤ r.end_inclusive ∧ r.end_inclusive < T)
    (hret : ∀ i range st, parts[i]? = some range → st.target.length = T →
      ∃ ok st1, download_part (env.part i) fuel range i opts hp st
        = (part_status.returned ok, st1)) :
    ∀ n (fl : List (Nat × part_range)) (e : String) (shared : part_state),
      fl.length ≤ n → shared.target.length = T →
      (∀ x ∈ fl, parts[x.1]? = some x.2) →
      ∃ ps1, drain env fuel parts opts hp n (pool_state.mk fl parts.length true e shared)
          = some ps1 ∧
        ps1.failed = true ∧ ps1.first_error = e ∧ ps1.in_flight = [] := by
  intro n
  induction n with
  | zero =>
    intro fl e shared hn _ _
    have : fl = [] := List.length_eq_zero.mp (by omega)
    subst this
    exact ⟨pool_state.mk [] parts.length true e shared, by simp [drain], rfl, rfl, rfl⟩
  | succ n ih =>
    intro fl e shared hn hlen hfl
    cases fl with
    | nil => exact ⟨pool_state.mk [] parts.length true e shared, by simp [drain], rfl, rfl, rfl⟩
    | cons x rest =>
      obtain ⟨idx, range⟩ := x
      have hx := hfl (idx, range) (List.mem_cons_self _ _)
      obtain ⟨hse, heT⟩ := hvalid range (List.getElem?_mem hx)
      obtain ⟨ok, st1, hdl⟩ := hret idx range { shared with out_error := "" } hx hlen
      have hl1 : st1.target.length = T := by
        have := download_part_length (env.part idx) fuel range idx opts hp T
          { shared with out_error := "" } h64 hse heT hlen
        rw [hdl] at this
        exact this
      obtain ⟨ps1, hdr, h1, h2, h3⟩ := ih rest e st1
        (by simp only [List.length_cons] at hn; omega) hl1
        (fun y hy => hfl y (List.mem_cons_of_mem _ hy))
      refine ⟨ps1, ?_, h1, h2, h3⟩
      simp only [drain, hdl, launch_one_at_end, Bool.not_true, Bool.and_false, Bool.true_or,
        Bool.false_eq_true, if_false]
      split <;> exact hdr

/-- Awaiting the futures when the task of part `i0` fails with the error `err`, every other
task returns true and no cancellation is seen: the loop ends with all futures awaited, the
transfer marked failed and `err` as first error. -/
theorem drain_one_failure (env : download_env) (fuel : Nat) (parts : List part_range)
    (opts : options) (hp : Bool) (T : Nat) (i0 : Nat) (err : String) (h64 : T < u64_mod)
    (hvalid : ∀ r ∈ parts, r.start ≤ r.end_inclusive ∧ r.end_inclusive < T)
    (hafter : ∀ i, env.cancel_after_get i = false)
    (hok : ∀ i range st, i ≠ i0 → parts[i]? = some range → st.target.length = T →
      ∃ st1, download_part (env.part i) fuel range i opts hp st
        = (part_status.returned true, st1))
    (hfail : ∀ range st, parts[i0]? = some range → st.target.length = T →
      ∃ st1, download_part (env.part i0) fuel range i0 opts hp st
        = (part_status.returned false, st1) ∧ st1.out_error = err) :
    ∀ n (fl : List (Nat × part_range)) (e : String) (shared : part_state),
      fl.length ≤ n → shared.target.length = T →
      (∀ x ∈ fl, parts[x.1]? = some x.2) → (∃ r0, (i0, r0) ∈ fl) →
      ∃ ps1, drain env fuel parts opts hp n (pool_state.mk fl parts.length false e shared)
          = some ps1 ∧
        ps1.failed = true ∧ ps1.first_error = err ∧ ps1.in_flight = [] := by
  have hret : ∀ i range st, parts[i]? = some range → st.target.length = T →
      ∃ ok st1, download_part (env.part i) fuel range i opts hp st
        = (part_status.returned ok, st1) := by
    intro i range st h1 h2
    by_cases hi : i = i0
    · subst hi
      obtain ⟨st1, h, _⟩ := hfail range st h1 h2
      exact ⟨false, st1, h⟩
    · obtain ⟨st1, h⟩ := hok i range st hi h1 h2
      exact ⟨true, st1, h⟩
  intro n
  induction n with
  | zero =>
    intro fl e shared hn _ _ hin
    have : fl = [] := List.length_eq_zero.mp (by omega)
    subst this
    obtain ⟨r0, h⟩ := hin
    simp at h
  | succ n ih =>
    intro fl e shared hn hlen hfl hin
    cases fl with
    | nil =>
      obtain ⟨r0, h⟩ := hin
      simp at h
    | cons x rest =>
      obtain ⟨idx, range⟩ := x
      have hx := hfl (idx, range) (List.mem_cons_self _ _)
      obtain ⟨hse, heT⟩ := hvalid range (List.getElem?_mem hx)
      have hl1 := download_part_length (env.part idx) fuel range idx opts hp T
        { shared with out_error := "" } h64 hse heT hlen
      by_cases hi : idx = i0
      · subst hi
        obtain ⟨st1, hdl, herr⟩ := hfail range { shared with out_error := "" } hx hlen
        rw [hdl] at hl1
        obtain ⟨ps1, hdr, h1, h2, h3⟩ := drain_after_failure env fuel parts opts hp T h64 hvalid
          hret n rest err st1 (by simp only [List.length_cons] at hn; omega) hl1
          (fun y hy => hfl y (List.mem_cons_of_mem _ hy))
        refine ⟨ps1, ?_, h1, h2, h3⟩
        simp only [drain, hdl, Bool.not_false, Bool.true_or, if_true, Bool.and_self, herr]
        exact hdr
      · obtain ⟨st1, hdl⟩ := hok idx range { shared with out_error := "" } hi hx hlen
        rw [hdl] at hl1
        obtain ⟨r0, hr0⟩ := hin
        have hr0' : (i0, r0) ∈ rest := by
          rcases List.mem_cons.mp hr0 with h | h
          · simp only [Prod.mk.injEq] at h
            exact absurd h.1.symm hi
          · exact h
        obtain ⟨ps1, hdr, h1, h2, h3⟩ := ih rest e st1
          (by simp only [List.length_cons] at hn; omega) hl1
          (fun y hy => hfl y (List.mem_cons_of_mem _ hy)) ⟨r0, hr0'⟩
        refine ⟨ps1, ?_, h1, h2, h3⟩
        simp only [drain, hdl, hafter, launch_one_at_end, Bool.not_true, Bool.or_false,
          Bool.false_eq_true, if_false, Bool.false_and, Bool.and_false]
        exact hdr

theorem content_length_fallback_lt (stoull : String → Option Nat) (resp : response) :
    content_length_fallback stoull resp < u64_mod := by
  unfold content_length_fallback
  split
  · decide
  · split
    · exact Nat.mod_lt _ (by decide)
    · decide

/-- The size that `parse_content_length` returns is a 64-bit value. -/
theorem parse_content_length_lt (stoull : String → Option Nat) (resp : response) :
    parse_content_length stoull resp < u64_mod := by
  have hf := content_length_fallback_lt stoull resp
  unfold parse_content_length
  split
  · split
    · split
      · split
        · split
          · exact Nat.mod_lt _ (by decide)
          · exact hf
        · exact hf
      · exact hf
    · exact hf
  · exact hf

/-- C20: in a ranged transfer (the probe gives a size `T >= 1` and range support,
`max_threads >= 1`) without cancellation seen by `download`, in which the task of exactly one
part `i0` fails, with the error "http status <s>" that a sub-chunk answered with status `s`
outside 200 and 206 produces, and the tasks of all other parts return true, `download`
returns after all futures were awaited, and its callback calls are progress calls followed by
exactly one `on_complete` call, which is `on_complete(false, "http status <s>")`; for
`s = 500` the message is "http status 500". -/
theorem download_one_part_fails (stoull : String → Option Nat) (env : download_env)
    (fuel : Nat) (opts : options) (hp : Bool) (buffer : List Nat) (T i0 : Nat) (s : Int)
    (hprobe : parse_content_length stoull env.probe = T) (hT : 1 ≤ T)
    (hranges : server_supports_ranges env.probe = true)
    (hthreads : 1 ≤ opts.max_threads)
    (hi0 : i0 < (plan_parts T opts).length)
    (hafter : ∀ i, env.cancel_after_get i = false) (hfinal : env.cancel_final = false)
    (hok : ∀ i range st, i ≠ i0 → (plan_parts T opts)[i]? = some range →
      st.target.length = T →
      ∃ st1, download_part (env.part i) fuel range i opts hp st
        = (part_status.returned true, st1))
    (hfail : ∀ range st, (plan_parts T opts)[i0]? = some range → st.target.length = T →
      ∃ st1, download_part (env.part i0) fuel range i0 opts hp st
        = (part_status.returned false, st1) ∧
        st1.out_error = "http status " ++ toString s) :
    (∃ ps1, drain env fuel (plan_parts T opts) opts hp (plan_parts T opts).length
        (pool_state.mk (launch_next (plan_parts T opts)
            (min opts.max_threads (plan_parts T opts).length) [] 0).1
          (launch_next (plan_parts T opts)
            (min opts.max_threads (plan_parts T opts).length) [] 0).2
          false "" (part_state.mk (List.replicate T 0) 0 "" [])) = some ps1 ∧
      ps1.in_flight = [] ∧
      download stoull env fuel opts hp true buffer = some (finish env opts true ps1) ∧
      (finish env opts true ps1).events =
        List.map event.progress ps1.shared.progress ++
          [event.complete false ("http status " ++ toString s)] ∧
      ((finish env opts true ps1).events.filter (fun e => match e with
        | event.complete _ _ => true
        | event.progress _ => false)).length = 1) ∧
    "http status " ++ toString (500 : Int) = "http status 500" := by
  refine ⟨?_, by decide⟩
  have h64 : T < u64_mod := by rw [← hprobe]; exact parse_content_length_lt stoull env.probe
  obtain ⟨hb, hr, hs⟩ := plan_parts_entry T (min (max opts.max_threads 1) T) (by omega)
    (by omega)
  have hspec := plan_parts_loop_spec _ _ T hb h64 _ 0 0 hr hs
  rw [← plan_parts_eq T opts (by omega)] at hspec
  obtain ⟨hplen, hpmem, _, _, _, _⟩ := hspec
  have hvalid : ∀ r ∈ plan_parts T opts, r.start ≤ r.end_inclusive ∧ r.end_inclusive < T :=
    fun r hr => (hpmem r hr).2
  have hcount : min opts.max_threads (plan_parts T opts).length
      = (plan_parts T opts).length := by omega
  rw [hcount]
  obtain ⟨l1, _, _, l4⟩ := launch_next_spec (plan_parts T opts) (plan_parts T opts).length [] 0
  have l3 := launch_next_entries (plan_parts T opts) (plan_parts T opts).length [] 0
  have l5 := launch_next_length (plan_parts T opts) (plan_parts T opts).length [] 0
  have hni : (launch_next (plan_parts T opts) (plan_parts T opts).length [] 0).2
      = (plan_parts T opts).length := by
    rw [l1]; omega
  obtain ⟨r0, hr0⟩ : ∃ r0, (plan_parts T opts)[i0]? = some r0 :=
    ⟨(plan_parts T opts)[i0], List.getElem?_eq_getElem hi0⟩
  obtain ⟨ps1, hdr, hf, herr, hfl⟩ := drain_one_failure env fuel (plan_parts T opts) opts hp T i0
    ("http status " ++ toString s) h64 hvalid hafter hok hfail (plan_parts T opts).length
    (launch_next (plan_parts T opts) (plan_parts T opts).length [] 0).1 ""
    (part_state.mk (List.replicate T 0) 0 "" [])
    (by simpa using l5) (by simp)
    (by
      intro x hx
      rcases l3 x hx with h | h
      · simp at h
      · exact h)
    ⟨r0, l4 i0 r0 (by omega) (by omega) hr0⟩
  have hne : ¬ T = 0 := by omega
  have hemp : ("http status " ++ toString s).isEmpty = false := by
    cases h : ("http status " ++ toString s).isEmpty with
    | false => rfl
    | true => exact absurd ((String.isEmpty_iff _).mp h) (http_status_ne_empty _)
  have hev : (finish env opts true ps1).events =
      List.map event.progress ps1.shared.progress ++
        [event.complete false ("http status " ++ toString s)] := by
    simp [finish, hfinal, hf, herr, hemp, notify]
  rw [hni]
  refine ⟨ps1, hdr, hfl, ?_, hev, ?_⟩
  · unfold download
    simp only [hprobe, hranges, hne, if_false, Bool.not_true, Bool.false_eq_true, hcount]
    rw [hni, hdr]
  · rw [hev, List.filter_append]
    have : List.filter (fun e => match e with
        | event.complete _ _ => true
        | event.progress _ => false) (List.map event.progress ps1.shared.progress) = [] := by
      induction ps1.shared.progress with
      | nil => rfl
      | cons p ps ih => simp [List.filter]
    rw [this]
    rfl

/-- Against a server that answers with a status other than 200 and 206, `download_part`
fails at its first request with the error "http status <s>". -/
theorem download_part_status_server (s : Int) (fuel : Nat) (range : part_range)
    (part_index : Nat) (opts : options) (hp : Bool) (st : part_state)
    (h200 : s ≠ 200) (h206 : s ≠ 206)
    (hse : range.start ≤ range.end_inclusive) (he : range.end_inclusive + 1 < u64_mod) :
    download_part (status_server s) (fuel + 1) range part_index opts hp st
      = (part_status.returned false,
          { st with out_error := "http status " ++ toString s }) := by
  have e : add64 (sub64 range.end_inclusive range.start) 1
      = range.end_inclusive - range.start + 1 := by
    rw [sub64_of_le hse (by omega)]
    exact add64_of_lt (by omega)
  simp [download_part, status_server, e, download_part_loop, download_part_step, h200, h206]

/-- Witness for `download_one_part_fails`: four bytes in two parts, the requests of part 1
are answered with status 500. -/
theorem download_one_part_fails_witness :
    download decimal_stoull (one_bad_part_env [5, 6, 7, 8] 1 500) 4 (options.mk 2 1 60 "")
      false true []
      = some (download_result.mk [5, 6, 0, 0] [event.complete false "http status 500"] none) ∧
    ∃ ps1, download decimal_stoull (one_bad_part_env [5, 6, 7, 8] 1 500) 4
        (options.mk 2 1 60 "") false true []
        = some (finish (one_bad_part_env [5, 6, 7, 8] 1 500) (options.mk 2 1 60 "") true ps1) ∧
      (finish (one_bad_part_env [5, 6, 7, 8] 1 500) (options.mk 2 1 60 "") true ps1).events =
        List.map event.progress ps1.shared.progress ++
          [event.complete false ("http status " ++ toString (500 : Int))] := by
  have hparts : plan_parts 4 (options.mk 2 1 60 "") = [part_range.mk 0 1, part_range.mk 2 3] := by
    decide
  have hvalid : ∀ (i : Nat) (range : part_range),
      (plan_parts 4 (options.mk 2 1 60 ""))[i]? = some range →
      range.start ≤ range.end_inclusive ∧ range.end_inclusive < 4 := by
    intro i range h
    have hm := List.getElem?_mem h
    rw [hparts] at hm
    simp only [List.mem_cons, List.mem_singleton, List.not_mem_nil, or_false] at hm
    rcases hm with rfl | rfl <;> decide
  have main := download_one_part_fails decimal_stoull (one_bad_part_env [5, 6, 7, 8] 1 500) 4
    (options.mk 2 1 60 "") false [] 4 1 500 (by decide) (by decide) (by decide) (by decide)
    (by decide) (fun _ => rfl) rfl
    (by
      intro i range st hi hr hlen
      obtain ⟨hse, heT⟩ := hvalid i range hr
      have hpart : (one_bad_part_env [5, 6, 7, 8] 1 500).part i = range_server [5, 6, 7, 8] := by
        simp [one_bad_part_env, hi]
      rw [hpart]
      obtain ⟨st1, h, _⟩ := download_part_faithful (range_server [5, 6, 7, 8]) [5, 6, 7, 8] range
        i (options.mk 2 1 60 "") false 4 (by decide) hse heT (by decide) (by decide)
        (fun _ => rfl) (fun _ _ _ => ⟨rfl, rfl⟩) st hlen
      exact ⟨st1, h⟩)
    (by
      intro range st hr _
      obtain ⟨hse, heT⟩ := hvalid 1 range hr
      have hpart : (one_bad_part_env [5, 6, 7, 8] 1 500).part 1 = status_server 500 := by
        simp [one_bad_part_env]
      rw [hpart, download_part_status_server 500 3 range 1 _ false st (by decide) (by decide) hse
        (by unfold u64_mod; omega)]
      exact ⟨_, rfl, rfl⟩)
  obtain ⟨⟨ps1, _, _, h3, h4, _⟩, _⟩ := main
  exact ⟨by decide, ps1, h3, h4⟩

/-- Awaiting the futures when every task returns: the loop ends with all futures awaited. -/
theorem drain_returns (env : download_env) (fuel : Nat) (parts : List part_range)
    (opts : options) (hp : Bool) (T : Nat) (h64 : T < u64_mod)
    (hvalid : ∀ r ∈ parts, r.start ≤ r.end_inclusive ∧ r.end_inclusive < T)
    (hret : ∀ i range st, parts[i]? = some range → st.target.length = T →
      ∃ ok st1, download_part (env.part i) fuel range i opts hp st
        = (part_status.returned ok, st1)) :
    ∀ n (fl : List (Nat × part_range)) (ni : Nat) (failed : Bool) (e : String)
      (shared : part_state),
      fl.length + (parts.length - ni) ≤ n → shared.target.length = T →
      (∀ x ∈ fl, parts[x.1]? = some x.2) →
      ∃ ps1, drain env fuel parts opts hp n (pool_state.mk fl ni failed e shared) = some ps1 ∧
        ps1.in_flight = [] ∧ ps1.shared.target.length = T := by
  intro n
  induction n with
  | zero =>
    intro fl ni failed e shared hn hlen _
    have : fl = [] := List.length_eq_zero.mp (by omega)
    subst this
    exact ⟨pool_state.mk [] ni failed e shared, by simp [drain], rfl, hlen⟩
  | succ n ih =>
    intro fl ni failed e shared hn hlen hfl
    cases fl with
    | nil => exact ⟨pool_state.mk [] ni failed e shared, by simp [drain], rfl, hlen⟩
    | cons x rest =>
      obtain ⟨idx, range⟩ := x
      have hx := hfl (idx, range) (List.mem_cons_self _ _)
      obtain ⟨hse, heT⟩ := hvalid range (List.getElem?_mem hx)
      obtain ⟨ok, st1, hdl⟩ := hret idx range { shared with out_error := "" } hx hlen
      have hl1 : st1.target.length = T := by
        have := download_part_length (env.part idx) fuel range idx opts hp T
          { shared with out_error := "" } h64 hse heT hlen
        rw [hdl] at this
        exact this
      have hrest : ∀ y ∈ rest, parts[y.1]? = some y.2 :=
        fun y hy => hfl y (List.mem_cons_of_mem _ hy)
      simp only [List.length_cons] at hn
      simp only [drain, hdl]
      split
      · exact ih rest ni true _ st1 (by omega) hl1 hrest
      · cases hp1 : parts[ni]? with
        | none =>
          simp only [launch_next, hp1]
          exact ih rest ni _ _ st1 (by omega) hl1 hrest
        | some r =>
          have hlt : ni < parts.length := by
            by_contra hc
            rw [List.getElem?_eq_none_iff.mpr (by omega)] at hp1
            exact absurd hp1 (by simp)
          simp only [launch_next, hp1]
          refine ih ((ni, r) :: rest) (ni + 1) _ _ st1
            (by simp only [List.length_cons]; omega) hl1 ?_
          intro y hy
          rcases List.mem_cons.mp hy with rfl | hy
          · exact hp1
          · exact hrest y hy

/-- The planned parts of a resource of `T >= 1` bytes are valid ranges inside the resource. -/
theorem plan_parts_valid (T : Nat) (opts : options) (hT : 1 ≤ T) (h64 : T < u64_mod) :
    (plan_parts T opts).length = min (max opts.max_threads 1) T ∧
    ∀ r ∈ plan_parts T opts, r.start ≤ r.end_inclusive ∧ r.end_inclusive < T := by
  obtain ⟨hb, hr, hs⟩ := plan_parts_entry T (min (max opts.max_threads 1) T) (by omega)
    (by omega)
  have hspec := plan_parts_loop_spec _ _ T hb h64 _ 0 0 hr hs
  rw [← plan_parts_eq T opts (by omega)] at hspec
  obtain ⟨hplen, hpmem, _, _, _, _⟩ := hspec
  exact ⟨hplen, fun r hr => (hpmem r hr).2⟩

/-- The `on_progress` calls recorded so far contain no `on_complete` call. -/
theorem filter_complete_progress (ps : List progress_info) :
    List.filter (fun e => match e with
        | event.complete _ _ => true
        | event.progress _ => false) (List.map event.progress ps) = [] := by
  induction ps with
  | nil => rfl
  | cons p ps ih => simp [List.filter]

/-- C21, counterexample: `cancel()` is called while a part waits for the answer to its only
request (its two checks of the flag came before, the flag is set at any later read). Answered
with 206 and the byte asked for, the part copies it and returns true; answered with status
500, it fails with "http status 500". In neither case does it report "cancelled". -/
theorem cancel_during_last_request_counterexample :
    cancel_during_request 0 0 = false ∧ cancel_during_request 0 1 = false ∧
    cancel_during_request 0 2 = true ∧
    download_part (cancelled_while_waiting 0 206 [5]) 5 (part_range.mk 0 0) 0
        (options.mk 1 4 60 "") true (part_state.mk [0] 0 "" [])
      = (part_status.returned true, part_state.mk [5] 1 "" [progress_info.mk 0 1 1 1 1]) ∧
    download_part (cancelled_while_waiting 0 500 []) 5 (part_range.mk 0 0) 0
        (options.mk 1 4 60 "") true (part_state.mk [0] 0 "" [])
      = (part_status.returned false, part_state.mk [0] 0 "http status 500" []) := by
  decide

/-- C21 (amended): a part that checks the cancellation flag once it is set, at entry (line
102) or before a sub-chunk request (line 115, the part being unfinished), returns false with
the error "cancelled" and leaves target, counter and progress as they are, whatever the
server would answer: no further request is made. In a ranged transfer in which every task
returns and the flag is set when `download` reads it after the futures (line 324), all
futures are awaited and the callbacks are progress calls followed by exactly one
`on_complete` call, `on_complete(false, "cancelled")`, whatever the tasks returned. -/
theorem cancel_stops_transfer (stoull : String → Option Nat) (env : download_env)
    (fuel : Nat) (opts : options) (hp : Bool) (buffer : List Nat) (T : Nat)
    (hprobe : parse_content_length stoull env.probe = T) (hT : 1 ≤ T)
    (hranges : server_supports_ranges env.probe = true)
    (hfinal : env.cancel_final = true)
    (hret : ∀ i range st, (plan_parts T opts)[i]? = some range → st.target.length = T →
      ∃ ok st1, download_part (env.part i) fuel range i opts hp st
        = (part_status.returned ok, st1)) :
    (∀ i range st, (env.part i).cancel 0 = true →
      download_part (env.part i) fuel range i opts hp st
        = (part_status.returned false, { st with out_error := "cancelled" })) ∧
    (∀ i range part_total n k part_done st, part_done < part_total →
      (env.part i).cancel (k + 1) = true →
      download_part_loop (env.part i) range i opts hp part_total (n + 1) k part_done st
        = (part_status.returned false, { st with out_error := "cancelled" })) ∧
    ∃ ps1, drain env fuel (plan_parts T opts) opts hp (plan_parts T opts).length
        (pool_state.mk (launch_next (plan_parts T opts)
            (min opts.max_threads (plan_parts T opts).length) [] 0).1
          (launch_next (plan_parts T opts)
            (min opts.max_threads (plan_parts T opts).length) [] 0).2
          false "" (part_state.mk (List.replicate T 0) 0 "" [])) = some ps1 ∧
      ps1.in_flight = [] ∧
      download stoull env fuel opts hp true buffer = some (finish env opts true ps1) ∧
      (finish env opts true ps1).events =
        List.map event.progress ps1.shared.progress ++ [event.complete false "cancelled"] ∧
      ((finish env opts true ps1).events.filter (fun e => match e with
        | event.complete _ _ => true
        | event.progress _ => false)).length = 1 := by
  refine ⟨?_, ?_, ?_⟩
  · intro i range st h
    simp [download_part, h]
  · intro i range part_total n k part_done st hlt h
    simp [download_part_loop, download_part_step, hlt, h]
  · have h64 : T < u64_mod := by rw [← hprobe]; exact parse_content_length_lt stoull env.probe
    obtain ⟨hplen, hvalid⟩ := plan_parts_valid T opts hT h64
    obtain ⟨l1, _, _, _⟩ := launch_next_spec (plan_parts T opts)
      (min opts.max_threads (plan_parts T opts).length) [] 0
    have l3 := launch_next_entries (plan_parts T opts)
      (min opts.max_threads (plan_parts T opts).length) [] 0
    have l5 := launch_next_length (plan_parts T opts)
      (min opts.max_threads (plan_parts T opts).length) [] 0
    obtain ⟨ps1, hdr, hfl, _⟩ := drain_returns env fuel (plan_parts T opts) opts hp T h64 hvalid
      hret (plan_parts T opts).length
      (launch_next (plan_parts T opts)
        (min opts.max_threads (plan_parts T opts).length) [] 0).1
      (launch_next (plan_parts T opts)
        (min opts.max_threads (plan_parts T opts).length) [] 0).2 false ""
      (part_state.mk (List.replicate T 0) 0 "" [])
      (by rw [l1]; simp only [List.length_nil] at l5; omega) (by simp)
      (by
        intro x hx
        rcases l3 x hx with h | h
        · simp at h
        · exact h)
    have hne : ¬ T = 0 := by omega
    have hev : (finish env opts true ps1).events =
        List.map event.progress ps1.shared.progress ++ [event.complete false "cancelled"] := by
      simp [finish, hfinal, notify]
    refine ⟨ps1, hdr, hfl, ?_, hev, ?_⟩
    · unfold download
      simp only [hprobe, hranges, hne, if_false, Bool.not_true, Bool.false_eq_true]
      rw [hdr]
    · rw [hev, List.filter_append, filter_complete_progress]
      rfl

/-- Witness for `cancel_stops_transfer`: four bytes in two parts; part 1 fails with
"http status 500", part 0 finds the flag set at entry, and the transfer ends with
`on_complete(false, "cancelled")`. -/
theorem cancel_stops_transfer_witness :
    download decimal_stoull (cancelled_env [5, 6, 7, 8] 1 500) 4 (options.mk 2 1 60 "")
      false true []
      = some (download_result.mk [0, 0, 0, 0] [event.complete false "cancelled"] none) ∧
    ∃ ps1, download decimal_stoull (cancelled_env [5, 6, 7, 8] 1 500) 4
        (options.mk 2 1 60 "") false true []
        = some (finish (cancelled_env [5, 6, 7, 8] 1 500) (options.mk 2 1 60 "") true ps1) ∧
      (finish (cancelled_env [5, 6, 7, 8] 1 500) (options.mk 2 1 60 "") true ps1).events =
        List.map event.progress ps1.shared.progress ++ [event.complete false "cancelled"] := by
  have hparts : plan_parts 4 (options.mk 2 1 60 "") = [part_range.mk 0 1, part_range.mk 2 3] := by
    decide
  have main := cancel_stops_transfer decimal_stoull (cancelled_env [5, 6, 7, 8] 1 500) 4
    (options.mk 2 1 60 "") false [] 4 (by decide) (by decide) (by decide) rfl
    (by
      intro i range st hr _
      have hm := List.getElem?_mem hr
      rw [hparts] at hm
      simp only [List.mem_cons, List.mem_singleton, List.not_mem_nil, or_false] at hm
      by_cases hi : i = 1
      · subst hi
        have hpart : (cancelled_env [5, 6, 7, 8] 1 500).part 1 = status_server 500 := by
          simp [cancelled_env]
        rw [hpart, download_part_status_server 500 3 range 1 _ false st (by decide) (by decide)
          (by rcases hm with rfl | rfl <;> decide)
          (by rcases hm with rfl | rfl <;> (unfold u64_mod; simp))]
        exact ⟨_, _, rfl⟩
      · refine ⟨false, { st with out_error := "cancelled" }, ?_⟩
        simp [cancelled_env, hi, download_part])
  obtain ⟨_, _, ps1, _, _, h3, h4, _⟩ := main
  exact ⟨by decide, ps1, h3, h4⟩

/-- One pass through the loop body with a non-null `on_progress`: either the call stops and
no progress call is made, or one sub-chunk of `min chunk_size_bytes (part_total - part_done)`
bytes was copied, `part_done` grows by that amount and is reported in one progress call. -/
theorem download_part_step_progress (env : part_env) (range : part_range) (part_index : Nat)
    (opts : options) (part_total k part_done : Nat) (st : part_state)
    (hpt : part_total < u64_mod) (hle : part_done ≤ part_total) :
    (∃ status st1, download_part_step env range part_index opts true part_total k part_done st
        = step_result.stop status st1 ∧ st1.progress = st.progress ∧
        status ≠ part_status.returned true) ∨
    (∃ st1 written total, download_part_step env range part_index opts true part_total k
        part_done st
        = step_result.next (part_done + min opts.chunk_size_bytes (part_total - part_done)) st1 ∧
      st1.progress = st.progress ++
        [progress_info.mk part_index
          (part_done + min opts.chunk_size_bytes (part_total - part_done)) part_total
          written total]) := by
  have hsub : sub64 part_total part_done = part_total - part_done := sub64_of_le hle hpt
  have hadd : add64 part_done (min opts.chunk_size_bytes (part_total - part_done))
      = part_done + min opts.chunk_size_bytes (part_total - part_done) :=
    add64_of_lt (by omega)
  unfold download_part_step
  simp only [hsub, hadd]
  split
  · exact Or.inl ⟨_, _, rfl, rfl, by simp⟩
  · split
    · exact Or.inl ⟨_, _, rfl, rfl, by simp⟩
    · split
      · exact Or.inl ⟨_, _, rfl, rfl, by simp⟩
      · exact Or.inl ⟨_, _, rfl, rfl, by simp⟩
      · exact Or.inr ⟨_, _, _, rfl, rfl⟩

/-- The progress calls of the sub-chunk loop with a non-null `on_progress`, started with
`part_done` bytes done. -/
theorem download_part_loop_progress (env : part_env) (range : part_range) (part_index : Nat)
    (opts : options) (part_total : Nat) (hpt : part_total < u64_mod) :
    ∀ fuel k part_done (st : part_state), part_done ≤ part_total →
      ∃ new : List progress_info,
        (download_part_loop env range part_index opts true part_total fuel k part_done st).2.progress
          = st.progress ++ new ∧
        (∀ p ∈ new, p.part_index = part_index ∧ p.part_total_bytes = part_total) ∧
        List.Chain (fun a b => a ≤ b ∧ b ≤ part_total ∧
            b = a + min opts.chunk_size_bytes (part_total - a))
          part_done (new.map progress_info.part_bytes_downloaded) ∧
        ((download_part_loop env range part_index opts true part_total fuel k part_done st).1
            = part_status.returned true →
          (part_done :: new.map progress_info.part_bytes_downloaded).getLast? = some part_total)
    := by
  intro fuel
  induction fuel with
  | zero =>
    intro k part_done st hle
    refine ⟨[], ?_, by simp, List.Chain.nil, ?_⟩
    · simp only [download_part_loop]; split <;> simp
    · simp only [download_part_loop]
      split
      · intro h; simp at h
      · intro _
        have : part_done = part_total := by omega
        simp [this]
  | succ fuel ih =>
    intro k part_done st hle
    by_cases hlt : part_done < part_total
    · rcases download_part_step_progress env range part_index opts part_total k part_done st
        hpt hle with ⟨status, st1, hs, hprog, hne⟩ | ⟨st1, written, total, hs, hprog⟩
      · refine ⟨[], ?_, by simp, List.Chain.nil, ?_⟩
        · simp only [download_part_loop, hlt, if_true, hs, hprog, List.append_nil]
        · simp only [download_part_loop, hlt, if_true, hs]
          intro h
          exact absurd h hne
      · obtain ⟨new, h1, h2, h3, h4⟩ := ih (k + 1)
          (part_done + min opts.chunk_size_bytes (part_total - part_done)) st1 (by omega)
        refine ⟨progress_info.mk part_index
          (part_done + min opts.chunk_size_bytes (part_total - part_done)) part_total
          written total :: new, ?_, ?_, ?_, ?_⟩
        · simp only [download_part_loop, hlt, if_true, hs]
          rw [h1, hprog]
          simp
        · intro p hp
          rcases List.mem_cons.mp hp with rfl | hp
          · exact ⟨rfl, rfl⟩
          · exact h2 p hp
        · simp only [List.map_cons]
          exact List.Chain.cons ⟨by omega, by omega, rfl⟩ h3
        · simp only [download_part_loop, hlt, if_true, hs]
          intro h
          have := h4 h
          simp only [List.map_cons]
          rw [List.getLast?_cons_cons]
          exact this
    · refine ⟨[], ?_, by simp, List.Chain.nil, ?_⟩
      · simp [download_part_loop, hlt]
      · intro _
        have : part_done = part_total := by omega
        simp [this]

/-- C22: the `on_progress` calls made by one call of `download_part` (with a non-null
`on_progress`) carry the part index and `part_total_bytes = end_inclusive - start + 1` (the
64-bit value, which is that number for a range with `start <= end_inclusive`); their
`part_bytes_downloaded` values start from 0 and each exceeds the one before (0 for the first)
by exactly the size of the sub-chunk just copied, `min chunk_size_bytes (part_total - before)`,
so the sequence is non-decreasing and never exceeds `part_total_bytes`; and when the call
returns true the last reported value is `part_total_bytes` (there is one as soon as
`part_total_bytes >= 1`). -/
theorem progress_within_part (env : part_env) (fuel : Nat) (range : part_range)
    (part_index : Nat) (opts : options) (st : part_state) :
    ∃ new : List progress_info,
      (download_part env fuel range part_index opts true st).2.progress = st.progress ++ new ∧
      (∀ p ∈ new, p.part_index = part_index ∧
        p.part_total_bytes = add64 (sub64 range.end_inclusive range.start) 1 ∧
        p.part_bytes_downloaded ≤ p.part_total_bytes) ∧
      List.Chain (fun a b => a ≤ b ∧
          b = a + min opts.chunk_size_bytes
            (add64 (sub64 range.end_inclusive range.start) 1 - a))
        0 (new.map progress_info.part_bytes_downloaded) ∧
      ((download_part env fuel range part_index opts true st).1 = part_status.returned true →
        ∀ v, (new.map progress_info.part_bytes_downloaded).getLast? = some v →
          v = add64 (sub64 range.end_inclusive range.start) 1) ∧
      ((download_part env fuel range part_index opts true st).1 = part_status.returned true →
        1 ≤ add64 (sub64 range.end_inclusive range.start) 1 →
        (new.map progress_info.part_bytes_downloaded).getLast?
          = some (add64 (sub64 range.end_inclusive range.start) 1)) ∧
      (range.start ≤ range.end_inclusive → range.end_inclusive + 1 < u64_mod →
        add64 (sub64 range.end_inclusive range.start) 1
          = range.end_inclusive - range.start + 1) := by
  have hpt : add64 (sub64 range.end_inclusive range.start) 1 < u64_mod :=
    Nat.mod_lt _ (by decide)
  have hsize : range.start ≤ range.end_inclusive → range.end_inclusive + 1 < u64_mod →
      add64 (sub64 range.end_inclusive range.start) 1
        = range.end_inclusive - range.start + 1 := by
    intro hse he
    rw [sub64_of_le hse (by omega)]
    exact add64_of_lt (by omega)
  unfold download_part
  split
  · refine ⟨[], by simp, by simp, List.Chain.nil, ?_, ?_, hsize⟩
    · intro h; simp at h
    · intro h; simp at h
  · obtain ⟨new, h1, h2, h3, h4⟩ := download_part_loop_progress env range part_index opts
      (add64 (sub64 range.end_inclusive range.start) 1) hpt fuel 0 0 st (Nat.zero_le _)
    generalize add64 (sub64 range.end_inclusive range.start) 1 = pt at *
    have hall : ∀ (l : List Nat) (a : Nat), a ≤ pt →
        List.Chain (fun a b => a ≤ b ∧ b ≤ pt ∧ b = a + min opts.chunk_size_bytes (pt - a)) a l →
        (∀ v ∈ l, v ≤ pt) ∧
        List.Chain (fun a b => a ≤ b ∧ b = a + min opts.chunk_size_bytes (pt - a)) a l := by
      intro l
      induction l with
      | nil => intro a _ _; exact ⟨by simp, List.Chain.nil⟩
      | cons b l ih =>
        intro a ha hc
        rcases List.chain_cons.mp hc with ⟨⟨hab, hb, he⟩, hc'⟩
        obtain ⟨i1, i2⟩ := ih b hb hc'
        refine ⟨?_, List.Chain.cons ⟨hab, he⟩ i2⟩
        intro v hv
        rcases List.mem_cons.mp hv with rfl | hv
        · exact hb
        · exact i1 v hv
    obtain ⟨hbound, hchain⟩ := hall _ 0 (Nat.zero_le _) h3
    refine ⟨new, h1, ?_, hchain, ?_, ?_, hsize⟩
    · intro p hp
      obtain ⟨a, b⟩ := h2 p hp
      refine ⟨a, b, ?_⟩
      rw [b]
      exact hbound _ (List.mem_map_of_mem _ hp)
    · intro hret v hv
      have := h4 hret
      cases hnew : new.map progress_info.part_bytes_downloaded with
      | nil => rw [hnew] at hv; simp at hv
      | cons x xs =>
        rw [hnew] at this hv
        rw [List.getLast?_cons_cons] at this
        rw [this] at hv
        exact (Option.some.inj hv).symm
    · intro hret hpos
      have := h4 hret
      cases hnew : new.map progress_info.part_bytes_downloaded with
      | nil =>
        rw [hnew] at this
        simp at this
        omega
      | cons x xs =>
        rw [hnew] at this
        rw [List.getLast?_cons_cons] at this
        exact this

/-- Witness for `progress_within_part`: a part of five bytes fetched in sub-chunks of two
bytes reports 2, 4 and 5 bytes. -/
theorem progress_within_part_witness :
    (download_part (range_server [1, 2, 3, 4, 5]) 5 (part_range.mk 0 4) 0
        (options.mk 1 2 60 "") true (part_state.mk [0, 0, 0, 0, 0] 0 "" [])).2.progress.map
      progress_info.part_bytes_downloaded = [2, 4, 5] ∧
    ∃ new : List progress_info,
      (download_part (range_server [1, 2, 3, 4, 5]) 5 (part_range.mk 0 4) 0
        (options.mk 1 2 60 "") true (part_state.mk [0, 0, 0, 0, 0] 0 "" [])).2.progress
        = (part_state.mk [0, 0, 0, 0, 0] 0 "" []).progress ++ new ∧
      List.Chain (fun a b => a ≤ b ∧
          b = a + min (options.mk 1 2 60 "").chunk_size_bytes
            (add64 (sub64 (part_range.mk 0 4).end_inclusive (part_range.mk 0 4).start) 1 - a))
        0 (new.map progress_info.part_bytes_downloaded) := by
  obtain ⟨new, h1, _, h3, _⟩ := progress_within_part (range_server [1, 2, 3, 4, 5]) 5
    (part_range.mk 0 4) 0 (options.mk 1 2 60 "") (part_state.mk [0, 0, 0, 0, 0] 0 "" [])
  exact ⟨by decide, new, h1, h3⟩

/-- With `chunk_size_bytes = 0` a pass through the loop body for part `[1, 1]` asks for
`bytes=1-0`, accepts the whole resource sent with status 200, copies no byte and leaves
`part_done` at 0. -/
theorem zero_chunk_step (k : Nat) :
    download_part_step (plain_server [5, 6]) (part_range.mk 1 1) 1 (options.mk 2 0 60 "") false
        1 k 0 (part_state.mk [0, 0] 0 "" [])
      = step_result.next 0 (part_state.mk [0, 0] 0 "" []) := by
  have h : next_chunk (part_range.mk 1 1) (options.mk 2 0 60 "") 1 0 = chunk_window.mk 0 1 0 := by
    decide
  rw [download_part_step_eq (plain_server [5, 6]) (part_range.mk 1 1) 1 (options.mk 2 0 60 "")
    false 1 k 0 (part_state.mk [0, 0] 0 "" []) (chunk_window.mk 0 1 0)
    (response.mk 200 [5, 6] []) h.symm rfl]
  have hc : (plain_server [5, 6]).cancel (k + 1) = false := rfl
  rw [hc]
  decide

/-- C29: with `chunk_size_bytes = 0` the loop of `download_part` does not terminate. For a
resource of two bytes planned in two parts, part `[1, 1]` and a server that answers the
request `bytes=1-0` with status 200 and the whole resource, every iteration copies no byte and
leaves `part_done` at 0: whatever the number of iterations allowed, the call is still
running, with the target untouched. -/
theorem zero_chunk_size_spins (fuel : Nat) :
    plan_parts 2 (options.mk 2 0 60 "") = [part_range.mk 0 0, part_range.mk 1 1] ∧
    download_part (plain_server [5, 6]) fuel (part_range.mk 1 1) 1 (options.mk 2 0 60 "") false
        (part_state.mk [0, 0] 0 "" [])
      = (part_status.running, part_state.mk [0, 0] 0 "" []) := by
  refine ⟨by decide, ?_⟩
  have hloop : ∀ n k, download_part_loop (plain_server [5, 6]) (part_range.mk 1 1) 1
      (options.mk 2 0 60 "") false 1 n k 0 (part_state.mk [0, 0] 0 "" [])
      = (part_status.running, part_state.mk [0, 0] 0 "" []) := by
    intro n
    induction n with
    | zero => intro k; rfl
    | succ n ih =>
      intro k
      simp only [download_part_loop, zero_chunk_step, Nat.lt_one_iff, if_true]
      exact ih (k + 1)
  have e : add64 (sub64 (part_range.mk 1 1).end_inclusive (part_range.mk 1 1).start) 1 = 1 := by
    decide
  unfold download_part
  rw [e]
  exact hloop fuel 0

/-- The loop that awaits the futures repeats `await_next` until `in_flight` is empty. -/
theorem drain_succ (env : download_env) (fuel : Nat) (parts : List part_range) (opts : options)
    (hp : Bool) (n : Nat) (ps : pool_state) :
    drain env fuel parts opts hp (n + 1) ps =
      if ps.in_flight = [] then some ps
      else (await_next env fuel parts opts hp ps).bind (drain env fuel parts opts hp n) := by
  obtain ⟨fl, ni, failed, e, shared⟩ := ps
  cases fl with
  | nil => simp [drain]
  | cons x rest =>
    obtain ⟨idx, range⟩ := x
    simp only [drain, await_next, reduceCtorEq, if_false]
    split
    · split <;> simp
    · rfl

/-- The ranged path of `download` is the first launch, the loop that awaits the futures and
the final report. -/
theorem download_ranged_eq (stoull : String → Option Nat) (env : download_env) (fuel : Nat)
    (opts : options) (hp hc : Bool) (buffer : List Nat) (T : Nat)
    (hprobe : parse_content_length stoull env.probe = T) (hT : 1 ≤ T)
    (hranges : server_supports_ranges env.probe = true) :
    download stoull env fuel opts hp hc buffer =
      (drain env fuel (plan_parts T opts) opts hp (plan_parts T opts).length
        (launched_pool (plan_parts T opts) opts (List.replicate T 0))).map
        (finish env opts hc) := by
  have hne : ¬ T = 0 := by omega
  unfold download launched_pool
  simp only [hprobe, hranges, hne, if_false, Bool.not_true, Bool.false_eq_true]
  cases drain env fuel (plan_parts T opts) opts hp (plan_parts T opts).length
    (pool_state.mk (launch_next (plan_parts T opts)
        (min opts.max_threads (plan_parts T opts).length) [] 0).1
      (launch_next (plan_parts T opts)
        (min opts.max_threads (plan_parts T opts).length) [] 0).2
      false "" (part_state.mk (List.replicate T 0) 0 "" [])) <;> rfl

/-- Nothing is left to launch when `next_index` has reached the number of parts. -/
theorem launch_one_past_end (parts : List part_range) (rest : List (Nat × part_range))
    (ni : Nat) (h : parts.length ≤ ni) : launch_next parts 1 rest ni = (rest, ni) := by
  have : parts[ni]? = none := List.getElem?_eq_none_iff.mpr h
  simp [launch_next, this]

/-- The number of futures that `launch_next` adds is the advance of `next_index`. -/
theorem launch_next_count (parts : List part_range) :
    ∀ count (fl : List (Nat × part_range)) (ni : Nat),
      (launch_next parts count fl ni).1.length + ni
        = fl.length + (launch_next parts count fl ni).2 := by
  intro count
  induction count with
  | zero => intro fl ni; simp [launch_next]
  | succ count ih =>
    intro fl ni
    simp only [launch_next]
    cases hp : parts[ni]? with
    | none => simp
    | some range =>
      simp only
      have := ih ((ni, range) :: fl) (ni + 1)
      simp only [List.length_cons] at this
      omega

/-- One pass through the awaiting loop when nothing is left to launch: the awaited future
leaves `in_flight` and `next_index` stays. -/
theorem await_next_nothing_left (env : download_env) (fuel : Nat) (parts : List part_range)
    (opts : options) (hp : Bool) (ps ps1 : pool_state)
    (hni : parts.length ≤ ps.next_index)
    (h : await_next env fuel parts opts hp ps = some ps1) :
    ps1.next_index = ps.next_index ∧ ps1.in_flight = ps.in_flight.tail := by
  obtain ⟨fl, ni, failed, e, shared⟩ := ps
  cases fl with
  | nil => simp [await_next] at h
  | cons x rest =>
    obtain ⟨idx, range⟩ := x
    simp only [await_next] at h
    split at h
    · split at h
      · cases h; exact ⟨rfl, rfl⟩
      · simp only [launch_one_past_end parts rest ni hni] at h
        cases h; exact ⟨rfl, rfl⟩
    · cases h

/-- The awaiting loop, started with nothing left to launch, ends with all futures awaited
and `next_index` where it was. -/
theorem drain_nothing_left (env : download_env) (fuel : Nat) (parts : List part_range)
    (opts : options) (hp : Bool) :
    ∀ n (ps ps1 : pool_state), ps.in_flight = [] ∨ parts.length ≤ ps.next_index →
      drain env fuel parts opts hp n ps = some ps1 →
      ps1.in_flight = [] ∧ ps1.next_index = ps.next_index := by
  intro n
  induction n with
  | zero =>
    intro ps ps1 _ h
    simp only [drain] at h
    split at h
    · cases h
      rename_i he
      exact ⟨List.isEmpty_iff.mp he, rfl⟩
    · cases h
  | succ n ih =>
    intro ps ps1 hJ h
    rw [drain_succ] at h
    by_cases he : ps.in_flight = []
    · rw [if_pos he] at h
      cases h
      exact ⟨he, rfl⟩
    · rw [if_neg he] at h
      have hni : parts.length ≤ ps.next_index := by
        rcases hJ with h0 | h0
        · exact absurd h0 he
        · exact h0
      cases ha : await_next env fuel parts opts hp ps with
      | none => rw [ha] at h; cases h
      | some ps2 =>
        rw [ha] at h
        obtain ⟨a1, _⟩ := await_next_nothing_left env fuel parts opts hp ps ps2 hni ha
        obtain ⟨b1, b2⟩ := ih ps2 ps1 (Or.inr (by omega)) h
        exact ⟨b1, by omega⟩

/-- After the first launch either no future exists (`max_threads = 0`) or every part has been
launched. -/
theorem launched_pool_spec (parts : List part_range) (opts : options) (buffer : List Nat) :
    (launched_pool parts opts buffer).next_index = min opts.max_threads parts.length ∧
    (launched_pool parts opts buffer).in_flight.length = min opts.max_threads parts.length ∧
    (∀ x ∈ (launched_pool parts opts buffer).in_flight, parts[x.1]? = some x.2) ∧
    (∀ i p, i < min opts.max_threads parts.length → parts[i]? = some p →
      (i, p) ∈ (launched_pool parts opts buffer).in_flight) ∧
    (launched_pool parts opts buffer).shared = part_state.mk buffer 0 "" [] := by
  obtain ⟨l1, _, _, l4⟩ := launch_next_spec parts (min opts.max_threads parts.length) [] 0
  have l3 := launch_next_entries parts (min opts.max_threads parts.length) [] 0
  have l6 := launch_next_count parts (min opts.max_threads parts.length) [] 0
  simp only [List.length_nil] at l6
  have hni : (launch_next parts (min opts.max_threads parts.length) [] 0).2
      = min opts.max_threads parts.length := by
    rw [l1]; omega
  refine ⟨hni, ?_, ?_, ?_, rfl⟩
  · show (launch_next parts (min opts.max_threads parts.length) [] 0).1.length = _
    omega
  · intro x hx
    rcases l3 x hx with h | h
    · simp at h
    · exact h
  · intro i p hi hpi
    exact l4 i p (Nat.zero_le _) (by omega) hpi

/-- C26: in the ranged path of `download` (the probe gives a size `T >= 1` and range
support), the pass through the awaiting loop that observes a failed part or a cancellation
sets `failed` and launches nothing; after the first launch nothing is left to launch (no
future exists, or `next_index` has reached the number of parts), which every pass preserves,
so that every pass only removes the awaited future from `in_flight` and leaves `next_index`
as it is: no part is launched for the rest of the transfer. `download` reports through
`finish` (the `on_complete` call) only after the loop has ended with `in_flight` empty, and it
does so whenever every task returns. -/
theorem no_launch_after_failure (stoull : String → Option Nat) (env : download_env)
    (fuel : Nat) (opts : options) (hp hc : Bool) (buffer : List Nat) (T : Nat)
    (hprobe : parse_content_length stoull env.probe = T) (hT : 1 ≤ T)
    (hranges : server_supports_ranges env.probe = true) :
    (∀ (ps : pool_state) idx range rest ok st,
      ps.in_flight = (idx, range) :: rest →
      download_part (env.part idx) fuel range idx opts hp { ps.shared with out_error := "" }
        = (part_status.returned ok, st) →
      ok = false ∨ env.cancel_after_get idx = true →
      ∃ ps1, await_next env fuel (plan_parts T opts) opts hp ps = some ps1 ∧
        ps1.failed = true ∧ ps1.in_flight = rest ∧ ps1.next_index = ps.next_index) ∧
    ((launched_pool (plan_parts T opts) opts (List.replicate T 0)).in_flight = [] ∨
      (plan_parts T opts).length
        ≤ (launched_pool (plan_parts T opts) opts (List.replicate T 0)).next_index) ∧
    (∀ ps ps1 : pool_state,
      ps.in_flight = [] ∨ (plan_parts T opts).length ≤ ps.next_index →
      await_next env fuel (plan_parts T opts) opts hp ps = some ps1 →
      (ps1.in_flight = [] ∨ (plan_parts T opts).length ≤ ps1.next_index) ∧
        ps1.next_index = ps.next_index ∧ ps1.in_flight = ps.in_flight.tail) ∧
    (∀ n (ps : pool_state), drain env fuel (plan_parts T opts) opts hp (n + 1) ps =
      if ps.in_flight = [] then some ps
      else (await_next env fuel (plan_parts T opts) opts hp ps).bind
        (drain env fuel (plan_parts T opts) opts hp n)) ∧
    (∀ r, download stoull env fuel opts hp hc buffer = some r →
      ∃ ps1, drain env fuel (plan_parts T opts) opts hp (plan_parts T opts).length
          (launched_pool (plan_parts T opts) opts (List.replicate T 0)) = some ps1 ∧
        ps1.in_flight = [] ∧
        ps1.next_index
          = (launched_pool (plan_parts T opts) opts (List.replicate T 0)).next_index ∧
        r = finish env opts hc ps1) ∧
    ((∀ i range st, (plan_parts T opts)[i]? = some range → st.target.length = T →
        ∃ ok st1, download_part (env.part i) fuel range i opts hp st
          = (part_status.returned ok, st1)) →
      ∃ r, download stoull env fuel opts hp hc buffer = some r) := by
  have h64 : T < u64_mod := by rw [← hprobe]; exact parse_content_length_lt stoull env.probe
  obtain ⟨hplen, hvalid⟩ := plan_parts_valid T opts hT h64
  obtain ⟨s1, s2, s3, _, s5⟩ := launched_pool_spec (plan_parts T opts) opts (List.replicate T 0)
  have hJ0 : (launched_pool (plan_parts T opts) opts (List.replicate T 0)).in_flight = [] ∨
      (plan_parts T opts).length
        ≤ (launched_pool (plan_parts T opts) opts (List.replicate T 0)).next_index := by
    by_cases h0 : opts.max_threads = 0
    · left
      exact List.length_eq_zero.mp (by rw [s2, h0]; simp)
    · right
      rw [s1]; omega
  refine ⟨?_, hJ0, ?_, fun n ps => drain_succ env fuel _ opts hp n ps, ?_, ?_⟩
  · intro ps idx range rest ok st hfl hdl hobs
    obtain ⟨fl, ni, failed, e, shared⟩ := ps
    simp only at hfl hdl
    subst hfl
    have hc : (!ok || env.cancel_after_get idx) = true := by
      rcases hobs with h | h
      · simp [h]
      · simp [h]
    simp only [await_next, hdl, hc, if_true]
    exact ⟨_, rfl, rfl, rfl, rfl⟩
  · intro ps ps1 hJ ha
    have hne : ps.in_flight ≠ [] := by
      intro he
      obtain ⟨fl, ni, failed, e, shared⟩ := ps
      simp only at he
      subst he
      simp [await_next] at ha
    have hni : (plan_parts T opts).length ≤ ps.next_index := by
      rcases hJ with h | h
      · exact absurd h hne
      · exact h
    obtain ⟨a1, a2⟩ := await_next_nothing_left env fuel _ opts hp ps ps1 hni ha
    exact ⟨Or.inr (by omega), a1, a2⟩
  · intro r hr
    rw [download_ranged_eq stoull env fuel opts hp hc buffer T hprobe hT hranges] at hr
    cases hd : drain env fuel (plan_parts T opts) opts hp (plan_parts T opts).length
        (launched_pool (plan_parts T opts) opts (List.replicate T 0)) with
    | none => rw [hd] at hr; cases hr
    | some ps1 =>
      rw [hd] at hr
      obtain ⟨b1, b2⟩ := drain_nothing_left env fuel _ opts hp _ _ ps1 hJ0 hd
      exact ⟨ps1, rfl, b1, b2, (Option.some.inj hr).symm⟩
  · intro hret
    rw [download_ranged_eq stoull env fuel opts hp hc buffer T hprobe hT hranges]
    obtain ⟨ps1, hdr, _, _⟩ := drain_returns env fuel (plan_parts T opts) opts hp T h64 hvalid
      hret (plan_parts T opts).length
      (launched_pool (plan_parts T opts) opts (List.replicate T 0)).in_flight
      (launched_pool (plan_parts T opts) opts (List.replicate T 0)).next_index false ""
      (part_state.mk (List.replicate T 0) 0 "" [])
      (by rw [s1, s2]; omega) (by simp) s3
    exact ⟨finish env opts hc ps1, by
      have : launched_pool (plan_parts T opts) opts (List.replicate T 0)
          = pool_state.mk
            (launched_pool (plan_parts T opts) opts (List.replicate T 0)).in_flight
            (launched_pool (plan_parts T opts) opts (List.replicate T 0)).next_index false ""
            (part_state.mk (List.replicate T 0) 0 "" []) := rfl
      rw [this, hdr]
      rfl⟩

/-- Witness for `no_launch_after_failure`: four bytes in two parts, the requests of part 1
are answered with status 500; after that failure part 0 is still awaited (its two bytes
arrive) and nothing is launched. -/
theorem no_launch_after_failure_witness :
    download decimal_stoull (one_bad_part_env [5, 6, 7, 8] 1 500) 4 (options.mk 2 1 60 "")
      false true []
      = some (download_result.mk [5, 6, 0, 0] [event.complete false "http status 500"] none) ∧
    ∃ ps1, drain (one_bad_part_env [5, 6, 7, 8] 1 500) 4 (plan_parts 4 (options.mk 2 1 60 ""))
        (options.mk 2 1 60 "") false (plan_parts 4 (options.mk 2 1 60 "")).length
        (launched_pool (plan_parts 4 (options.mk 2 1 60 "")) (options.mk 2 1 60 "")
          (List.replicate 4 0)) = some ps1 ∧
      ps1.in_flight = [] ∧
      ps1.next_index = (launched_pool (plan_parts 4 (options.mk 2 1 60 ""))
        (options.mk 2 1 60 "") (List.replicate 4 0)).next_index := by
  have main := no_launch_after_failure decimal_stoull (one_bad_part_env [5, 6, 7, 8] 1 500) 4
    (options.mk 2 1 60 "") false true [] 4 (by decide) (by decide) (by decide)
  obtain ⟨_, _, _, _, h5, _⟩ := main
  obtain ⟨ps1, h1, h2, h3, _⟩ := h5 _ (by decide :
    download decimal_stoull (one_bad_part_env [5, 6, 7, 8] 1 500) 4 (options.mk 2 1 60 "")
      false true []
      = some (download_result.mk [5, 6, 0, 0] [event.complete false "http status 500"] none))
  exact ⟨by decide, ps1, h1, h2, h3⟩

/-- C28: for `total_bytes >= 1` and `max_threads >= 1` the number of planned parts is at most
`max_threads`; the first `launch_next` call starts every planned part (`next_index` reaches
the number of parts, each part is in flight with its index, and there are as many futures as
parts); a later `launch_next(1)` call starts nothing; and every pass through the awaiting
loop keeps `next_index` there and takes one future off `in_flight`, whose length therefore
never exceeds `max_threads`. -/
theorem parts_within_max_threads (T : Nat) (opts : options) (env : download_env)
    (fuel : Nat) (hp : Bool) (buffer : List Nat)
    (hT : 1 ≤ T) (h64 : T < u64_mod) (hthreads : 1 ≤ opts.max_threads) :
    (plan_parts T opts).length ≤ opts.max_threads ∧
    (launched_pool (plan_parts T opts) opts buffer).next_index = (plan_parts T opts).length ∧
    (launched_pool (plan_parts T opts) opts buffer).in_flight.length
      = (plan_parts T opts).length ∧
    (∀ i p, (plan_parts T opts)[i]? = some p →
      (i, p) ∈ (launched_pool (plan_parts T opts) opts buffer).in_flight) ∧
    (∀ rest, launch_next (plan_parts T opts) 1 rest (plan_parts T opts).length
      = (rest, (plan_parts T opts).length)) ∧
    (∀ ps ps1 : pool_state, ps.next_index = (plan_parts T opts).length →
      ps.in_flight.length ≤ opts.max_threads →
      await_next env fuel (plan_parts T opts) opts hp ps = some ps1 →
      ps1.next_index = (plan_parts T opts).length ∧
        ps1.in_flight.length + 1 = ps.in_flight.length ∧
        ps1.in_flight.length ≤ opts.max_threads) ∧
    (∀ n (ps : pool_state), drain env fuel (plan_parts T opts) opts hp (n + 1) ps =
      if ps.in_flight = [] then some ps
      else (await_next env fuel (plan_parts T opts) opts hp ps).bind
        (drain env fuel (plan_parts T opts) opts hp n)) := by
  obtain ⟨hplen, _⟩ := plan_parts_valid T opts hT h64
  obtain ⟨s1, s2, _, s4, _⟩ := launched_pool_spec (plan_parts T opts) opts buffer
  have hmin : min opts.max_threads (plan_parts T opts).length = (plan_parts T opts).length := by
    omega
  refine ⟨by omega, by rw [s1, hmin], by rw [s2, hmin], ?_,
    fun rest => launch_one_past_end _ rest _ (le_refl _), ?_,
    fun n ps => drain_succ env fuel _ opts hp n ps⟩
  · intro i p hpi
    have hi : i < (plan_parts T opts).length := by
      by_contra hc
      rw [List.getElem?_eq_none_iff.mpr (by omega)] at hpi
      cases hpi
    exact s4 i p (by omega) hpi
  · intro ps ps1 hni hlen ha
    obtain ⟨a1, a2⟩ := await_next_nothing_left env fuel _ opts hp ps ps1 (by omega) ha
    have hne : ps.in_flight ≠ [] := by
      intro he
      obtain ⟨fl, ni, failed, e, shared⟩ := ps
      simp only at he
      subst he
      simp [await_next] at ha
    have hl : ps.in_flight.tail.length + 1 = ps.in_flight.length := by
      cases hfl : ps.in_flight with
      | nil => exact absurd hfl hne
      | cons x rest => simp
    rw [a2]
    exact ⟨by omega, hl, by omega⟩

/-- Witness for `parts_within_max_threads`: ten bytes with `max_threads = 3` are planned as
three parts, all launched at once. -/
theorem parts_within_max_threads_witness :
    (launched_pool (plan_parts 10 (options.mk 3 1 60 "")) (options.mk 3 1 60 "")
      (List.replicate 10 0)).in_flight
      = [(2, part_range.mk 7 9), (1, part_range.mk 4 6), (0, part_range.mk 0 3)] ∧
    (plan_parts 10 (options.mk 3 1 60 "")).length ≤ (options.mk 3 1 60 "").max_threads ∧
    (launched_pool (plan_parts 10 (options.mk 3 1 60 "")) (options.mk 3 1 60 "")
      (List.replicate 10 0)).next_index = (plan_parts 10 (options.mk 3 1 60 "")).length := by
  obtain ⟨h1, h2, _⟩ := parts_within_max_threads 10 (options.mk 3 1 60 "")
    (range_server_env (List.replicate 10 7)) 10 false (List.replicate 10 0)
    (by decide) (by decide) (by decide)
  exact ⟨by decide, h1, h2⟩

/-- A flag that stayed set would be seen: the same transfer ends with "cancelled" when the
reads find the flag set from the start, and with success when they find it clear. -/
theorem flag_left_set_is_seen :
    download decimal_stoull (observed true (quiet_run [5, 6, 7])) 3 (options.mk 2 1 60 "")
      false true []
      = some (download_result.mk [0, 0, 0] [event.complete false "cancelled"] none) ∧
    download decimal_stoull (observed false (quiet_run [5, 6, 7])) 3 (options.mk 2 1 60 "")
      false true []
      = some (download_result.mk [5, 6, 7] [event.complete true ""] none) := by
  decide

/-- C30: `download` stores false into `cancel_requested_` before anything else, so its
outcome (buffer, callback calls, file) does not depend on the value of the flag at entry: for
the same server behaviour and the same `cancel()` calls during the run, a run on an object on
which `cancel()` was called before gives the same result as a run on the object as it was,
and so do runs on any two objects that agree on `buffer_`; in the run the flag is read as
clear at entry. -/
theorem download_ignores_flag_at_entry (stoull : String → Option Nat) (run : transfer_run)
    (fuel : Nat) (opts : options) (hp hc : Bool) (self other : transfer_object) :
    download_on stoull run fuel opts hp hc (cancel self)
      = download_on stoull run fuel opts hp hc self ∧
    (other.buffer_ = self.buffer_ →
      download_on stoull run fuel opts hp hc other
        = download_on stoull run fuel opts hp hc self) ∧
    download_on stoull run fuel opts hp hc self
      = download stoull (observed false run) fuel opts hp hc self.buffer_ ∧
    (cancel self).cancel_requested_ = true := by
  refine ⟨rfl, ?_, rfl, rfl⟩
  intro h
  simp only [download_on, h]

/-- Witness for `download_ignores_flag_at_entry`: three bytes are transferred in full whether
or not `cancel()` was called on the object before. -/
theorem download_ignores_flag_at_entry_witness :
    download_on decimal_stoull (quiet_run [5, 6, 7]) 3 (options.mk 2 1 60 "") false true
        (cancel (transfer_object.mk false []))
      = some (download_result.mk [5, 6, 7] [event.complete true ""] none) ∧
    download_on decimal_stoull (quiet_run [5, 6, 7]) 3 (options.mk 2 1 60 "") false true
        (cancel (transfer_object.mk false []))
      = download_on decimal_stoull (quiet_run [5, 6, 7]) 3 (options.mk 2 1 60 "") false true
        (transfer_object.mk false []) :=
  ⟨by decide,
    (download_ignores_flag_at_entry decimal_stoull (quiet_run [5, 6, 7]) 3
      (options.mk 2 1 60 "") false true (transfer_object.mk false [])
      (transfer_object.mk false [])).1⟩

/-- One pass through the loop body either ends the call or adds
`min chunk_size_bytes (part_total - part_done)` to `part_done`. -/
theorem download_part_step_advance (env : part_env) (range : part_range) (part_index : Nat)
    (opts : options) (hp : Bool) (part_total k part_done : Nat) (st : part_state)
    (hpt : part_total < u64_mod) (hle : part_done ≤ part_total) :
    (∃ status st1, download_part_step env range part_index opts hp part_total k part_done st
        = step_result.stop status st1 ∧ status ≠ part_status.running) ∨
    (∃ st1, download_part_step env range part_index opts hp part_total k part_done st
        = step_result.next
          (part_done + min opts.chunk_size_bytes (part_total - part_done)) st1) := by
  have hsub : sub64 part_total part_done = part_total - part_done := sub64_of_le hle hpt
  have hadd : add64 part_done (min opts.chunk_size_bytes (part_total - part_done))
      = part_done + min opts.chunk_size_bytes (part_total - part_done) :=
    add64_of_lt (by omega)
  unfold download_part_step
  simp only [hsub, hadd]
  split
  · exact Or.inl ⟨_, _, rfl, by simp⟩
  · split
    · exact Or.inl ⟨_, _, rfl, by simp⟩
    · split
      · exact Or.inl ⟨_, _, rfl, by simp⟩
      · exact Or.inl ⟨_, _, rfl, by simp⟩
      · exact Or.inr ⟨_, rfl⟩

/-- With `chunk_size_bytes >= 1` the loop of `download_part` ends within as many iterations
as bytes are left. -/
theorem download_part_loop_terminates (env : part_env) (range : part_range)
    (part_index : Nat) (opts : options) (hp : Bool) (part_total : Nat)
    (hpt : part_total < u64_mod) (hchunk : 1 ≤ opts.chunk_size_bytes) :
    ∀ fuel k part_done (st : part_state), part_done ≤ part_total →
      part_total - part_done ≤ fuel →
      (download_part_loop env range part_index opts hp part_total fuel k part_done st).1
        ≠ part_status.running := by
  intro fuel
  induction fuel with
  | zero =>
    intro k part_done st hle hf
    have : ¬ part_done < part_total := by omega
    simp [download_part_loop, this]
  | succ fuel ih =>
    intro k part_done st hle hf
    by_cases hlt : part_done < part_total
    · rcases download_part_step_advance env range part_index opts hp part_total k part_done st
        hpt hle with ⟨status, st1, hs, hne⟩ | ⟨st1, hs⟩
      · simp only [download_part_loop, hlt, if_true, hs]
        exact hne
      · simp only [download_part_loop, hlt, if_true, hs]
        exact ih (k + 1) _ st1 (by omega) (by omega)
    · simp [download_part_loop, hlt]

/-- With `chunk_size_bytes >= 1`, `download_part` returns within `part_total` iterations of
its loop, whatever the server answers. -/
theorem download_part_terminates (env : part_env) (fuel : Nat) (range : part_range)
    (part_index : Nat) (opts : options) (hp : Bool) (st : part_state)
    (hchunk : 1 ≤ opts.chunk_size_bytes)
    (hfuel : add64 (sub64 range.end_inclusive range.start) 1 ≤ fuel) :
    (download_part env fuel range part_index opts hp st).1 ≠ part_status.running := by
  have hloop := download_part_loop_terminates env range part_index opts hp
    (add64 (sub64 range.end_inclusive range.start) 1) (Nat.mod_lt _ (by decide)) hchunk fuel 0 0
    st (Nat.zero_le _) (by simpa using hfuel)
  unfold download_part
  split
  · simp
  · exact hloop

end multipart_transfer

namespace ipc

theorem lookup_erase_self (reg : List (Nat × workload_callbacks)) (id : Nat) :
    (erase reg id).lookup id = none := by
  induction reg with
  | nil => rfl
  | cons e es ih =>
    unfold erase at *
    by_cases h : e.1 = id
    · rw [List.filter_cons_of_neg (by simp [h])]
      exact ih
    · have h2 : (id == e.1) = false := by simp; exact fun h3 => h h3.symm
      rw [List.filter_cons_of_pos (by simp [h]), List.lookup_cons, h2]
      exact ih

theorem lookup_erase_of_none (reg : List (Nat × workload_callbacks)) (id other : Nat)
    (h : reg.lookup id = none) : (erase reg other).lookup id = none := by
  induction reg with
  | nil => rfl
  | cons e es ih =>
    unfold erase at *
    rw [List.lookup_cons] at h
    by_cases h1 : (id == e.1) = true
    · simp [h1] at h
    · simp only [h1] at h
      by_cases h2 : e.1 = other
      · rw [List.filter_cons_of_neg (by simp [h2])]
        exact ih h
      · rw [List.filter_cons_of_pos (by simp [h2]), List.lookup_cons]
        simp only [h1]
        exact ih h

/-- A response for an id without registry entry calls nothing and changes nothing. -/
theorem handle_unregistered {J : Type} (lib : json_lib J)
    (ends : Nat → J → callback_end) (s : ipc_state) (id : Nat)
    (status : Int) (message : List Nat) (h : s.m_workload_callbacks.lookup id = none) :
    handle_workload_response lib ends s id status message = (s, []) := by
  unfold handle_workload_response
  rw [h]

/-- No dispatch adds a registry entry. -/
theorem handle_keeps_unregistered {J : Type} (lib : json_lib J)
    (ends : Nat → J → callback_end) (s : ipc_state) (id other : Nat)
    (status : Int) (message : List Nat) (h : s.m_workload_callbacks.lookup id = none) :
    (handle_workload_response lib ends s other status message).1.m_workload_callbacks.lookup id
      = none := by
  unfold handle_workload_response
  split
  · split
    · exact h
    · split
      · exact lookup_erase_of_none _ _ _ h
      · split
        · exact lookup_erase_of_none _ _ _ h
        · exact h
  · exact h

/-- A terminal status for a registered id removes its entry. -/
theorem handle_terminal_erases {J : Type} (lib : json_lib J)
    (ends : Nat → J → callback_end) (s : ipc_state) (id : Nat)
    (status : Int) (message : List Nat) (hst : status = 1 ∨ status = 2) :
    (handle_workload_response lib ends s id status message).1.m_workload_callbacks.lookup id
      = none := by
  unfold handle_workload_response
  split
  · rcases hst with h | h <;> subst h <;> simp [lookup_erase_self]
  · rename_i h; exact h

theorem call_opt_error_terminal {J : Type} (cb : Option Nat) (m : List Nat) :
    ((call_opt (callback_call.error : Nat → List Nat → callback_call J) cb m).filter
      callback_call.is_terminal).length ≤ 1 := by
  cases cb <;> simp [call_opt, callback_call.is_terminal]

theorem call_opt_progress_terminal {J : Type} (cb : Option Nat) (m : List Nat) :
    (call_opt (callback_call.progress : Nat → List Nat → callback_call J) cb m).filter
      callback_call.is_terminal = [] := by
  cases cb <;> simp [call_opt, callback_call.is_terminal]

/-- The calls made for one frame when no success callback ends with a `parse_error`: at most
one of them is terminal, and if one is, the entry of the id is gone afterwards. -/
theorem handle_calls {J : Type} (lib : json_lib J) (ends : Nat → J → callback_end)
    (s : ipc_state) (id : Nat) (status : Int) (message : List Nat)
    (hret : ∀ fn r, ends fn r = callback_end.returns) :
    ((handle_workload_response lib ends s id status message).2.filter
        callback_call.is_terminal).length ≤ 1 ∧
    (((handle_workload_response lib ends s id status message).2.filter
        callback_call.is_terminal).length = 1 →
      (handle_workload_response lib ends s id status message).1.m_workload_callbacks.lookup id
        = none) := by
  cases hlk : s.m_workload_callbacks.lookup id with
  | none =>
    rw [handle_unregistered lib ends s id status message hlk]
    simp [hlk]
  | some cbs =>
    by_cases h0 : status = 0
    · subst h0
      have e : handle_workload_response lib ends s id 0 message
          = (s, call_opt callback_call.progress cbs.on_progress message) := by
        simp [handle_workload_response, hlk]
      rw [e]
      simp [call_opt_progress_terminal]
    · by_cases h2 : status = 2
      · subst h2
        refine ⟨?_, fun _ => handle_terminal_erases lib ends s id 2 message (Or.inr rfl)⟩
        have e : (handle_workload_response lib ends s id 2 message).2
            = match cbs.on_complete with
              | some fn =>
                match lib.parse message with
                | Except.ok result => [callback_call.complete fn result]
                | Except.error what =>
                  call_opt callback_call.error cbs.on_error
                    (str "Failed to parse JSON result: " ++ what)
              | none => [] := by
          simp [handle_workload_response, hlk, hret]
        rw [e]
        cases cbs.on_complete with
        | none => simp
        | some fn =>
          cases lib.parse message with
          | ok r => simp [callback_call.is_terminal]
          | error w => exact call_opt_error_terminal _ _
      · by_cases h1 : status = 1
        · subst h1
          refine ⟨?_, fun _ => handle_terminal_erases lib ends s id 1 message (Or.inl rfl)⟩
          have e : (handle_workload_response lib ends s id 1 message).2
              = call_opt callback_call.error cbs.on_error message := by
            simp [handle_workload_response, hlk]
          rw [e]
          exact call_opt_error_terminal _ _
        · have e : handle_workload_response lib ends s id status message = (s, []) := by
            simp [handle_workload_response, hlk, h0, h1, h2]
          rw [e]
          simp

/-- Frames for an id without registry entry call nothing, however many are dispatched. -/
theorem handle_all_unregistered {J : Type} (lib : json_lib J)
    (ends : Nat → J → callback_end) (id : Nat) :
    ∀ (frames : List response_frame) (s : ipc_state),
      s.m_workload_callbacks.lookup id = none →
      ∀ e ∈ handle_all lib ends s frames, e.1 = id → e.2 = [] := by
  intro frames
  induction frames with
  | nil => intro s _ e he; simp [handle_all] at he
  | cons f fs ih =>
    intro s h e he hid
    simp only [handle_all, List.mem_cons] at he
    rcases he with rfl | he
    · simp only at hid
      subst hid
      simp [handle_unregistered lib ends s _ f.status f.message h]
    · exact ih _ (handle_keeps_unregistered lib ends s id f.workload_id f.status f.message h) e he hid

theorem terminal_calls_unregistered {J : Type} (lib : json_lib J)
    (ends : Nat → J → callback_end) (id : Nat)
    (frames : List response_frame) (s : ipc_state)
    (h : s.m_workload_callbacks.lookup id = none) :
    terminal_calls id (handle_all lib ends s frames) = 0 := by
  have hall := handle_all_unregistered lib ends id frames s h
  generalize handle_all lib ends s frames = log at hall
  unfold terminal_calls
  induction log with
  | nil => rfl
  | cons e es ih =>
    have hes : ∀ x ∈ es, x.1 = id → x.2 = [] := fun x hx => hall x (List.mem_cons_of_mem _ hx)
    by_cases he : e.1 = id
    · have := hall e (List.mem_cons_self _ _) he
      rw [List.filter_cons_of_pos (by simp [he])]
      simp only [List.map_cons, List.sum_cons, this, List.filter_nil, List.length_nil, zero_add]
      exact ih hes
    · rw [List.filter_cons_of_neg (by simp [he])]
      exact ih hes

theorem handle_all_state_append {J : Type} (lib : json_lib J) (ends : Nat → J → callback_end) :
    ∀ (pre post : List response_frame) (s : ipc_state),
      handle_all_state lib ends s (pre ++ post) = handle_all_state lib ends (handle_all_state lib ends s pre) post
  | [], _, _ => rfl
  | f :: fs, post, s => by
    simp only [List.cons_append, handle_all_state]
    exact handle_all_state_append lib ends fs post _

/-- When no success callback ends with a `parse_error`: for every registry state and every
finite sequence of `handle_workload_response` calls, at most one terminal callback
(`on_complete` or `on_error`) is called for each workload id. -/
theorem terminal_calls_le_one {J : Type} (lib : json_lib J) (ends : Nat → J → callback_end)
    (hret : ∀ fn r, ends fn r = callback_end.returns) :
    ∀ (frames : List response_frame) (s : ipc_state) (id : Nat),
      terminal_calls id (handle_all lib ends s frames) ≤ 1 := by
  intro frames
  induction frames with
  | nil => intro s id; simp [terminal_calls, handle_all]
  | cons g gs ih =>
    intro s id
    obtain ⟨hle, herase⟩ := handle_calls lib ends s g.workload_id g.status g.message hret
    by_cases hg : g.workload_id = id
    · subst hg
      have e : terminal_calls g.workload_id (handle_all lib ends s (g :: gs))
          = ((handle_workload_response lib ends s g.workload_id g.status g.message).2.filter
              callback_call.is_terminal).length
            + terminal_calls g.workload_id (handle_all lib ends
                (handle_workload_response lib ends s g.workload_id g.status g.message).1 gs) := by
        simp [terminal_calls, handle_all]
      rw [e]
      rcases Nat.lt_or_ge ((handle_workload_response lib ends s g.workload_id g.status
        g.message).2.filter callback_call.is_terminal).length 1 with h0 | h1
      · have := ih (handle_workload_response lib ends s g.workload_id g.status g.message).1
          g.workload_id
        omega
      · have h1 : ((handle_workload_response lib ends s g.workload_id g.status
            g.message).2.filter callback_call.is_terminal).length = 1 := by omega
        rw [terminal_calls_unregistered lib ends _ gs _ (herase h1)]
        omega
    · have e : terminal_calls id (handle_all lib ends s (g :: gs))
          = terminal_calls id (handle_all lib ends
              (handle_workload_response lib ends s g.workload_id g.status g.message).1 gs) := by
        simp [terminal_calls, handle_all, hg]
      rw [e]
      exact ih _ id

/-- Whatever the callbacks do: after a frame with a terminal status (error or completed) for
an id, no later frame for that id calls any callback. -/
theorem no_calls_after_terminal {J : Type} (lib : json_lib J) (ends : Nat → J → callback_end)
    (s : ipc_state) (pre post : List response_frame) (f : response_frame)
    (hst : f.status = workload_status.error.underlying ∨
      f.status = workload_status.completed.underlying) :
    ∀ e ∈ handle_all lib ends (handle_all_state lib ends s (pre ++ [f])) post,
      e.1 = f.workload_id → e.2 = [] := by
  rw [handle_all_state_append]
  simp only [handle_all_state]
  apply handle_all_unregistered
  apply handle_terminal_erases
  simpa [workload_status.underlying] using hst

/-- C6: a success callback whose call ends with a `parse_error` is followed by the `catch`
clause of line 444. For the entry of workload 1 with the callbacks 10, 11 and 12, where the
call of callback 10 ends with a `parse_error` with the text "bad", one completed frame whose
message parses calls `on_complete` and then `on_error` with "Failed to parse JSON result: bad":
two terminal callbacks for the same id. With a callback 10 that returns, the same frame gives
the one call of `on_complete`. -/
theorem throwing_on_complete_two_terminal_calls :
    handle_workload_response bytes_json (parse_error_from 10 (str "bad"))
        (ipc_state.mk 3 1 [(1, workload_callbacks.mk (some 10) (some 11) (some 12))]) 1
        workload_status.completed.underlying [8]
      = (ipc_state.mk 3 1 [],
          [callback_call.complete 10 [8],
            callback_call.error 11 (str "Failed to parse JSON result: " ++ str "bad")]) ∧
    terminal_calls 1 (handle_all bytes_json (parse_error_from 10 (str "bad"))
        (ipc_state.mk 3 1 [(1, workload_callbacks.mk (some 10) (some 11) (some 12))])
        [response_frame.mk 1 2 [8]]) = 2 ∧
    bytes_json.parse [8] = Except.ok [8] ∧
    handle_workload_response bytes_json always_returns
        (ipc_state.mk 3 1 [(1, workload_callbacks.mk (some 10) (some 11) (some 12))]) 1
        workload_status.completed.underlying [8]
      = (ipc_state.mk 3 1 [], [callback_call.complete 10 [8]]) :=
  ⟨by decide, by decide, rfl, by decide⟩

theorem le_bytes_length (k v : Nat) : (le_bytes k v).length = k := by
  induction k generalizing v with
  | zero => rfl
  | succ k ih => simp [le_bytes, ih]

theorem le_value_le_bytes (k v : Nat) : le_value (le_bytes k v) = v % 256 ^ k := by
  induction k generalizing v with
  | zero => simp [le_bytes, le_value, Nat.mod_one]
  | succ k ih =>
    simp only [le_bytes, le_value, ih, Nat.mod_mod]
    rw [Nat.pow_succ, Nat.mul_comm (256 ^ k) 256, Nat.mod_mul]

theorem le_value_le_bytes_8 (v : Nat) (h : v < u64_mod) : le_value (le_bytes 8 v) = v := by
  rw [le_value_le_bytes]
  exact Nat.mod_eq_of_lt h

theorem le_value_singleton (b : Nat) (h : b < 256) : le_value [b] = b := by
  simp [le_value, Nat.mod_eq_of_lt h]

theorem overlay_full (got old : List Nat) (h : old.length ≤ got.length) :
    overlay got old = got := by
  unfold overlay
  rw [List.drop_of_length_le h, List.append_nil]

/-- A `recv` call that gets all the bytes it asks for takes them from the front of the
stream. -/
theorem recv_full (ch : List delivery) (n : Nat) (got : List Nat) (ch1 : List delivery)
    (h : recv ch n = (some got, ch1)) (hlen : got.length = n) :
    got = (stream ch).take n ∧ stream ch1 = (stream ch).drop n := by
  unfold recv at h
  split at h
  · rename_i h0
    subst h0
    simp only [Prod.mk.injEq, Option.some.injEq] at h
    obtain ⟨rfl, rfl⟩ := h
    simp
  · rename_i hn
    cases ch with
    | nil =>
      simp only [Prod.mk.injEq, Option.some.injEq] at h
      obtain ⟨rfl, rfl⟩ := h
      simp at hlen
      exact absurd hlen.symm hn
    | cons d rest =>
      cases d with
      | failure => simp at h
      | data d =>
        simp only at h
        split at h
        · rename_i hd
          simp only [Prod.mk.injEq, Option.some.injEq] at h
          obtain ⟨rfl, rfl⟩ := h
          simp [stream, List.take_left' hlen, List.drop_left' hlen]
        · rename_i hd
          simp only [Prod.mk.injEq, Option.some.injEq] at h
          obtain ⟨rfl, rfl⟩ := h
          simp only [stream]
          rw [List.take_append_of_le_length (by omega),
            List.drop_append_of_le_length (by omega)]
          exact ⟨rfl, rfl⟩

/-- The first of a series of reads that are all served in full. -/
theorem delivers_in_full_cons (ch : List delivery) (n : Nat) (ns : List Nat)
    (h : delivers_in_full ch (n :: ns) = true) :
    ∃ ch1, recv ch n = (some ((stream ch).take n), ch1) ∧ ((stream ch).take n).length = n ∧
      stream ch1 = (stream ch).drop n ∧ delivers_in_full ch1 ns = true := by
  unfold delivers_in_full at h
  split at h
  · rename_i got hgot
    simp only [Bool.and_eq_true, beq_iff_eq] at h
    have hr : recv ch n = (some got, (recv ch n).2) := by
      rw [← hgot]
    obtain ⟨h1, h2⟩ := recv_full ch n got _ hr h.1
    refine ⟨(recv ch n).2, ?_, ?_, h2, h.2⟩
    · rw [← h1]; exact hr
    · rw [← h1]; exact h.1
  · exact absurd h (by simp)

theorem overlay_le_bytes (k v w : Nat) : overlay (le_bytes k v) (le_bytes k w) = le_bytes k v :=
  overlay_full _ _ (by simp [le_bytes_length])

theorem overlay_singleton (b w : Nat) : overlay [b] (le_bytes 1 w) = [b] :=
  overlay_full _ _ (by simp [le_bytes_length])

theorem overlay_replicate (msg : List Nat) : overlay msg (List.replicate msg.length 0) = msg :=
  overlay_full _ _ (by simp)

/-- The four reads of a request or response frame, when all are served in full. -/
theorem frame_reads (ch : List delivery) (id b : Nat) (body rest : List Nat)
    (hs : stream ch = le_bytes 8 id ++ ([b] ++ (le_bytes 8 body.length ++ (body ++ rest))))
    (hfull : delivers_in_full ch [8, 1, 8, body.length] = true) :
    ∃ ch1 ch2 ch3 ch4, recv ch 8 = (some (le_bytes 8 id), ch1) ∧
      recv ch1 1 = (some [b], ch2) ∧ recv ch2 8 = (some (le_bytes 8 body.length), ch3) ∧
      recv ch3 body.length = (some body, ch4) := by
  obtain ⟨ch1, r1, _, s1, f1⟩ := delivers_in_full_cons ch 8 _ hfull
  rw [hs, List.take_left' (le_bytes_length 8 id)] at r1
  rw [hs, List.drop_left' (le_bytes_length 8 id)] at s1
  obtain ⟨ch2, r2, _, s2, f2⟩ := delivers_in_full_cons ch1 1 _ f1
  rw [s1, List.take_left' (List.length_singleton b)] at r2
  rw [s1, List.drop_left' (List.length_singleton b)] at s2
  obtain ⟨ch3, r3, _, s3, f3⟩ := delivers_in_full_cons ch2 8 _ f2
  rw [s2, List.take_left' (le_bytes_length 8 _)] at r3
  rw [s2, List.drop_left' (le_bytes_length 8 _)] at s3
  obtain ⟨ch4, r4, _, _, _⟩ := delivers_in_full_cons ch3 body.length _ f3
  rw [s3, List.take_left' rfl] at r4
  exact ⟨ch1, ch2, ch3, ch4, r1, r2, r3, r4⟩

/-- The decoder of response frames returns the frame when its four reads are served in
full. -/
theorem receive_workload_response_full (s : ipc_state) (u : uninit_locals) (ch : List delivery)
    (hfd : s.m_socket_fd ≠ -1) (id status : Nat) (msg rest : List Nat) (hid : id < u64_mod)
    (hst : status < 256) (hlen : msg.length < u64_mod)
    (hs : stream ch = le_bytes 8 id ++ ([status] ++ (le_bytes 8 msg.length ++ (msg ++ rest))))
    (hfull : delivers_in_full ch [8, 1, 8, msg.length] = true) :
    (receive_workload_response s u ch).1 = (id, (status : Int), msg) := by
  obtain ⟨ch1, ch2, ch3, ch4, r1, r2, r3, r4⟩ := frame_reads ch id status msg rest hs hfull
  unfold receive_workload_response
  rw [if_neg hfd]
  simp only [r1, overlay_le_bytes, le_value_le_bytes_8 _ hid, r2, overlay_singleton,
    le_value_singleton _ hst, r3, le_value_le_bytes_8 _ hlen, r4, overlay_replicate]

/-- The decoder of request frames returns the frame, with the parameters parsed, when its
four reads are served in full. -/
theorem receive_workload_request_full {J : Type} (lib : json_lib J) (s : ipc_state)
    (u : uninit_locals) (ch : List delivery)
    (hfd : s.m_socket_fd ≠ -1) (id kind : Nat) (body rest : List Nat) (hid : id < u64_mod)
    (hk : kind < 256) (hlen : body.length < u64_mod)
    (hs : stream ch = le_bytes 8 id ++ ([kind] ++ (le_bytes 8 body.length ++ (body ++ rest))))
    (hfull : delivers_in_full ch [8, 1, 8, body.length] = true) :
    (receive_workload_request lib s u ch).1 =
      (id, (kind : Int),
        match lib.parse body with
        | Except.ok v => v
        | Except.error _ => lib.object) := by
  obtain ⟨ch1, ch2, ch3, ch4, r1, r2, r3, r4⟩ := frame_reads ch id kind body rest hs hfull
  unfold receive_workload_request
  rw [if_neg hfd]
  simp only [r1, overlay_le_bytes, le_value_le_bytes_8 _ hid, r2, overlay_singleton,
    le_value_singleton _ hk, r3, le_value_le_bytes_8 _ hlen, r4, overlay_replicate]

/-- The decoder of generic messages returns the message when its two reads are served in
full. -/
theorem receive_message_full (s : ipc_state) (u : uninit_locals) (ch : List delivery)
    (hfd : s.m_socket_fd ≠ -1) (msg rest : List Nat) (hlen : msg.length < u64_mod)
    (hs : stream ch = le_bytes 8 msg.length ++ (msg ++ rest))
    (hfull : delivers_in_full ch [8, msg.length] = true) :
    (receive_message s u ch).1 = msg := by
  obtain ⟨ch1, r1, _, s1, f1⟩ := delivers_in_full_cons ch 8 _ hfull
  rw [hs, List.take_left' (le_bytes_length 8 _)] at r1
  rw [hs, List.drop_left' (le_bytes_length 8 _)] at s1
  obtain ⟨ch2, r2, _, _, _⟩ := delivers_in_full_cons ch1 msg.length _ f1
  rw [s1, List.take_left' rfl] at r2
  unfold receive_message
  rw [if_neg hfd]
  simp only [r1, overlay_le_bytes, le_value_le_bytes_8 _ hlen, r2, overlay_replicate]

/-- Reads whose sizes add up to at most the bytes available together are all served in
full. -/
theorem delivers_in_full_of_available (sizes : List Nat) :
    ∀ ch : List delivery, sizes.sum ≤ available ch → delivers_in_full ch sizes = true := by
  induction sizes with
  | nil => intro ch _; rfl
  | cons n ns ih =>
    intro ch h
    simp only [List.sum_cons] at h
    rcases Nat.eq_zero_or_pos n with h0 | hpos
    · subst h0
      have hr : recv ch 0 = (some [], ch) := by simp [recv]
      simp only [delivers_in_full, hr, List.length_nil, beq_self_eq_true, Bool.true_and]
      exact ih ch (by omega)
    · cases ch with
      | nil => simp [available] at h; omega
      | cons d later =>
        cases d with
        | failure => simp [available] at h; omega
        | data w =>
          simp only [available] at h
          by_cases hw : w.length ≤ n
          · have hr : recv (delivery.data w :: later) n = (some w, later) := by
              simp [recv, hw]; omega
            simp only [delivers_in_full, hr, Bool.and_eq_true, beq_iff_eq]
            exact ⟨by omega, ih later (by omega)⟩
          · have hr : recv (delivery.data w :: later) n
                = (some (w.take n), delivery.data (w.drop n) :: later) := by
              simp [recv, hw]; omega
            simp only [delivers_in_full, hr, Bool.and_eq_true, beq_iff_eq]
            refine ⟨by simp; omega, ih _ ?_⟩
            simp only [available, List.length_drop]
            omega

/-- The bytes written by a successful `send_workload_request`, and the id it returns. -/
theorem send_workload_request_ok {J : Type} (lib : json_lib J) (s : ipc_state)
    (workload : workload_type) (p : J) (env : send_env) (hfd : s.m_socket_fd ≠ -1)
    (herr : env.sock_error = none ∨ env.sock_error = some 0)
    (hsend : ∀ k, env.send_ok k = true) :
    send_workload_request lib s workload p env =
      send_result.mk (generate_workload_id s).1 (add64 s.m_workload_id_counter 1)
        (le_bytes 8 (add64 s.m_workload_id_counter 1) ++ [workload.underlying % 256] ++
          le_bytes 8 (lib.dump p).length ++ lib.dump p) := by
  have he : ¬ (env.sock_error.isSome ∧ env.sock_error ≠ some 0) := by
    rcases herr with h | h <;> simp [h]
  unfold send_workload_request
  rw [if_neg hfd, if_neg he]
  simp [hsend, generate_workload_id]

theorem workload_type_underlying_lt (w : workload_type) : w.underlying < 256 := by
  cases w <;> simp [workload_type.underlying]

/-- C7 as stated fails: the channel delivers all written bytes in order, but the last byte
of the parameters arrives after the first 18 bytes of the frame. The one `recv` call for the
parameters gets one byte, and `receive_workload_request` returns the parameters `[1, 0]`
(the second byte is the zero the buffer was created with), not the parameters `[1, 2]` that
were sent. -/
theorem split_request_counterexample :
    send_workload_request bytes_json (ipc_state.mk 3 0 []) workload_type.install_vm [1, 2]
        good_socket
      = send_result.mk (ipc_state.mk 3 1 []) 1 (le_bytes 8 1 ++ [2] ++ le_bytes 8 2 ++ [1, 2]) ∧
    bytes_json.parse (bytes_json.dump [1, 2]) = Except.ok [1, 2] ∧
    stream [delivery.data (le_bytes 8 1 ++ [2] ++ le_bytes 8 2 ++ [1]), delivery.data [2]]
      = le_bytes 8 1 ++ [2] ++ le_bytes 8 2 ++ [1, 2] ∧
    (receive_workload_request bytes_json (ipc_state.mk 4 0 []) (uninit_locals.mk 0 0 0)
      [delivery.data (le_bytes 8 1 ++ [2] ++ le_bytes 8 2 ++ [1]), delivery.data [2]]).1
      = (1, 2, [1, 0]) ∧
    (receive_workload_request bytes_json (ipc_state.mk 4 0 []) (uninit_locals.mk 0 0 0)
      [delivery.data (le_bytes 8 1 ++ [2] ++ le_bytes 8 2 ++ [1]), delivery.data [2]]).1
      ≠ (1, 2, [1, 2]) :=
  ⟨rfl, rfl, by decide, by decide, by decide⟩

/-- C7 (amended): round trip of the request frame. When the sender is connected, its socket
has no pending error and every `send` succeeds, the id counter does not wrap, and the
parameters `p` satisfy `parse(dump(p)) = p`, then `send_workload_request` returns a non-zero
id, and `receive_workload_request` returns exactly `(id, kind, p)` on every channel that
delivers the written bytes in order (followed by whatever comes later) and on which each of
the four `recv` calls gets all the bytes it asks for; this is so in particular when the
written bytes are available together. -/
theorem request_round_trip {J : Type} (lib : json_lib J) (sender receiver : ipc_state)
    (workload : workload_type) (p : J) (env : send_env) (u : uninit_locals)
    (ch : List delivery) (rest : List Nat)
    (hs : sender.m_socket_fd ≠ -1) (hr : receiver.m_socket_fd ≠ -1)
    (herr : env.sock_error = none ∨ env.sock_error = some 0)
    (hsend : ∀ k, env.send_ok k = true)
    (hctr : sender.m_workload_id_counter + 1 < u64_mod)
    (hlen : (lib.dump p).length < u64_mod)
    (hparse : lib.parse (lib.dump p) = Except.ok p)
    (hstream : stream ch = (send_workload_request lib sender workload p env).written ++ rest)
    (hfull : delivers_in_full ch [8, 1, 8, (lib.dump p).length] = true) :
    (send_workload_request lib sender workload p env).id ≠ 0 ∧
    (receive_workload_request lib receiver u ch).1
      = ((send_workload_request lib sender workload p env).id,
          (workload.underlying : Int), p) ∧
    ∀ later : List delivery,
      (receive_workload_request lib receiver u
          (delivery.data (send_workload_request lib sender workload p env).written :: later)).1
        = ((send_workload_request lib sender workload p env).id,
            (workload.underlying : Int), p) := by
  rw [send_workload_request_ok lib sender workload p env hs herr hsend] at hstream ⊢
  have hid : add64 sender.m_workload_id_counter 1 = sender.m_workload_id_counter + 1 :=
    multipart_transfer.add64_of_lt hctr
  have hk := workload_type_underlying_lt workload
  simp only [hid, Nat.mod_eq_of_lt hk] at hstream ⊢
  refine ⟨by omega, ?_, ?_⟩
  · have hdec := receive_workload_request_full lib receiver u ch
      hr (sender.m_workload_id_counter + 1) workload.underlying (lib.dump p) rest
      hctr hk hlen (by rw [hstream]; simp) hfull
    rw [hdec, hparse]
  · intro later
    have hdec := receive_workload_request_full lib receiver u
      (delivery.data (le_bytes 8 (sender.m_workload_id_counter + 1) ++ [workload.underlying] ++
        le_bytes 8 (lib.dump p).length ++ lib.dump p) :: later)
      hr (sender.m_workload_id_counter + 1) workload.underlying (lib.dump p) (stream later)
      hctr hk hlen (by simp [stream])
      (delivers_in_full_of_available _ _ (by simp [available, le_bytes_length]; omega))
    rw [hdec, hparse]

/-- Witness for `request_round_trip`: an `install_vm` request with a two-byte payload whose
four fields arrive one by one. -/
theorem request_round_trip_witness :
    (send_workload_request bytes_json (ipc_state.mk 3 0 []) workload_type.install_vm [1, 2]
        good_socket).id = 1 ∧
    (receive_workload_request bytes_json (ipc_state.mk 4 0 []) (uninit_locals.mk 9 9 9)
        [delivery.data (le_bytes 8 1), delivery.data [2], delivery.data (le_bytes 8 2),
          delivery.data [1, 2]]).1
      = ((send_workload_request bytes_json (ipc_state.mk 3 0 []) workload_type.install_vm [1, 2]
          good_socket).id, (workload_type.install_vm.underlying : Int), [1, 2]) :=
  ⟨by decide,
    (request_round_trip bytes_json (ipc_state.mk 3 0 []) (ipc_state.mk 4 0 [])
      workload_type.install_vm [1, 2] good_socket (uninit_locals.mk 9 9 9)
      [delivery.data (le_bytes 8 1), delivery.data [2], delivery.data (le_bytes 8 2),
        delivery.data [1, 2]] []
      (by decide) (by decide) (Or.inr rfl) (fun _ => rfl) (by decide) (by decide) rfl
      (by decide) (by decide)).2.1⟩

/-- C8 as stated fails: the decoders issue one `recv` per field and do not read again after a
short read. When the first 18 bytes of a response frame (id 5, status completed, length 3,
first body byte) arrive before the last two, `receive_workload_response` returns the body
`[97, 0, 0]`, not the body `[97, 98, 99]` it returns when the frame arrives in one piece. -/
theorem short_read_counterexample :
    (receive_workload_response (ipc_state.mk 3 0 []) (uninit_locals.mk 0 0 0)
      [delivery.data (le_bytes 8 5 ++ [2] ++ le_bytes 8 3 ++ [97]), delivery.data [98, 99]]).1
      = (5, 2, [97, 0, 0]) ∧
    (receive_workload_response (ipc_state.mk 3 0 []) (uninit_locals.mk 0 0 0)
      [delivery.data (le_bytes 8 5 ++ [2] ++ le_bytes 8 3 ++ [97, 98, 99])]).1
      = (5, 2, [97, 98, 99]) ∧
    (receive_workload_response (ipc_state.mk 3 0 []) (uninit_locals.mk 0 0 0)
      [delivery.data (le_bytes 8 5 ++ [2] ++ le_bytes 8 3 ++ [97]), delivery.data [98, 99]]).1
      ≠ (receive_workload_response (ipc_state.mk 3 0 []) (uninit_locals.mk 0 0 0)
      [delivery.data (le_bytes 8 5 ++ [2] ++ le_bytes 8 3 ++ [97, 98, 99])]).1 := by
  decide

/-- C8 (amended): on a connected socket, for every frame and every way the transport splits
its bytes across deliveries in which each `recv` call gets all the bytes it asks for, the
decoders `receive_message`, `receive_workload_request` and `receive_workload_response` return
the frame, the same as when all bytes arrive in one delivery. -/
theorem decoders_full_reads {J : Type} (lib : json_lib J) (s : ipc_state) (u : uninit_locals)
    (ch : List delivery) (hfd : s.m_socket_fd ≠ -1) :
    (∀ (msg rest : List Nat), msg.length < u64_mod →
      stream ch = le_bytes 8 msg.length ++ (msg ++ rest) →
      delivers_in_full ch [8, msg.length] = true →
      (receive_message s u ch).1 = msg ∧
      (receive_message s u [delivery.data (le_bytes 8 msg.length ++ (msg ++ rest))]).1 = msg) ∧
    (∀ (id kind : Nat) (body rest : List Nat), id < u64_mod → kind < 256 → body.length < u64_mod →
      stream ch = le_bytes 8 id ++ ([kind] ++ (le_bytes 8 body.length ++ (body ++ rest))) →
      delivers_in_full ch [8, 1, 8, body.length] = true →
      (receive_workload_request lib s u ch).1 =
        (id, (kind : Int),
          match lib.parse body with
          | Except.ok v => v
          | Except.error _ => lib.object) ∧
      (receive_workload_request lib s u [delivery.data
          (le_bytes 8 id ++ ([kind] ++ (le_bytes 8 body.length ++ (body ++ rest))))]).1 =
        (receive_workload_request lib s u ch).1) ∧
    (∀ (id status : Nat) (msg rest : List Nat), id < u64_mod → status < 256 → msg.length < u64_mod →
      stream ch = le_bytes 8 id ++ ([status] ++ (le_bytes 8 msg.length ++ (msg ++ rest))) →
      delivers_in_full ch [8, 1, 8, msg.length] = true →
      (receive_workload_response s u ch).1 = (id, (status : Int), msg) ∧
      (receive_workload_response s u [delivery.data
          (le_bytes 8 id ++ ([status] ++ (le_bytes 8 msg.length ++ (msg ++ rest))))]).1 =
        (id, (status : Int), msg)) := by
  refine ⟨?_, ?_, ?_⟩
  · intro msg rest hlen hs hfull
    refine ⟨receive_message_full s u ch hfd msg rest hlen hs hfull, ?_⟩
    exact receive_message_full s u _ hfd msg rest hlen (by simp [stream])
      (delivers_in_full_of_available _ _ (by simp [available, le_bytes_length]))
  · intro id kind body rest hid hk hlen hs hfull
    rw [receive_workload_request_full lib s u ch hfd id kind body rest hid hk hlen hs hfull]
    refine ⟨rfl, ?_⟩
    exact receive_workload_request_full lib s u _ hfd id kind body rest hid hk hlen
      (by simp [stream])
      (delivers_in_full_of_available _ _ (by simp [available, le_bytes_length]; omega))
  · intro id status msg rest hid hst hlen hs hfull
    refine ⟨receive_workload_response_full s u ch hfd id status msg rest hid hst hlen hs hfull,
      ?_⟩
    exact receive_workload_response_full s u _ hfd id status msg rest hid hst hlen
      (by simp [stream])
      (delivers_in_full_of_available _ _ (by simp [available, le_bytes_length]; omega))

/-- Witness for `decoders_full_reads`: a response frame that arrives field by field. -/
theorem decoders_full_reads_witness :
    (receive_workload_response (ipc_state.mk 3 0 []) (uninit_locals.mk 9 9 9)
      [delivery.data (le_bytes 8 5), delivery.data [2], delivery.data (le_bytes 8 3),
        delivery.data [97, 98, 99]]).1 = (5, ((2 : Nat) : Int), [97, 98, 99]) :=
  ((decoders_full_reads bytes_json (ipc_state.mk 3 0 []) (uninit_locals.mk 9 9 9)
      [delivery.data (le_bytes 8 5), delivery.data [2], delivery.data (le_bytes 8 3),
        delivery.data [97, 98, 99]] (by decide)).2.2
    5 2 [97, 98, 99] [] (by decide) (by decide) (by decide) (by decide) (by decide)).1

/-- C9 fails at end-of-stream: the decoders compare the result of `recv` with -1 only. When the
stream ends after the length field of a frame (the peer closed the socket before the body),
`recv` returns 0 for the body and the decoders return a frame whose body is the zero bytes
the buffer was created with, instead of their failure result. -/
theorem end_of_stream_returns_frame :
    receive_workload_response (ipc_state.mk 3 0 []) (uninit_locals.mk 0 0 0)
      [delivery.data (le_bytes 8 5 ++ [2] ++ le_bytes 8 3)] = ((5, 2, [0, 0, 0]), []) ∧
    receive_workload_request bytes_json (ipc_state.mk 3 0 []) (uninit_locals.mk 0 0 0)
      [delivery.data (le_bytes 8 5 ++ [2] ++ le_bytes 8 3)] = ((5, 2, [0, 0, 0]), []) ∧
    receive_message (ipc_state.mk 3 0 []) (uninit_locals.mk 0 0 0)
      [delivery.data (le_bytes 8 3)] = ([0, 0, 0], []) ∧
    receive_workload_response (ipc_state.mk 3 0 []) (uninit_locals.mk 7 2 0) []
      = ((7, 2, []), []) := by
  decide

/-- Effect of `send_workload_request` on the id counter and the registry, while the counter
does not wrap: the registry is untouched, the counter grows by at most one, and a non-zero
result is the new counter value. -/
theorem send_workload_request_counter {J : Type} (lib : json_lib J) (s : ipc_state)
    (workload : workload_type) (p : J) (env : send_env)
    (hc : s.m_workload_id_counter + 1 < u64_mod) :
    (send_workload_request lib s workload p env).state.m_workload_callbacks
      = s.m_workload_callbacks ∧
    s.m_workload_id_counter ≤
      (send_workload_request lib s workload p env).state.m_workload_id_counter ∧
    (send_workload_request lib s workload p env).state.m_workload_id_counter
      ≤ s.m_workload_id_counter + 1 ∧
    ((send_workload_request lib s workload p env).id ≠ 0 →
      (send_workload_request lib s workload p env).id = s.m_workload_id_counter + 1 ∧
      (send_workload_request lib s workload p env).state.m_workload_id_counter
        = s.m_workload_id_counter + 1) := by
  have hid : add64 s.m_workload_id_counter 1 = s.m_workload_id_counter + 1 :=
    multipart_transfer.add64_of_lt hc
  unfold send_workload_request
  split
  · simp
  · split
    · simp
    · simp only [generate_workload_id, hid]
      split
      · simp
      · split
        · simp
        · split
          · simp
          · split
            · simp
            · simp

theorem mem_erase {reg : List (Nat × workload_callbacks)} {id : Nat}
    {e : Nat × workload_callbacks} (h : e ∈ erase reg id) : e ∈ reg :=
  (List.mem_filter.mp h).1

/-- No dispatch adds a registry entry or touches the id counter. -/
theorem handle_registry_subset {J : Type} (lib : json_lib J)
    (ends : Nat → J → callback_end) (s : ipc_state) (id : Nat)
    (status : Int) (message : List Nat) :
    (handle_workload_response lib ends s id status message).1.m_workload_id_counter
      = s.m_workload_id_counter ∧
    ∀ e ∈ (handle_workload_response lib ends s id status message).1.m_workload_callbacks,
      e ∈ s.m_workload_callbacks := by
  unfold handle_workload_response
  split
  · split
    · exact ⟨rfl, fun e he => he⟩
    · split
      · exact ⟨rfl, fun e he => mem_erase he⟩
      · split
        · exact ⟨rfl, fun e he => mem_erase he⟩
        · exact ⟨rfl, fun e he => he⟩
  · exact ⟨rfl, fun e he => he⟩

/-- One call keeps every registry key at most the id counter; the counter grows by at most
one, and a non-zero id returned by the call is the new counter value. -/
theorem step_counter {J : Type} (lib : json_lib J)
    (ends : Nat → J → callback_end) (s : ipc_state) (c : call J)
    (hc : s.m_workload_id_counter + 1 < u64_mod)
    (hreg : ∀ e ∈ s.m_workload_callbacks, e.1 ≤ s.m_workload_id_counter) :
    s.m_workload_id_counter ≤ (step lib ends s c).1.m_workload_id_counter ∧
    (step lib ends s c).1.m_workload_id_counter ≤ s.m_workload_id_counter + 1 ∧
    ((step lib ends s c).2 ≠ 0 → (step lib ends s c).2 = s.m_workload_id_counter + 1 ∧
      (step lib ends s c).1.m_workload_id_counter = s.m_workload_id_counter + 1) ∧
    (∀ e ∈ (step lib ends s c).1.m_workload_callbacks,
      e.1 ≤ (step lib ends s c).1.m_workload_id_counter) := by
  cases c with
  | set_socket fd =>
    simp only [step, set_socket]
    exact ⟨le_refl _, by omega, by simp, hreg⟩
  | send workload params env =>
    obtain ⟨h1, h2, h3, h4⟩ := send_workload_request_counter lib s workload params env hc
    simp only [step]
    refine ⟨h2, h3, h4, ?_⟩
    intro e he
    rw [h1] at he
    have := hreg e he
    omega
  | execute workload params cbs env =>
    obtain ⟨h1, h2, h3, h4⟩ := send_workload_request_counter lib s workload params env hc
    simp only [step, execute_workload]
    split
    · rename_i h0
      refine ⟨h2, h3, fun h => absurd h0 h, ?_⟩
      intro e he
      dsimp only at he ⊢
      rw [h1] at he
      have := hreg e he
      omega
    · rename_i h0
      obtain ⟨h5, h6⟩ := h4 h0
      refine ⟨h2, h3, fun _ => ⟨h5, h6⟩, ?_⟩
      intro e he
      simp only [List.mem_cons] at he
      rcases he with rfl | he
      · simp only; omega
      · have he2 := mem_erase he
        rw [h1] at he2
        have := hreg e he2
        dsimp only
        omega
  | handle workload_id status message =>
    obtain ⟨h1, h2⟩ := handle_registry_subset lib ends s workload_id status message
    simp only [step]
    refine ⟨by omega, by omega, by simp, ?_⟩
    intro e he
    have := hreg e (h2 e he)
    omega

/-- Invariant of a sequence of calls that does not exhaust the 64-bit counter: the ids of the
successful sends exceed the counter at the start and increase strictly, and at the end every
registry key is at most the counter, which has grown by at most the number of calls. -/
theorem run_counter {J : Type} (lib : json_lib J) (ends : Nat → J → callback_end) :
    ∀ (calls : List (call J)) (s : ipc_state),
      s.m_workload_id_counter + calls.length < u64_mod →
      (∀ e ∈ s.m_workload_callbacks, e.1 ≤ s.m_workload_id_counter) →
      (∀ id ∈ sent_ids lib ends s calls, s.m_workload_id_counter < id) ∧
      List.Pairwise (fun a b => a < b) (sent_ids lib ends s calls) ∧
      (run lib ends s calls).m_workload_id_counter ≤ s.m_workload_id_counter + calls.length ∧
      (∀ e ∈ (run lib ends s calls).m_workload_callbacks,
        e.1 ≤ (run lib ends s calls).m_workload_id_counter) := by
  intro calls
  induction calls with
  | nil =>
    intro s _ hreg
    simp only [sent_ids, run]
    exact ⟨by simp, List.Pairwise.nil, by simp, hreg⟩
  | cons c cs ih =>
    intro s hlen hreg
    simp only [List.length_cons] at hlen
    obtain ⟨h1, h2, h3, h4⟩ := step_counter lib ends s c (by omega) hreg
    obtain ⟨i1, i2, i3, i4⟩ := ih (step lib ends s c).1 (by omega) h4
    simp only [sent_ids, run, List.length_cons]
    refine ⟨?_, ?_, by omega, i4⟩
    · split
      · intro id hid
        have := i1 id hid
        omega
      · rename_i h0
        intro id hid
        rcases List.mem_cons.mp hid with rfl | hid
        · have := (h3 h0).1; omega
        · have := i1 id hid
          omega
    · split
      · exact i2
      · rename_i h0
        refine List.Pairwise.cons ?_ i2
        intro id hid
        have := i1 id hid
        have := h3 h0
        omega

theorem lookup_none_of_lt (reg : List (Nat × workload_callbacks)) (id : Nat)
    (h : ∀ e ∈ reg, e.1 < id) : reg.lookup id = none := by
  induction reg with
  | nil => rfl
  | cons e es ih =>
    have he := h e (List.mem_cons_self _ _)
    have hne : (id == e.1) = false := by simp; omega
    obtain ⟨k, v⟩ := e
    rw [List.lookup_cons]
    simp only at hne
    rw [hne]
    exact ih (fun x hx => h x (List.mem_cons_of_mem _ hx))

/-- C10: on an `ipc` object that starts with counter 0 and an empty registry, for every
sequence of fewer than 2^64 calls (adopting a socket, `send_workload_request`,
`execute_workload`, `handle_workload_response`), the ids returned by the successful sends are
strictly increasing and never 0, the first generated id is 1, and the id that a further
`execute_workload` call stores in the registry (the non-zero result of its
`send_workload_request`) is not the key of any entry that is still registered. -/
theorem workload_ids_increase {J : Type} (lib : json_lib J)
    (ends : Nat → J → callback_end) (socket_fd : Int)
    (calls : List (call J)) (hn : calls.length + 1 < u64_mod) :
    List.Pairwise (fun a b => a < b) (sent_ids lib ends (ipc_state.mk socket_fd 0 []) calls) ∧
    (∀ id ∈ sent_ids lib ends (ipc_state.mk socket_fd 0 []) calls, id ≠ 0) ∧
    (generate_workload_id (ipc_state.mk socket_fd 0 [])).2 = 1 ∧
    (∀ workload params env,
      (send_workload_request lib (run lib ends (ipc_state.mk socket_fd 0 []) calls) workload params
        env).id ≠ 0 →
      (run lib ends (ipc_state.mk socket_fd 0 []) calls).m_workload_callbacks.lookup
        (send_workload_request lib (run lib ends (ipc_state.mk socket_fd 0 []) calls) workload
          params env).id = none) := by
  obtain ⟨h1, h2, h3, h4⟩ := run_counter lib ends calls (ipc_state.mk socket_fd 0 [])
    (by simp only; omega) (by simp)
  refine ⟨h2, ?_, by simp [generate_workload_id, add64, u64_mod], ?_⟩
  · intro id hid
    have := h1 id hid
    omega
  · intro workload params env hne
    simp only [zero_add] at h3
    obtain ⟨_, _, _, h5⟩ := send_workload_request_counter lib
      (run lib ends (ipc_state.mk socket_fd 0 []) calls) workload params env (by omega)
    rw [(h5 hne).1]
    apply lookup_none_of_lt
    intro e he
    have := h4 e he
    omega

/-- Witness for `workload_ids_increase`: a socket is adopted, a workload is submitted, a send
fails after the id was generated, and another workload is submitted. -/
theorem workload_ids_increase_witness :
    sent_ids bytes_json always_returns (ipc_state.mk (-1) 0 [])
      [call.set_socket 3,
        call.execute workload_type.install_vm [1] (workload_callbacks.mk (some 10) none none)
          good_socket,
        call.send workload_type.stop_vm [2] (send_env.mk (some 0) (fun k => decide (k < 2))),
        call.execute workload_type.start_vm [3] (workload_callbacks.mk none none none)
          good_socket] = [1, 3] ∧
    List.Pairwise (fun a b => a < b) (sent_ids bytes_json always_returns (ipc_state.mk (-1) 0 [])
      [call.set_socket 3,
        call.execute workload_type.install_vm [1] (workload_callbacks.mk (some 10) none none)
          good_socket,
        call.send workload_type.stop_vm [2] (send_env.mk (some 0) (fun k => decide (k < 2))),
        call.execute workload_type.start_vm [3] (workload_callbacks.mk none none none)
          good_socket]) :=
  ⟨by decide,
    (workload_ids_increase bytes_json always_returns (-1)
      [call.set_socket 3,
        call.execute workload_type.install_vm [1] (workload_callbacks.mk (some 10) none none)
          good_socket,
        call.send workload_type.stop_vm [2] (send_env.mk (some 0) (fun k => decide (k < 2))),
        call.execute workload_type.start_vm [3] (workload_callbacks.mk none none none)
          good_socket] (by decide)).1⟩

theorem lookup_erase_of_ne (reg : List (Nat × workload_callbacks)) (id other : Nat)
    (h : other ≠ id) : (erase reg id).lookup other = reg.lookup other := by
  induction reg with
  | nil => rfl
  | cons e es ih =>
    obtain ⟨k, v⟩ := e
    unfold erase at *
    by_cases h1 : k = id
    · have h2 : (other == k) = false := by simp; omega
      rw [List.filter_cons_of_neg (by simp [h1]), List.lookup_cons, h2]
      exact ih
    · rw [List.filter_cons_of_pos (by simp [h1]), List.lookup_cons, List.lookup_cons, ih]

/-- The function `send_workload_request` never touches the callback registry. -/
theorem send_workload_request_registry {J : Type} (lib : json_lib J) (s : ipc_state)
    (workload : workload_type) (p : J) (env : send_env) :
    (send_workload_request lib s workload p env).state.m_workload_callbacks
      = s.m_workload_callbacks := by
  unfold send_workload_request
  split
  · rfl
  · split
    · rfl
    · simp only [generate_workload_id]
      split
      · rfl
      · split
        · rfl
        · split
          · rfl
          · split <;> rfl

/-- C11: if `send_workload_request` returns 0 (as it does when the socket is not connected),
`execute_workload` leaves the callback registry exactly as it was and the only callback call
is one call of `on_error` with the text "Failed to send workload request" when `on_error` is
non-null (no call at all when it is null); if it returns a non-zero id, no callback is called
and the registry is the old one with the entry for that id set to the given callbacks: the id
maps to them and every other key maps to what it mapped to before. -/
theorem execute_workload_registry {J : Type} (lib : json_lib J) (s : ipc_state)
    (workload : workload_type) (params : J) (cbs : workload_callbacks) (env : send_env) :
    (s.m_socket_fd = -1 → (send_workload_request lib s workload params env).id = 0) ∧
    ((send_workload_request lib s workload params env).id = 0 →
      (execute_workload lib s workload params cbs env).1.m_workload_callbacks
        = s.m_workload_callbacks ∧
      (execute_workload lib s workload params cbs env).2.2 =
        match cbs.on_error with
        | some fn => [callback_call.error fn (str "Failed to send workload request")]
        | none => []) ∧
    ((send_workload_request lib s workload params env).id ≠ 0 →
      (execute_workload lib s workload params cbs env).1.m_workload_callbacks
        = ((send_workload_request lib s workload params env).id, cbs) ::
          erase s.m_workload_callbacks (send_workload_request lib s workload params env).id ∧
      (execute_workload lib s workload params cbs env).1.m_workload_callbacks.lookup
        (send_workload_request lib s workload params env).id = some cbs ∧
      (∀ other, other ≠ (send_workload_request lib s workload params env).id →
        (execute_workload lib s workload params cbs env).1.m_workload_callbacks.lookup other
          = s.m_workload_callbacks.lookup other) ∧
      (execute_workload lib s workload params cbs env).2.2 = []) := by
  have hreg := send_workload_request_registry lib s workload params env
  refine ⟨?_, ?_, ?_⟩
  · intro hfd
    simp [send_workload_request, hfd]
  · intro h0
    simp only [execute_workload, h0, if_true, hreg, call_opt]
    exact ⟨trivial, trivial⟩
  · intro hne
    simp only [execute_workload, hne, if_false, hreg, List.lookup_cons, beq_self_eq_true]
    refine ⟨trivial, trivial, ?_, trivial⟩
    intro other ho
    have h2 : (other == (send_workload_request lib s workload params env).id) = false := by
      simp; exact ho
    rw [h2]
    exact lookup_erase_of_ne _ _ _ ho

/-- Witness for `execute_workload_registry`: a submission on an unconnected object, and one
on a connected object with a working socket. -/
theorem execute_workload_registry_witness :
    ((execute_workload bytes_json (ipc_state.mk (-1) 0 []) workload_type.start_vm [1]
        (workload_callbacks.mk (some 10) (some 11) (some 12)) good_socket).1.m_workload_callbacks
        = [] ∧
      (execute_workload bytes_json (ipc_state.mk (-1) 0 []) workload_type.start_vm [1]
        (workload_callbacks.mk (some 10) (some 11) (some 12)) good_socket).2.2
        = [callback_call.error 11 (str "Failed to send workload request")]) ∧
    ((execute_workload bytes_json (ipc_state.mk 3 0 []) workload_type.start_vm [1]
        (workload_callbacks.mk (some 10) (some 11) (some 12)) good_socket).1.m_workload_callbacks
        = [(1, workload_callbacks.mk (some 10) (some 11) (some 12))] ∧
      (execute_workload bytes_json (ipc_state.mk 3 0 []) workload_type.start_vm [1]
        (workload_callbacks.mk (some 10) (some 11) (some 12)) good_socket).2.2 = []) :=
  ⟨(execute_workload_registry bytes_json (ipc_state.mk (-1) 0 []) workload_type.start_vm [1]
      (workload_callbacks.mk (some 10) (some 11) (some 12)) good_socket).2.1 (by decide),
    by decide⟩

/-- C12 as stated fails when `on_complete` is null: the parse of the message happens inside
the guard `if (it->second.on_complete)` (line 439). For an entry with a null `on_complete` and a
non-null `on_error`, a completed response whose message does not parse calls no callback at
all; the entry is erased. -/
theorem completed_null_on_complete_counterexample :
    (ipc_state.mk 3 1 [(1, workload_callbacks.mk none (some 11) none)]).m_workload_callbacks.lookup
      1 = some (workload_callbacks.mk none (some 11) none) ∧
    bytes_json.parse [] = Except.error (str "empty") ∧
    (handle_workload_response bytes_json always_returns
      (ipc_state.mk 3 1 [(1, workload_callbacks.mk none (some 11) none)]) 1
      workload_status.completed.underlying []).2 = [] ∧
    (handle_workload_response bytes_json always_returns
      (ipc_state.mk 3 1 [(1, workload_callbacks.mk none (some 11) none)]) 1
      workload_status.completed.underlying []).1.m_workload_callbacks = [] :=
  ⟨by decide, rfl, by decide, by decide⟩

/-- The two halves of a completed dispatch for a registered id: the state with the entry
erased, and the calls made. -/
theorem handle_completed_eq {J : Type} (lib : json_lib J) (ends : Nat → J → callback_end)
    (s : ipc_state) (id : Nat) (cbs : workload_callbacks) (message : List Nat)
    (hreg : s.m_workload_callbacks.lookup id = some cbs) :
    handle_workload_response lib ends s id 2 message =
      ({ s with m_workload_callbacks := erase s.m_workload_callbacks id },
        match cbs.on_complete with
        | some fn =>
          match lib.parse message with
          | Except.ok result =>
            match ends fn result with
            | callback_end.returns => [callback_call.complete fn result]
            | callback_end.parse_error what =>
              callback_call.complete fn result ::
                call_opt callback_call.error cbs.on_error
                  (str "Failed to parse JSON result: " ++ what)
          | Except.error what =>
            call_opt callback_call.error cbs.on_error
              (str "Failed to parse JSON result: " ++ what)
        | none => []) := by
  simp [handle_workload_response, hreg]

/-- C12 (amended): for every registered workload id and every message,
`handle_workload_response` with status completed erases the registry entry of the id and
leaves every other entry as it was; when `on_complete` is non-null and the message parses,
the first call is `on_complete(result)`, and it is the only call when it returns normally;
when `on_complete` is non-null and the message does not parse, it calls `on_error` (if
non-null) with "Failed to parse JSON result: " followed by the parser's text and nothing else;
when `on_complete` is null it calls nothing, whether the message parses or not. -/
theorem handle_completed {J : Type} (lib : json_lib J) (ends : Nat → J → callback_end)
    (s : ipc_state) (id : Nat) (cbs : workload_callbacks) (message : List Nat)
    (hreg : s.m_workload_callbacks.lookup id = some cbs) :
    (handle_workload_response lib ends s id workload_status.completed.underlying message).1
      = { s with m_workload_callbacks := erase s.m_workload_callbacks id } ∧
    (handle_workload_response lib ends s id workload_status.completed.underlying
      message).1.m_workload_callbacks.lookup id = none ∧
    (∀ other, other ≠ id →
      (handle_workload_response lib ends s id workload_status.completed.underlying
        message).1.m_workload_callbacks.lookup other = s.m_workload_callbacks.lookup other) ∧
    (∀ fn result, cbs.on_complete = some fn → lib.parse message = Except.ok result →
      (handle_workload_response lib ends s id workload_status.completed.underlying
        message).2.head? = some (callback_call.complete fn result)) ∧
    (∀ fn result, cbs.on_complete = some fn → lib.parse message = Except.ok result →
      ends fn result = callback_end.returns →
      (handle_workload_response lib ends s id workload_status.completed.underlying message).2
        = [callback_call.complete fn result]) ∧
    (∀ fn what, cbs.on_complete = some fn → lib.parse message = Except.error what →
      (handle_workload_response lib ends s id workload_status.completed.underlying message).2
        = match cbs.on_error with
          | some g => [callback_call.error g (str "Failed to parse JSON result: " ++ what)]
          | none => []) ∧
    (cbs.on_complete = none →
      (handle_workload_response lib ends s id workload_status.completed.underlying message).2
        = []) := by
  have e : ((workload_status.completed.underlying : Nat) : Int) = 2 := rfl
  rw [e, handle_completed_eq lib ends s id cbs message hreg]
  refine ⟨rfl, lookup_erase_self _ _, fun other ho => lookup_erase_of_ne _ _ _ ho, ?_, ?_, ?_,
    ?_⟩
  · intro fn result h1 h2
    simp only [h1, h2]
    cases ends fn result <;> rfl
  · intro fn result h1 h2 h3
    simp only [h1, h2, h3]
  · intro fn what h1 h2
    simp only [h1, h2, call_opt]
  · intro h1
    simp only [h1]

/-- Witness for `handle_completed`: a completed response with a message that parses, and one
with a message that does not, for an entry with all three callbacks. -/
theorem handle_completed_witness :
    (handle_workload_response bytes_json always_returns
      (ipc_state.mk 3 1 [(1, workload_callbacks.mk (some 10) (some 11) (some 12))]) 1
      workload_status.completed.underlying [8]).2 = [callback_call.complete 10 [8]] ∧
    (handle_workload_response bytes_json always_returns
      (ipc_state.mk 3 1 [(1, workload_callbacks.mk (some 10) (some 11) (some 12))]) 1
      workload_status.completed.underlying []).2
      = [callback_call.error 11 (str "Failed to parse JSON result: " ++ str "empty")] :=
  ⟨(handle_completed bytes_json always_returns
      (ipc_state.mk 3 1 [(1, workload_callbacks.mk (some 10) (some 11) (some 12))]) 1
      (workload_callbacks.mk (some 10) (some 11) (some 12)) [8] rfl).2.2.2.2.1 10 [8] rfl rfl
      rfl,
    (handle_completed bytes_json always_returns
      (ipc_state.mk 3 1 [(1, workload_callbacks.mk (some 10) (some 11) (some 12))]) 1
      (workload_callbacks.mk (some 10) (some 11) (some 12)) [] rfl).2.2.2.2.2.1 10
      (str "empty") rfl rfl⟩

/-- C13: for every registered workload id and every message `m`, `handle_workload_response`
with status in-progress calls `on_progress(m)` if it is non-null and nothing else, and leaves
the object (so also the registry entry) unchanged; with status error it calls `on_error(m)` if
it is non-null and nothing else, erases the entry of the id and leaves every other entry as
it was. -/
theorem handle_progress_and_error {J : Type} (lib : json_lib J)
    (ends : Nat → J → callback_end) (s : ipc_state) (id : Nat)
    (cbs : workload_callbacks) (m : List Nat)
    (hreg : s.m_workload_callbacks.lookup id = some cbs) :
    (handle_workload_response lib ends s id workload_status.in_progress.underlying m
      = (s, match cbs.on_progress with
            | some fn => [callback_call.progress fn m]
            | none => [])) ∧
    (handle_workload_response lib ends s id workload_status.in_progress.underlying
      m).1.m_workload_callbacks.lookup id = some cbs ∧
    (handle_workload_response lib ends s id workload_status.error.underlying m
      = ({ s with m_workload_callbacks := erase s.m_workload_callbacks id },
          match cbs.on_error with
          | some fn => [callback_call.error fn m]
          | none => [])) ∧
    (handle_workload_response lib ends s id workload_status.error.underlying
      m).1.m_workload_callbacks.lookup id = none ∧
    (∀ other, other ≠ id →
      (handle_workload_response lib ends s id workload_status.error.underlying
        m).1.m_workload_callbacks.lookup other = s.m_workload_callbacks.lookup other) := by
  have e0 : ((workload_status.in_progress.underlying : Nat) : Int) = 0 := rfl
  have e1 : ((workload_status.error.underlying : Nat) : Int) = 1 := rfl
  have h0 : handle_workload_response lib ends s id 0 m
      = (s, match cbs.on_progress with
            | some fn => [callback_call.progress fn m]
            | none => []) := by
    simp only [handle_workload_response, hreg, if_true, call_opt]
  have h1 : handle_workload_response lib ends s id 1 m
      = ({ s with m_workload_callbacks := erase s.m_workload_callbacks id },
          match cbs.on_error with
          | some fn => [callback_call.error fn m]
          | none => []) := by
    simp [handle_workload_response, hreg, call_opt]
  rw [e0, e1, h0, h1]
  exact ⟨rfl, hreg, rfl, lookup_erase_self _ _, fun other ho => lookup_erase_of_ne _ _ _ ho⟩

/-- Witness for `handle_progress_and_error`: a progress frame and an error frame for an entry
with all three callbacks. -/
theorem handle_progress_and_error_witness :
    handle_workload_response bytes_json always_returns
      (ipc_state.mk 3 1 [(1, workload_callbacks.mk (some 10) (some 11) (some 12))]) 1
      workload_status.in_progress.underlying [7]
      = (ipc_state.mk 3 1 [(1, workload_callbacks.mk (some 10) (some 11) (some 12))],
          [callback_call.progress 12 [7]]) :=
  (handle_progress_and_error bytes_json always_returns
    (ipc_state.mk 3 1 [(1, workload_callbacks.mk (some 10) (some 11) (some 12))]) 1
    (workload_callbacks.mk (some 10) (some 11) (some 12)) [7] rfl).1

/-- Every callback called by a dispatch for a registered id is one of the callbacks of its
registry entry. -/
theorem handle_calls_owned {J : Type} (lib : json_lib J)
    (ends : Nat → J → callback_end) (s : ipc_state) (id : Nat)
    (cbs : workload_callbacks) (status : Int) (message : List Nat)
    (hreg : s.m_workload_callbacks.lookup id = some cbs) :
    ∀ c ∈ (handle_workload_response lib ends s id status message).2, cbs.owns c.fn := by
  intro c hc
  unfold handle_workload_response at hc
  rw [hreg] at hc
  simp only at hc
  split at hc
  · cases hp : cbs.on_progress with
    | none => simp [call_opt, hp] at hc
    | some fn =>
      simp only [call_opt, hp, List.mem_singleton] at hc
      subst hc
      exact Or.inr (Or.inr hp)
  · split at hc
    · cases hcomp : cbs.on_complete with
      | none => simp [hcomp] at hc
      | some fn =>
        simp only [hcomp] at hc
        cases hparse : lib.parse message with
        | ok result =>
          simp only [hparse] at hc
          cases hend : ends fn result with
          | returns =>
            simp only [hend, List.mem_singleton] at hc
            subst hc
            exact Or.inl hcomp
          | parse_error what =>
            simp only [hend, List.mem_cons] at hc
            rcases hc with rfl | hc
            · exact Or.inl hcomp
            · cases he : cbs.on_error with
              | none => simp [call_opt, he] at hc
              | some g =>
                simp only [call_opt, he, List.mem_singleton] at hc
                subst hc
                exact Or.inr (Or.inl he)
        | error what =>
          simp only [hparse] at hc
          cases he : cbs.on_error with
          | none => simp [call_opt, he] at hc
          | some g =>
            simp only [call_opt, he, List.mem_singleton] at hc
            subst hc
            exact Or.inr (Or.inl he)
    · split at hc
      · cases he : cbs.on_error with
        | none => simp [call_opt, he] at hc
        | some g =>
          simp only [call_opt, he, List.mem_singleton] at hc
          subst hc
          exact Or.inr (Or.inl he)
      · simp at hc

/-- No dispatch for id `x` changes what another id maps to. -/
theorem handle_keeps_others {J : Type} (lib : json_lib J)
    (ends : Nat → J → callback_end) (s : ipc_state) (x y : Nat)
    (status : Int) (message : List Nat) (hne : y ≠ x) :
    (handle_workload_response lib ends s x status message).1.m_workload_callbacks.lookup y
      = s.m_workload_callbacks.lookup y := by
  unfold handle_workload_response
  split
  · split
    · rfl
    · split
      · exact lookup_erase_of_ne _ _ _ hne
      · split
        · exact lookup_erase_of_ne _ _ _ hne
        · rfl
  · rfl

/-- C14: for every workload id `x` that is not a key of the callback registry, and every
status and message, `handle_workload_response` calls no callback and leaves the object
unchanged. For every `x`, a dispatch for `x` leaves what every other id `y` maps to unchanged
(no entry of `y` is added, changed or removed), every callback it calls is one of the three
callbacks of the entry of `x`, and a callback that is registered under `y` and not under `x`
is not called. -/
theorem handle_other_ids {J : Type} (lib : json_lib J)
    (ends : Nat → J → callback_end) (s : ipc_state) (x : Nat)
    (status : Int) (message : List Nat) :
    (s.m_workload_callbacks.lookup x = none →
      handle_workload_response lib ends s x status message = (s, [])) ∧
    (∀ y, y ≠ x →
      (handle_workload_response lib ends s x status message).1.m_workload_callbacks.lookup y
        = s.m_workload_callbacks.lookup y) ∧
    (∀ c ∈ (handle_workload_response lib ends s x status message).2,
      ∃ cx, s.m_workload_callbacks.lookup x = some cx ∧ cx.owns c.fn) ∧
    (∀ y cy fn, y ≠ x → s.m_workload_callbacks.lookup y = some cy → cy.owns fn →
      (∀ cx, s.m_workload_callbacks.lookup x = some cx → ¬ cx.owns fn) →
      ∀ c ∈ (handle_workload_response lib ends s x status message).2, c.fn ≠ fn) := by
  have owned : ∀ c ∈ (handle_workload_response lib ends s x status message).2,
      ∃ cx, s.m_workload_callbacks.lookup x = some cx ∧ cx.owns c.fn := by
    intro c hc
    cases hlk : s.m_workload_callbacks.lookup x with
    | none =>
      rw [handle_unregistered lib ends s x status message hlk] at hc
      simp at hc
    | some cx => exact ⟨cx, rfl, handle_calls_owned lib ends s x cx status message hlk c hc⟩
  refine ⟨handle_unregistered lib ends s x status message,
    fun y hy => handle_keeps_others lib ends s x y status message hy, owned, ?_⟩
  intro y cy fn _ _ _ hnot c hc hfn
  obtain ⟨cx, hcx, hown⟩ := owned c hc
  rw [hfn] at hown
  exact hnot cx hcx hown

/-- Witness for `handle_other_ids`: an error frame for the unknown id 5 and one for the
registered id 1, next to an entry for id 2. -/
theorem handle_other_ids_witness :
    handle_workload_response bytes_json always_returns
      (ipc_state.mk 3 2 [(1, workload_callbacks.mk (some 10) (some 11) (some 12)),
        (2, workload_callbacks.mk (some 20) (some 21) (some 22))]) 5 1 [9]
      = (ipc_state.mk 3 2 [(1, workload_callbacks.mk (some 10) (some 11) (some 12)),
        (2, workload_callbacks.mk (some 20) (some 21) (some 22))], []) ∧
    (handle_workload_response bytes_json always_returns
      (ipc_state.mk 3 2 [(1, workload_callbacks.mk (some 10) (some 11) (some 12)),
        (2, workload_callbacks.mk (some 20) (some 21) (some 22))]) 1 1
      [9]).1.m_workload_callbacks.lookup 2
      = some (workload_callbacks.mk (some 20) (some 21) (some 22)) :=
  ⟨(handle_other_ids bytes_json always_returns
      (ipc_state.mk 3 2 [(1, workload_callbacks.mk (some 10) (some 11) (some 12)),
        (2, workload_callbacks.mk (some 20) (some 21) (some 22))]) 5 1 [9]).1 rfl,
    by decide⟩

end ipc

namespace worker

/-- Responses of the required shape end with a terminal response, and only in-progress
responses come before it. -/
theorem progress_then_terminal_spec (workload_id : Nat) :
    ∀ sent : List sent_response, progress_then_terminal workload_id sent = true →
      ∃ progress last, sent = progress ++ [last] ∧ last.workload_id = workload_id ∧
        (last.status = ipc.workload_status.completed ∨ last.status = ipc.workload_status.error) ∧
        ∀ r ∈ progress, r.workload_id = workload_id ∧
          r.status = ipc.workload_status.in_progress := by
  intro sent
  induction sent with
  | nil => intro h; simp [progress_then_terminal] at h
  | cons r rest ih =>
    intro h
    cases rest with
    | nil =>
      simp only [progress_then_terminal, Bool.and_eq_true, beq_iff_eq, bne_iff_ne, ne_eq] at h
      refine ⟨[], r, rfl, h.1, ?_, by simp⟩
      cases hs : r.status with
      | in_progress => exact absurd hs h.2
      | error => exact Or.inr rfl
      | completed => exact Or.inl rfl
    | cons r2 rest2 =>
      simp only [progress_then_terminal, Bool.and_eq_true, beq_iff_eq] at h
      obtain ⟨progress, last, h1, h2, h3, h4⟩ := ih h.2
      refine ⟨r :: progress, last, by rw [h1]; rfl, h2, h3, ?_⟩
      intro x hx
      rcases List.mem_cons.mp hx with rfl | hx
      · exact h.1
      · exact h4 x hx

/-- An in-progress response in front of code of the required shape keeps the shape. -/
theorem shape_progress (workload_id : Nat) (message : String) (rest : handler_run)
    (h : rest.thrown = false → progress_then_terminal workload_id rest.sent = true) :
    (respond workload_id ipc.workload_status.in_progress message rest).thrown = false →
      progress_then_terminal workload_id
        (respond workload_id ipc.workload_status.in_progress message rest).sent = true := by
  intro ht
  have hr := h ht
  cases hs : rest.sent with
  | nil => rw [hs] at hr; simp [progress_then_terminal] at hr
  | cons r2 rest2 =>
    rw [hs] at hr
    simp only [respond, hs, progress_then_terminal, Bool.and_eq_true, beq_iff_eq]
    exact ⟨⟨trivial, trivial⟩, hr⟩

/-- An error response followed by `return` has the required shape. -/
theorem shape_error (workload_id : Nat) (message : String) :
    (respond workload_id ipc.workload_status.error message finished).thrown = false →
      progress_then_terminal workload_id
        (respond workload_id ipc.workload_status.error message finished).sent = true := by
  intro _
  simp [respond, finished, progress_then_terminal]

/-- A completed response followed by `return` has the required shape. -/
theorem shape_completed (workload_id : Nat) (message : String) :
    (respond workload_id ipc.workload_status.completed message finished).thrown = false →
      progress_then_terminal workload_id
        (respond workload_id ipc.workload_status.completed message finished).sent = true := by
  intro _
  simp [respond, finished, progress_then_terminal]

/-- A collaborator call in front of code of the required shape keeps the shape: if the call
throws, the run is not one that returns. -/
theorem shape_attempt {α : Type} (workload_id : Nat) (result : Option α)
    (rest : α → handler_run)
    (h : ∀ a, (rest a).thrown = false →
      progress_then_terminal workload_id (rest a).sent = true) :
    (attempt result rest).thrown = false →
      progress_then_terminal workload_id (attempt result rest).sent = true := by
  cases result with
  | none => intro ht; simp [attempt, raised] at ht
  | some a => exact h a

/-- A branch between two pieces of code of the required shape has the shape. -/
theorem shape_ite (workload_id : Nat) (p : Prop) [Decidable p] (a b : handler_run)
    (ha : p → a.thrown = false → progress_then_terminal workload_id a.sent = true)
    (hb : ¬ p → b.thrown = false → progress_then_terminal workload_id b.sent = true) :
    (if p then a else b).thrown = false →
      progress_then_terminal workload_id (if p then a else b).sent = true := by
  by_cases hp : p
  · rw [if_pos hp]; exact ha hp
  · rw [if_neg hp]; exact hb hp

/-- The monitoring loop followed by code of the required shape has the shape. -/
theorem monitor_loop_shape {J : Type} (c : collaborators J) (workload_id : Nat)
    (vm_name : String) :
    ∀ (fuel : Nat) (installation_complete : Bool) (check_count : Nat)
      (after : Nat → handler_run),
      (∀ n, (after n).thrown = false →
        progress_then_terminal workload_id (after n).sent = true) →
      (monitor_loop c workload_id vm_name fuel installation_complete check_count after).thrown
          = false →
        progress_then_terminal workload_id
          (monitor_loop c workload_id vm_name fuel installation_complete check_count
            after).sent = true := by
  intro fuel
  induction fuel with
  | zero => intro ic cc after h; exact h cc
  | succ fuel ih =>
    intro ic cc after h
    unfold monitor_loop
    repeat (first
      | exact shape_error _ _
      | exact h _
      | exact ih _ _ _ h
      | apply shape_progress
      | (apply shape_attempt; intro _)
      | split)

/-- The monitoring of the installation followed by a success path of the required shape has
the shape. -/
theorem monitor_installation_shape {J : Type} (c : collaborators J) (workload_id : Nat)
    (vm_name : String) (success_path : Nat → handler_run)
    (h : ∀ n, (success_path n).thrown = false →
      progress_then_terminal workload_id (success_path n).sent = true) :
    (monitor_installation c workload_id vm_name success_path).thrown = false →
      progress_then_terminal workload_id
        (monitor_installation c workload_id vm_name success_path).sent = true := by
  unfold monitor_installation
  apply monitor_loop_shape
  intro n
  split
  · exact shape_error _ _
  · exact h n

/-- A run of `check_installed_apps` that returns has sent in-progress responses followed by one
terminal response. -/
theorem check_installed_apps_shape {J : Type} (c : collaborators J) (workload_id : Nat) (params : J) :
    (check_installed_apps c workload_id params).thrown = false →
      progress_then_terminal workload_id (check_installed_apps c workload_id params).sent = true := by
  unfold check_installed_apps
  apply shape_progress
  exact shape_completed _ _

/-- A run of `scan_wim_versions` that returns has sent in-progress responses followed by one
terminal response. -/
theorem scan_wim_versions_shape {J : Type} (c : collaborators J) (workload_id : Nat) (params : J) :
    (scan_wim_versions c workload_id params).thrown = false →
      progress_then_terminal workload_id (scan_wim_versions c workload_id params).sent = true := by
  unfold scan_wim_versions
  repeat (first
    | exact shape_error _ _
    | exact shape_completed _ _
    | apply shape_progress
    | (apply shape_attempt; intro _)
    | (apply shape_ite <;> intro _)
    | dsimp only)

/-- A run of `install_vm` that returns has sent in-progress responses followed by one
terminal response. -/
theorem install_vm_shape {J : Type} (c : collaborators J) (workload_id : Nat) (params : J) :
    (install_vm c workload_id params).thrown = false →
      progress_then_terminal workload_id (install_vm c workload_id params).sent = true := by
  unfold install_vm
  iterate 10 (apply shape_attempt; intro _)
  apply shape_ite <;> intro _
  · exact shape_error _ _
  apply shape_ite <;> intro _
  · exact shape_error _ _
  apply shape_progress
  apply shape_attempt; intro _
  apply shape_ite <;> intro _
  · exact shape_error _ _
  apply shape_progress
  apply shape_attempt; intro _
  apply shape_ite <;> intro _
  · apply shape_attempt; intro _
    exact shape_error _ _
  apply shape_attempt; intro _
  apply shape_ite <;> intro _
  · exact shape_error _ _
  apply shape_progress
  apply shape_attempt; intro _
  apply shape_ite <;> intro _
  · exact shape_error _ _
  apply shape_ite <;> intro _
  · exact shape_error _ _
  apply shape_ite <;> intro _
  · exact shape_error _ _
  apply shape_progress
  apply shape_attempt; intro _
  apply shape_ite <;> intro _
  · exact shape_error _ _
  apply shape_progress
  apply shape_attempt; intro _
  apply shape_ite <;> intro _
  · exact shape_error _ _
  apply shape_progress
  apply monitor_installation_shape; intro _
  apply shape_progress
  apply shape_attempt; intro _
  apply shape_ite <;> intro _
  · exact shape_error _ _
  apply shape_progress
  apply shape_attempt; intro _
  exact shape_completed _ _

/-- A run of `get_vm_status` that returns has sent in-progress responses followed by one
terminal response. -/
theorem get_vm_status_shape {J : Type} (c : collaborators J) (workload_id : Nat) (params : J) :
    (get_vm_status c workload_id params).thrown = false →
      progress_then_terminal workload_id (get_vm_status c workload_id params).sent = true := by
  unfold get_vm_status
  repeat (first
    | exact shape_error _ _
    | exact shape_completed _ _
    | apply shape_progress
    | (apply shape_attempt; intro _)
    | (apply shape_ite <;> intro _))

/-- A run of `start_vm` that returns has sent in-progress responses followed by one
terminal response. -/
theorem start_vm_shape {J : Type} (c : collaborators J) (workload_id : Nat) (params : J) :
    (start_vm c workload_id params).thrown = false →
      progress_then_terminal workload_id (start_vm c workload_id params).sent = true := by
  unfold start_vm
  repeat (first
    | exact shape_error _ _
    | exact shape_completed _ _
    | apply shape_progress
    | (apply shape_attempt; intro _)
    | (apply shape_ite <;> intro _))

/-- A run of `stop_vm` that returns has sent in-progress responses followed by one
terminal response. -/
theorem stop_vm_shape {J : Type} (c : collaborators J) (workload_id : Nat) (params : J) :
    (stop_vm c workload_id params).thrown = false →
      progress_then_terminal workload_id (stop_vm c workload_id params).sent = true := by
  unfold stop_vm
  repeat (first
    | exact shape_error _ _
    | exact shape_completed _ _
    | apply shape_progress
    | (apply shape_attempt; intro _)
    | (apply shape_ite <;> intro _))

/-- A run of `remove_vm` that returns has sent in-progress responses followed by one
terminal response. -/
theorem remove_vm_shape {J : Type} (c : collaborators J) (workload_id : Nat) (params : J) :
    (remove_vm c workload_id params).thrown = false →
      progress_then_terminal workload_id (remove_vm c workload_id params).sent = true := by
  unfold remove_vm
  repeat (first
    | exact shape_error _ _
    | exact shape_completed _ _
    | apply shape_progress
    | (apply shape_attempt; intro _)
    | (apply shape_ite <;> intro _))

/-- Responses that are all in progress for `workload_id`, spelled out. -/
theorem all_in_progress_spec (workload_id : Nat) (sent : List sent_response)
    (h : all_in_progress workload_id sent = true) :
    ∀ r ∈ sent, r.workload_id = workload_id ∧ r.status = ipc.workload_status.in_progress := by
  intro r hr
  simp only [all_in_progress, List.all_eq_true, Bool.and_eq_true, beq_iff_eq] at h
  exact h r hr

/-- An in-progress response in front of code that has sent only in-progress responses when
it throws. -/
theorem interrupted_progress (workload_id : Nat) (message : String) (rest : handler_run)
    (h : rest.thrown = true → all_in_progress workload_id rest.sent = true) :
    (respond workload_id ipc.workload_status.in_progress message rest).thrown = true →
      all_in_progress workload_id
        (respond workload_id ipc.workload_status.in_progress message rest).sent = true := by
  intro ht
  have hr := h ht
  simp only [all_in_progress, List.all_eq_true, Bool.and_eq_true, beq_iff_eq] at hr ⊢
  intro r hmem
  rcases List.mem_cons.mp hmem with rfl | hmem
  · exact ⟨rfl, rfl⟩
  · exact hr r hmem

/-- A response followed by `return` does not throw. -/
theorem interrupted_terminal (workload_id : Nat) (status : ipc.workload_status)
    (message : String) :
    (respond workload_id status message finished).thrown = true →
      all_in_progress workload_id (respond workload_id status message finished).sent = true := by
  intro ht
  simp [respond, finished] at ht

/-- A collaborator call that throws has sent nothing itself. -/
theorem interrupted_attempt {α : Type} (workload_id : Nat) (result : Option α)
    (rest : α → handler_run)
    (h : ∀ a, (rest a).thrown = true → all_in_progress workload_id (rest a).sent = true) :
    (attempt result rest).thrown = true →
      all_in_progress workload_id (attempt result rest).sent = true := by
  cases result with
  | none => intro _; rfl
  | some a => exact h a

/-- A branch between two pieces of code that have sent only in-progress responses when
they throw. -/
theorem interrupted_ite (workload_id : Nat) (p : Prop) [Decidable p] (a b : handler_run)
    (ha : p → a.thrown = true → all_in_progress workload_id a.sent = true)
    (hb : ¬ p → b.thrown = true → all_in_progress workload_id b.sent = true) :
    (if p then a else b).thrown = true →
      all_in_progress workload_id (if p then a else b).sent = true := by
  by_cases hp : p
  · rw [if_pos hp]; exact ha hp
  · rw [if_neg hp]; exact hb hp

/-- The monitoring loop that ends with an exception has sent only in-progress responses. -/
theorem monitor_loop_interrupted {J : Type} (c : collaborators J) (workload_id : Nat)
    (vm_name : String) :
    ∀ (fuel : Nat) (installation_complete : Bool) (check_count : Nat)
      (after : Nat → handler_run),
      (∀ n, (after n).thrown = true →
        all_in_progress workload_id (after n).sent = true) →
      (monitor_loop c workload_id vm_name fuel installation_complete check_count after).thrown
          = true →
        all_in_progress workload_id
          (monitor_loop c workload_id vm_name fuel installation_complete check_count
            after).sent = true := by
  intro fuel
  induction fuel with
  | zero => intro ic cc after h; exact h cc
  | succ fuel ih =>
    intro ic cc after h
    unfold monitor_loop
    repeat (first
      | exact interrupted_terminal _ _ _
      | exact h _
      | exact ih _ _ _ h
      | apply interrupted_progress
      | (apply interrupted_attempt; intro _)
      | split)

/-- A run of `monitor_installation` that ends with an exception has sent only in-progress
responses. -/
theorem monitor_installation_interrupted {J : Type} (c : collaborators J) (workload_id : Nat)
    (vm_name : String) (success_path : Nat → handler_run)
    (h : ∀ n, (success_path n).thrown = true →
      all_in_progress workload_id (success_path n).sent = true) :
    (monitor_installation c workload_id vm_name success_path).thrown = true →
      all_in_progress workload_id
        (monitor_installation c workload_id vm_name success_path).sent = true := by
  unfold monitor_installation
  apply monitor_loop_interrupted
  intro n
  split
  · exact interrupted_terminal _ _ _
  · exact h n

/-- A run of `check_installed_apps` that ends with an exception has sent only in-progress
responses. -/
theorem check_installed_apps_interrupted {J : Type} (c : collaborators J) (workload_id : Nat)
    (params : J) :
    (check_installed_apps c workload_id params).thrown = true →
      all_in_progress workload_id (check_installed_apps c workload_id params).sent = true := by
  unfold check_installed_apps
  apply interrupted_progress
  exact interrupted_terminal _ _ _

/-- A run of `scan_wim_versions` that ends with an exception has sent only in-progress
responses. -/
theorem scan_wim_versions_interrupted {J : Type} (c : collaborators J) (workload_id : Nat)
    (params : J) :
    (scan_wim_versions c workload_id params).thrown = true →
      all_in_progress workload_id (scan_wim_versions c workload_id params).sent = true := by
  unfold scan_wim_versions
  repeat (first
    | exact interrupted_terminal _ _ _
    | apply interrupted_progress
    | (apply interrupted_attempt; intro _)
    | (apply interrupted_ite <;> intro _)
    | dsimp only)

/-- A run of `install_vm` that ends with an exception has sent only in-progress
responses. -/
theorem install_vm_interrupted {J : Type} (c : collaborators J) (workload_id : Nat)
    (params : J) :
    (install_vm c workload_id params).thrown = true →
      all_in_progress workload_id (install_vm c workload_id params).sent = true := by
  unfold install_vm
  iterate 10 (apply interrupted_attempt; intro _)
  apply interrupted_ite <;> intro _
  · exact interrupted_terminal _ _ _
  apply interrupted_ite <;> intro _
  · exact interrupted_terminal _ _ _
  apply interrupted_progress
  apply interrupted_attempt; intro _
  apply interrupted_ite <;> intro _
  · exact interrupted_terminal _ _ _
  apply interrupted_progress
  apply interrupted_attempt; intro _
  apply interrupted_ite <;> intro _
  · apply interrupted_attempt; intro _
    exact interrupted_terminal _ _ _
  apply interrupted_attempt; intro _
  apply interrupted_ite <;> intro _
  · exact interrupted_terminal _ _ _
  apply interrupted_progress
  apply interrupted_attempt; intro _
  apply interrupted_ite <;> intro _
  · exact interrupted_terminal _ _ _
  apply interrupted_ite <;> intro _
  · exact interrupted_terminal _ _ _
  apply interrupted_ite <;> intro _
  · exact interrupted_terminal _ _ _
  apply interrupted_progress
  apply interrupted_attempt; intro _
  apply interrupted_ite <;> intro _
  · exact interrupted_terminal _ _ _
  apply interrupted_progress
  apply interrupted_attempt; intro _
  apply interrupted_ite <;> intro _
  · exact interrupted_terminal _ _ _
  apply interrupted_progress
  apply monitor_installation_interrupted; intro _
  apply interrupted_progress
  apply interrupted_attempt; intro _
  apply interrupted_ite <;> intro _
  · exact interrupted_terminal _ _ _
  apply interrupted_progress
  apply interrupted_attempt; intro _
  exact interrupted_terminal _ _ _

/-- A run of `get_vm_status` that ends with an exception has sent only in-progress
responses. -/
theorem get_vm_status_interrupted {J : Type} (c : collaborators J) (workload_id : Nat)
    (params : J) :
    (get_vm_status c workload_id params).thrown = true →
      all_in_progress workload_id (get_vm_status c workload_id params).sent = true := by
  unfold get_vm_status
  repeat (first
    | exact interrupted_terminal _ _ _
    | apply interrupted_progress
    | (apply interrupted_attempt; intro _)
    | (apply interrupted_ite <;> intro _))

/-- A run of `start_vm` that ends with an exception has sent only in-progress
responses. -/
theorem start_vm_interrupted {J : Type} (c : collaborators J) (workload_id : Nat)
    (params : J) :
    (start_vm c workload_id params).thrown = true →
      all_in_progress workload_id (start_vm c workload_id params).sent = true := by
  unfold start_vm
  repeat (first
    | exact interrupted_terminal _ _ _
    | apply interrupted_progress
    | (apply interrupted_attempt; intro _)
    | (apply interrupted_ite <;> intro _))

/-- A run of `stop_vm` that ends with an exception has sent only in-progress
responses. -/
theorem stop_vm_interrupted {J : Type} (c : collaborators J) (workload_id : Nat)
    (params : J) :
    (stop_vm c workload_id params).thrown = true →
      all_in_progress workload_id (stop_vm c workload_id params).sent = true := by
  unfold stop_vm
  repeat (first
    | exact interrupted_terminal _ _ _
    | apply interrupted_progress
    | (apply interrupted_attempt; intro _)
    | (apply interrupted_ite <;> intro _))

/-- A run of `remove_vm` that ends with an exception has sent only in-progress
responses. -/
theorem remove_vm_interrupted {J : Type} (c : collaborators J) (workload_id : Nat)
    (params : J) :
    (remove_vm c workload_id params).thrown = true →
      all_in_progress workload_id (remove_vm c workload_id params).sent = true := by
  unfold remove_vm
  repeat (first
    | exact interrupted_terminal _ _ _
    | apply interrupted_progress
    | (apply interrupted_attempt; intro _)
    | (apply interrupted_ite <;> intro _))

/-- A response in front of code that returns returns. -/
theorem returns_respond (workload_id : Nat) (status : ipc.workload_status) (message : String)
    (rest : handler_run) (h : rest.thrown = false) :
    (respond workload_id status message rest).thrown = false := h

/-- A collaborator call that returns, in front of code that returns, returns. -/
theorem returns_attempt {α : Type} (result : Option α) (rest : α → handler_run)
    (hres : result ≠ none) (h : ∀ a, (rest a).thrown = false) :
    (attempt result rest).thrown = false := by
  cases result with
  | none => exact absurd rfl hres
  | some a => exact h a

/-- A branch between two pieces of code that return returns. -/
theorem returns_ite (p : Prop) [Decidable p] (a b : handler_run)
    (ha : p → a.thrown = false) (hb : ¬ p → b.thrown = false) :
    (if p then a else b).thrown = false := by
  by_cases hp : p
  · rw [if_pos hp]; exact ha hp
  · rw [if_neg hp]; exact hb hp

/-- The monitoring loop returns when no collaborator call throws and the code after it
returns. -/
theorem monitor_loop_returns {J : Type} (c : collaborators J) (hc : calls_return c)
    (workload_id : Nat) (vm_name : String) :
    ∀ (fuel : Nat) (installation_complete : Bool) (check_count : Nat)
      (after : Nat → handler_run),
      (∀ n, (after n).thrown = false) →
      (monitor_loop c workload_id vm_name fuel installation_complete check_count after).thrown
          = false := by
  intro fuel
  induction fuel with
  | zero => intro ic cc after h; exact h cc
  | succ fuel ih =>
    intro ic cc after h
    unfold monitor_loop
    apply returns_ite <;> intro _
    · apply returns_attempt _ _ (hc.get_vm_info _ _); intro vm_info
      apply returns_ite <;> intro hcontains
      · apply returns_attempt _ _ (hc.get_string _ _ hcontains); intro _
        rfl
      · apply returns_attempt _ _ (hc.value_string _ _ _); intro _
        apply returns_ite <;> intro _
        · apply returns_respond
          apply returns_ite <;> intro _
          · exact ih _ _ _ h
          · apply returns_ite <;> intro _
            · exact ih _ _ _ h
            · rfl
        · apply returns_ite <;> intro _
          · exact ih _ _ _ h
          · apply returns_ite <;> intro _
            · exact ih _ _ _ h
            · rfl
    · exact h _

/-- The monitoring of the installation returns when no collaborator call throws and the
success path returns. -/
theorem monitor_installation_returns {J : Type} (c : collaborators J) (hc : calls_return c)
    (workload_id : Nat) (vm_name : String) (success_path : Nat → handler_run)
    (h : ∀ n, (success_path n).thrown = false) :
    (monitor_installation c workload_id vm_name success_path).thrown = false := by
  unfold monitor_installation
  apply monitor_loop_returns c hc
  intro n
  apply returns_ite <;> intro _
  · rfl
  · exact h n

/-- A run of `check_installed_apps` returns when no collaborator call throws. -/
theorem check_installed_apps_returns {J : Type} (c : collaborators J) (workload_id : Nat)
    (params : J) : (check_installed_apps c workload_id params).thrown = false := rfl

/-- A run of `scan_wim_versions` returns when no collaborator call throws. -/
theorem scan_wim_versions_returns {J : Type} (c : collaborators J) (hc : calls_return c)
    (workload_id : Nat) (params : J) :
    (scan_wim_versions c workload_id params).thrown = false := by
  unfold scan_wim_versions
  apply returns_attempt _ _ (hc.dump _); intro _
  apply returns_attempt _ _ (hc.value_string _ _ _); intro _
  apply returns_ite <;> intro _
  · rfl
  apply returns_respond
  apply returns_ite <;> intro _
  · rfl
  apply returns_attempt _ _ (hc.file_exists _); intro _
  apply returns_ite <;> intro _
  · rfl
  apply returns_ite <;> intro _
  · rfl
  apply returns_ite <;> intro _
  · rfl
  apply returns_attempt _ _ (hc.dump_object _); intro _
  rfl

/-- A run of `install_vm` returns when no collaborator call throws. -/
theorem install_vm_returns {J : Type} (c : collaborators J) (hc : calls_return c)
    (workload_id : Nat) (params : J) :
    (install_vm c workload_id params).thrown = false := by
  unfold install_vm
  apply returns_attempt _ _ (hc.dump _); intro _
  iterate 5 (apply returns_attempt _ _ (hc.value_string _ _ _); intro _)
  iterate 3 (apply returns_attempt _ _ (hc.value_int _ _ _); intro _)
  apply returns_attempt _ _ (hc.value_bool _ _ _); intro _
  apply returns_ite <;> intro _
  · rfl
  apply returns_ite <;> intro _
  · rfl
  apply returns_respond
  apply returns_attempt _ _ hc.connect; intro _
  apply returns_ite <;> intro _
  · rfl
  apply returns_respond
  apply returns_attempt _ _ (hc.ensure_network_available _); intro _
  apply returns_ite <;> intro _
  · apply returns_attempt _ _ (hc.get_network_diagnostics _); intro _
    rfl
  apply returns_attempt _ _ (hc.vm_exists _); intro _
  apply returns_ite <;> intro _
  · rfl
  apply returns_respond
  apply returns_attempt _ _ (hc.generate_autounattend _); intro _
  apply returns_ite <;> intro _
  · rfl
  apply returns_ite <;> intro _
  · rfl
  apply returns_ite <;> intro _
  · rfl
  apply returns_respond
  apply returns_attempt _ _ (hc.create_vm _); intro _
  apply returns_ite <;> intro _
  · rfl
  apply returns_respond
  apply returns_attempt _ _ (hc.start_vm _ _); intro _
  apply returns_ite <;> intro _
  · rfl
  apply returns_respond
  apply monitor_installation_returns c hc; intro _
  apply returns_respond
  apply returns_attempt _ _ (hc.start_vm _ _); intro _
  apply returns_ite <;> intro _
  · rfl
  apply returns_respond
  apply returns_attempt _ _ (hc.dump_object _); intro _
  rfl

/-- A run of `get_vm_status` returns when no collaborator call throws. -/
theorem get_vm_status_returns {J : Type} (c : collaborators J) (hc : calls_return c)
    (workload_id : Nat) (params : J) :
    (get_vm_status c workload_id params).thrown = false := by
  unfold get_vm_status
  apply returns_attempt _ _ (hc.dump _); intro _
  apply returns_attempt _ _ (hc.value_string _ _ _); intro _
  apply returns_ite <;> intro _
  · rfl
  apply returns_respond
  apply returns_attempt _ _ hc.connect; intro _
  apply returns_ite <;> intro _
  · rfl
  apply returns_attempt _ _ (hc.get_vm_info _ _); intro _
  apply returns_ite <;> intro hcontains
  · apply returns_attempt _ _ (hc.get_string _ _ hcontains); intro _
    rfl
  apply returns_attempt _ _ (hc.dump _); intro _
  rfl

/-- A run of `start_vm` returns when no collaborator call throws. -/
theorem start_vm_returns {J : Type} (c : collaborators J) (hc : calls_return c)
    (workload_id : Nat) (params : J) :
    (start_vm c workload_id params).thrown = false := by
  unfold start_vm
  apply returns_attempt _ _ (hc.dump _); intro _
  apply returns_attempt _ _ (hc.value_string _ _ _); intro _
  apply returns_ite <;> intro _
  · rfl
  apply returns_respond
  apply returns_attempt _ _ hc.connect; intro _
  apply returns_ite <;> intro _
  · rfl
  apply returns_attempt _ _ (hc.start_vm _ _); intro _
  apply returns_ite <;> intro _
  · rfl
  apply returns_attempt _ _ (hc.dump_object _); intro _
  rfl

/-- A run of `stop_vm` returns when no collaborator call throws. -/
theorem stop_vm_returns {J : Type} (c : collaborators J) (hc : calls_return c)
    (workload_id : Nat) (params : J) :
    (stop_vm c workload_id params).thrown = false := by
  unfold stop_vm
  apply returns_attempt _ _ (hc.dump _); intro _
  apply returns_attempt _ _ (hc.value_string _ _ _); intro _
  apply returns_ite <;> intro _
  · rfl
  apply returns_respond
  apply returns_attempt _ _ hc.connect; intro _
  apply returns_ite <;> intro _
  · rfl
  apply returns_attempt _ _ (hc.stop_vm _); intro _
  apply returns_ite <;> intro _
  · rfl
  apply returns_attempt _ _ (hc.dump_object _); intro _
  rfl

/-- A run of `remove_vm` returns when no collaborator call throws. -/
theorem remove_vm_returns {J : Type} (c : collaborators J) (hc : calls_return c)
    (workload_id : Nat) (params : J) :
    (remove_vm c workload_id params).thrown = false := by
  unfold remove_vm
  apply returns_attempt _ _ (hc.dump _); intro _
  apply returns_attempt _ _ (hc.value_string _ _ _); intro _
  apply returns_ite <;> intro _
  · rfl
  apply returns_respond
  apply returns_attempt _ _ hc.connect; intro _
  apply returns_ite <;> intro _
  · rfl
  apply returns_attempt _ _ (hc.delete_vm _); intro _
  apply returns_ite <;> intro _
  · rfl
  apply returns_attempt _ _ (hc.dump_object _); intro _
  rfl

/-- The collaborators of the concrete scenarios never throw. -/
theorem obliging_calls_return (states : Nat → String) : calls_return (obliging states) where
  dump := fun _ => by simp [obliging]
  value_string := fun _ _ _ => by simp [obliging]
  value_int := fun _ _ _ => by simp [obliging]
  value_bool := fun _ _ _ => by simp [obliging]
  get_string := fun j key h => by
    simp only [obliging] at h ⊢
    cases hl : List.lookup key j with
    | none => rw [hl] at h; simp at h
    | some v => simp
  dump_object := fun _ => by simp [obliging]
  file_exists := fun _ => by simp [obliging]
  connect := by simp [obliging]
  ensure_network_available := fun _ => by simp [obliging]
  get_network_diagnostics := fun _ => by simp [obliging]
  vm_exists := fun _ => by simp [obliging]
  create_vm := fun _ => by simp [obliging]
  start_vm := fun _ _ => by simp [obliging]
  stop_vm := fun _ => by simp [obliging]
  delete_vm := fun _ => by simp [obliging]
  get_vm_info := fun _ _ => by simp [obliging]
  generate_autounattend := fun _ => by simp [obliging]

/-- C23: each of the seven handlers (the `switch` calls `check_installed_apps`,
`scan_wim_versions`, `install_vm`, `get_vm_status`, `start_vm`, `stop_vm`, `remove_vm` for
the kinds 0 to 6), for every params payload and every outcome of the collaborator calls in
which no call throws, returns without an exception and has sent zero or more in-progress
responses followed by exactly one terminal response (completed or error), which is the last
one, all of them with the workload id of the request. The same holds for every single run
that returns without an exception, whatever the collaborators do elsewhere. -/
theorem handlers_end_with_one_terminal {J : Type} (c : collaborators J) (workload_id : Nat)
    (params : J) :
    (dispatch c workload_id 0 params = check_installed_apps c workload_id params ∧
      dispatch c workload_id 1 params = scan_wim_versions c workload_id params ∧
      dispatch c workload_id 2 params = install_vm c workload_id params ∧
      dispatch c workload_id 3 params = get_vm_status c workload_id params ∧
      dispatch c workload_id 4 params = start_vm c workload_id params ∧
      dispatch c workload_id 5 params = stop_vm c workload_id params ∧
      dispatch c workload_id 6 params = remove_vm c workload_id params) ∧
    ∀ kind : ipc.workload_type,
      (calls_return c →
        (dispatch c workload_id kind.underlying params).thrown = false ∧
        ∃ progress last,
          (dispatch c workload_id kind.underlying params).sent = progress ++ [last] ∧
          last.workload_id = workload_id ∧
          (last.status = ipc.workload_status.completed ∨
            last.status = ipc.workload_status.error) ∧
          ∀ r ∈ progress, r.workload_id = workload_id ∧
            r.status = ipc.workload_status.in_progress) ∧
      ((dispatch c workload_id kind.underlying params).thrown = false →
        ∃ progress last,
          (dispatch c workload_id kind.underlying params).sent = progress ++ [last] ∧
          last.workload_id = workload_id ∧
          (last.status = ipc.workload_status.completed ∨
            last.status = ipc.workload_status.error) ∧
          ∀ r ∈ progress, r.workload_id = workload_id ∧
            r.status = ipc.workload_status.in_progress) := by
  refine ⟨⟨rfl, rfl, rfl, rfl, rfl, rfl, rfl⟩, ?_⟩
  intro kind
  have hshape : (dispatch c workload_id kind.underlying params).thrown = false →
      progress_then_terminal workload_id
        (dispatch c workload_id kind.underlying params).sent = true := by
    intro ht
    cases kind
    · exact check_installed_apps_shape c workload_id params ht
    · exact scan_wim_versions_shape c workload_id params ht
    · exact install_vm_shape c workload_id params ht
    · exact get_vm_status_shape c workload_id params ht
    · exact start_vm_shape c workload_id params ht
    · exact stop_vm_shape c workload_id params ht
    · exact remove_vm_shape c workload_id params ht
  have hreturns : calls_return c →
      (dispatch c workload_id kind.underlying params).thrown = false := by
    intro hc
    cases kind
    · exact check_installed_apps_returns c workload_id params
    · exact scan_wim_versions_returns c hc workload_id params
    · exact install_vm_returns c hc workload_id params
    · exact get_vm_status_returns c hc workload_id params
    · exact start_vm_returns c hc workload_id params
    · exact stop_vm_returns c hc workload_id params
    · exact remove_vm_returns c hc workload_id params
  exact ⟨fun hc => ⟨hreturns hc, progress_then_terminal_spec _ _ (hshape (hreturns hc))⟩,
    fun ht => progress_then_terminal_spec _ _ (hshape ht)⟩

/-- Witness for `handlers_end_with_one_terminal`: with collaborators that never throw, a
`get_vm_status` request for the VM "vm" is answered with one in-progress response and one
completed response. -/
theorem handlers_end_with_one_terminal_witness :
    dispatch (obliging (shutoff_from 0)) 7 3 [("vm_name", "vm")]
      = handler_run.mk
        [sent_response.mk 7 ipc.workload_status.in_progress "Getting status for VM 'vm'...",
          sent_response.mk 7 ipc.workload_status.completed "json"] false ∧
    ((dispatch (obliging (shutoff_from 0)) 7
        ipc.workload_type.get_vm_status.underlying [("vm_name", "vm")]).thrown = false ∧
    ∃ progress last,
      (dispatch (obliging (shutoff_from 0)) 7
        ipc.workload_type.get_vm_status.underlying [("vm_name", "vm")]).sent
        = progress ++ [last] ∧
      last.workload_id = 7 ∧
      (last.status = ipc.workload_status.completed ∨
        last.status = ipc.workload_status.error) ∧
      ∀ r ∈ progress, r.workload_id = 7 ∧ r.status = ipc.workload_status.in_progress) :=
  ⟨by decide,
    ((handlers_end_with_one_terminal (obliging (shutoff_from 0)) 7 [("vm_name", "vm")]).2
      ipc.workload_type.get_vm_status).1 (obliging_calls_return (shutoff_from 0))⟩

/-- C24, counterexample: for a request with the kind byte 7 the thread sends no response at
all, and for a `get_vm_status` request whose handler throws at its first call (the params
cannot be dumped) the thread ends without an exception and without any response. -/
theorem invalid_kind_counterexample :
    workload_thread (obliging (shutoff_from 0)) 5 7 [] = handler_run.mk [] false ∧
    get_vm_status { obliging (shutoff_from 0) with dump := fun _ => none } 5 []
      = handler_run.mk [] true ∧
    workload_thread { obliging (shutoff_from 0) with dump := fun _ => none } 5 3 []
      = handler_run.mk [] false := by
  decide

/-- C24 (amended): the thread started for a request never ends with an exception, and it
sends exactly the responses that the `switch` sent; the two `catch` clauses add no response.
When the kind is none of the seven kinds that is no response at all. When the kind is one of
the seven: a handler that returns has sent in-progress responses followed by exactly one
terminal response, and a handler that throws has sent in-progress responses only, so that
the thread sends a terminal response exactly when the handler returns. -/
theorem thread_adds_no_response {J : Type} (c : collaborators J) (workload_id : Nat)
    (workload : Int) (params : J) :
    (workload_thread c workload_id workload params).thrown = false ∧
    (workload_thread c workload_id workload params).sent
      = (dispatch c workload_id workload params).sent ∧
    (workload < 0 ∨ 6 < workload →
      (workload_thread c workload_id workload params).sent = []) ∧
    (0 ≤ workload → workload ≤ 6 →
      ((dispatch c workload_id workload params).thrown = false →
        ∃ progress last,
          (workload_thread c workload_id workload params).sent = progress ++ [last] ∧
          last.workload_id = workload_id ∧
          (last.status = ipc.workload_status.completed ∨
            last.status = ipc.workload_status.error) ∧
          ∀ r ∈ progress, r.workload_id = workload_id ∧
            r.status = ipc.workload_status.in_progress) ∧
      ((dispatch c workload_id workload params).thrown = true →
        ∀ r ∈ (workload_thread c workload_id workload params).sent,
          r.workload_id = workload_id ∧ r.status = ipc.workload_status.in_progress)) := by
  refine ⟨rfl, rfl, ?_, ?_⟩
  · intro h
    have h0 : workload ≠ 0 := by omega
    have h1 : workload ≠ 1 := by omega
    have h2 : workload ≠ 2 := by omega
    have h3 : workload ≠ 3 := by omega
    have h4 : workload ≠ 4 := by omega
    have h5 : workload ≠ 5 := by omega
    have h6 : workload ≠ 6 := by omega
    simp [workload_thread, dispatch, h0, h1, h2, h3, h4, h5, h6, finished]
  · intro hlo hhi
    have hcases : workload = 0 ∨ workload = 1 ∨ workload = 2 ∨ workload = 3 ∨ workload = 4 ∨
        workload = 5 ∨ workload = 6 := by omega
    constructor
    · intro ht
      apply progress_then_terminal_spec
      show progress_then_terminal workload_id
        (dispatch c workload_id workload params).sent = true
      rcases hcases with h | h | h | h | h | h | h <;> subst h
      · exact check_installed_apps_shape c workload_id params ht
      · exact scan_wim_versions_shape c workload_id params ht
      · exact install_vm_shape c workload_id params ht
      · exact get_vm_status_shape c workload_id params ht
      · exact start_vm_shape c workload_id params ht
      · exact stop_vm_shape c workload_id params ht
      · exact remove_vm_shape c workload_id params ht
    · intro ht
      apply all_in_progress_spec
      show all_in_progress workload_id (dispatch c workload_id workload params).sent = true
      rcases hcases with h | h | h | h | h | h | h <;> subst h
      · exact check_installed_apps_interrupted c workload_id params ht
      · exact scan_wim_versions_interrupted c workload_id params ht
      · exact install_vm_interrupted c workload_id params ht
      · exact get_vm_status_interrupted c workload_id params ht
      · exact start_vm_interrupted c workload_id params ht
      · exact stop_vm_interrupted c workload_id params ht
      · exact remove_vm_interrupted c workload_id params ht

/-- Witness for `thread_adds_no_response`: the handler of a `start_vm` request for the VM
"vm" throws when it connects to libvirt; the thread has sent the one in-progress response of
the handler and no terminal response. -/
theorem thread_adds_no_response_witness :
    dispatch { obliging (shutoff_from 0) with connect := none } 9 4 [("vm_name", "vm")]
      = handler_run.mk
        [sent_response.mk 9 ipc.workload_status.in_progress "Starting VM 'vm'..."] true ∧
    workload_thread { obliging (shutoff_from 0) with connect := none } 9 4 [("vm_name", "vm")]
      = handler_run.mk
        [sent_response.mk 9 ipc.workload_status.in_progress "Starting VM 'vm'..."] false ∧
    ∀ r ∈ (workload_thread { obliging (shutoff_from 0) with connect := none } 9 4
        [("vm_name", "vm")]).sent,
      r.workload_id = 9 ∧ r.status = ipc.workload_status.in_progress :=
  ⟨by decide, by decide,
    ((thread_adds_no_response { obliging (shutoff_from 0) with connect := none } 9 4
      [("vm_name", "vm")]).2.2.2 (by decide) (by decide)).2 (by decide)⟩

/-- C27: a VM found running at the polls 1 to 119 and shut off at poll 120. The monitoring
ends with the error "Windows installation timed out after 2 hours" and never reaches the
success path, and so does the whole of `install_vm`; had the VM shut off at poll 119 the
success path would have been taken. -/
theorem shutoff_on_last_poll_times_out :
    (monitor_installation (obliging (shutoff_from 120)) 7 "LSWVM"
      (fun _ => respond 7 ipc.workload_status.completed "done" finished)).sent.getLast?
      = some (sent_response.mk 7 ipc.workload_status.error
          "Windows installation timed out after 2 hours") ∧
    (install_vm (obliging (shutoff_from 120)) 7
      [("iso_path", "/win.iso"), ("admin_password", "pw")]).sent.getLast?
      = some (sent_response.mk 7 ipc.workload_status.error
          "Windows installation timed out after 2 hours") ∧
    (monitor_installation (obliging (shutoff_from 119)) 7 "LSWVM"
      (fun _ => respond 7 ipc.workload_status.completed "done" finished)).sent.getLast?
      = some (sent_response.mk 7 ipc.workload_status.completed "done") ∧
    shutoff_from 120 119 = "running" ∧ shutoff_from 120 120 = "shutoff" := by
  decide

/-- One pass through the main loop on a connected socket in which nothing throws: whatever
`receive_workload_request` returns, a thread is started for it and the loop goes on. -/
theorem run_loop_succ {J : Type} (lib : ipc.json_lib J) (env : loop_env)
    (m_ipc : ipc.ipc_state) (u : ipc.uninit_locals) (hc : m_ipc.m_socket_fd ≠ -1) (fuel : Nat)
    (ch : List ipc.delivery) (started : List (task J))
    (hread : read_throws env m_ipc u ch = false)
    (hthread : env.thread_starts started.length = true) :
    run_loop lib env m_ipc u (fuel + 1) ch started =
      run_loop lib env m_ipc u fuel (ipc.receive_workload_request lib m_ipc u ch).2
        (started ++ [task.mk (ipc.receive_workload_request lib m_ipc u ch).1.1
          (ipc.receive_workload_request lib m_ipc u ch).1.2.1
          (ipc.receive_workload_request lib m_ipc u ch).1.2.2]) := by
  have : ipc.is_connected m_ipc = true := by simp [ipc.is_connected, hc]
  simp [run_loop, this, hread, hthread]

/-- A pass through the main loop in which the read or the start of the thread throws ends
the loop. -/
theorem run_loop_exception {J : Type} (lib : ipc.json_lib J) (env : loop_env)
    (m_ipc : ipc.ipc_state) (u : ipc.uninit_locals) (fuel : Nat)
    (ch : List ipc.delivery) (started : List (task J))
    (h : read_throws env m_ipc u ch = true ∨ env.thread_starts started.length = false) :
    run_loop lib env m_ipc u (fuel + 1) ch started = some started := by
  unfold run_loop
  by_cases hc : ipc.is_connected m_ipc = true
  · rw [if_pos hc]
    by_cases hr : read_throws env m_ipc u ch = true
    · rw [if_pos hr]
    · rw [if_neg hr]
      rcases h with h | h
      · exact absurd h hr
      · simp [h]
  · rw [if_neg hc]

/-- Without an exception the main loop on a connected socket does not end. -/
theorem run_loop_no_exception {J : Type} (lib : ipc.json_lib J) (env : loop_env)
    (m_ipc : ipc.ipc_state) (u : ipc.uninit_locals) (hc : m_ipc.m_socket_fd ≠ -1)
    (hfits : ∀ n, env.string_fits n = true) (hstarts : ∀ k, env.thread_starts k = true) :
    ∀ (fuel : Nat) (ch : List ipc.delivery) (started : List (task J)),
      run_loop lib env m_ipc u fuel ch started = none := by
  intro fuel
  induction fuel with
  | zero => intro ch started; rfl
  | succ n ih =>
    intro ch started
    have hread : read_throws env m_ipc u ch = false := by
      unfold read_throws
      split
      · simp [hfits]
      · rfl
    rw [run_loop_succ lib env m_ipc u hc n ch started hread (hstarts _)]
    exact ih _ _

/-- C25: once connected, the main loop of `worker::run` does not end on a failed read. When
the first `recv` of `receive_workload_request` fails, the call returns the id 0 with the
kind -1 and throws nothing; the loop does not test the result: it constructs a thread for
it and, when that succeeds, goes on with the next read (only an exception in the
construction of the thread ends the loop here). As long as no pass ends with an exception
(every `params_str` is constructed and every thread starts), the loop is still running after
any number of iterations, whatever the channel delivers, failed reads included, so that
`run` does not return. -/
theorem run_survives_failed_read {J : Type} (lib : ipc.json_lib J) (env : loop_env)
    (socket_fd : Int) (u : ipc.uninit_locals) (hfd : socket_fd ≠ -1) (fuel : Nat)
    (ch : List ipc.delivery) (started : List (task J)) :
    ipc.receive_workload_request lib (ipc.ipc_state.mk socket_fd 0 [])
        u (ipc.delivery.failure :: ch) = ((0, -1, lib.object), ch) ∧
    read_throws env (ipc.ipc_state.mk socket_fd 0 []) u (ipc.delivery.failure :: ch) = false ∧
    (env.thread_starts started.length = true →
      run_loop lib env (ipc.ipc_state.mk socket_fd 0 []) u (fuel + 1)
          (ipc.delivery.failure :: ch) started
        = run_loop lib env (ipc.ipc_state.mk socket_fd 0 []) u fuel ch
          (started ++ [task.mk 0 (-1) lib.object])) ∧
    (env.thread_starts started.length = false →
      run_loop lib env (ipc.ipc_state.mk socket_fd 0 []) u (fuel + 1)
          (ipc.delivery.failure :: ch) started = some started) ∧
    ((∀ n, env.string_fits n = true) → (∀ k, env.thread_starts k = true) →
      run_loop lib env (ipc.ipc_state.mk socket_fd 0 []) u fuel ch started = none ∧
      run_loop lib env (ipc.ipc_state.mk socket_fd 0 []) u fuel
        (List.replicate fuel ipc.delivery.failure) started = none ∧
      run lib env 0 socket_fd true u fuel ch = none) := by
  have hrecv : ipc.receive_workload_request lib (ipc.ipc_state.mk socket_fd 0 [])
      u (ipc.delivery.failure :: ch) = ((0, -1, lib.object), ch) := by
    simp [ipc.receive_workload_request, hfd, ipc.recv]
  have hread : read_throws env (ipc.ipc_state.mk socket_fd 0 []) u
      (ipc.delivery.failure :: ch) = false := by
    simp [read_throws, declared_params_length, hfd, ipc.recv]
  refine ⟨hrecv, hread, ?_, ?_, ?_⟩
  · intro ht
    rw [run_loop_succ lib env _ u hfd fuel _ started hread ht, hrecv]
  · intro ht
    exact run_loop_exception lib env _ u fuel _ started (Or.inr ht)
  · intro hfits hstarts
    have hnone := run_loop_no_exception lib env (ipc.ipc_state.mk socket_fd 0 []) u hfd
      hfits hstarts
    refine ⟨hnone fuel ch started, hnone fuel _ started, ?_⟩
    simp [run, ipc.connect_to_server, ipc.fresh, hfd, hnone]

/-- Witness for `run_survives_failed_read`: on a channel whose only delivery is a failure
the loop has started a thread for the id 0 and is still running after three iterations. -/
theorem run_survives_failed_read_witness :
    run ipc.bytes_json no_exception 0 3 true (ipc.uninit_locals.mk 0 0 0) 3
        [ipc.delivery.failure] = none ∧
    run_loop ipc.bytes_json no_exception (ipc.ipc_state.mk 3 0 []) (ipc.uninit_locals.mk 0 0 0)
        1 [ipc.delivery.failure] []
      = run_loop ipc.bytes_json no_exception (ipc.ipc_state.mk 3 0 [])
        (ipc.uninit_locals.mk 0 0 0) 0 [] ([] ++ [task.mk 0 (-1) ipc.bytes_json.object]) :=
  ⟨((run_survives_failed_read ipc.bytes_json no_exception 3 (ipc.uninit_locals.mk 0 0 0)
      (by decide) 3 [ipc.delivery.failure] []).2.2.2.2 (fun _ => rfl) (fun _ => rfl)).2.2,
    (run_survives_failed_read ipc.bytes_json no_exception 3 (ipc.uninit_locals.mk 0 0 0)
      (by decide) 0 [] []).2.2.1 rfl⟩

end worker
